import Mathlib

/-!
# libsimdpp: differential test oracle and `bit_andnot` backend resolution

A shallow embedding of

* `test/test_case.cc` (snapshot capture, `cmpeq_result`, `test_equal`),
* `simdpp/detail/insn/bit_andnot.h` (the `i_bit_andnot` overload set),
* `simdpp/dispatch/get_arch_gcc_builtin_cpu_supports.h`.

Conventions.

* Machine integers are natural numbers; a lane of `8*w` bits is a number below
  `2^(8*w)`.  A payload is the byte array `v_u8` of the result union; the wider
  views (`v_u16`, `v_f32`, ...) read it in little-endian byte order.
* A floating-point lane is its IEEE-754 bit pattern.  `nextafter`, the
  conversions between `float` and `double` and the comparison `!=` are defined
  on bit patterns, under the default rounding mode.
* `std::abort()` is the result `none`.
* The text written to a `std::ostream` is the list of the values inserted, one
  `Out` item per `<<`.
-/

set_option autoImplicit false

/-! ## Test case data model (`test_case.cc`, with the field names used there) -/

namespace TestCase

/-- The enumeration `TestCase::Type`.  The 21 enumerators are the case labels of
`size_for_type`; `TYPE_OTHER` is any other value of the enumeration type, the
one that reaches the `default:` branches. -/
inductive TypeTag where
  | TYPE_UINT16
  | TYPE_UINT8x16
  | TYPE_INT8x16
  | TYPE_UINT16x8
  | TYPE_INT16x8
  | TYPE_UINT32x4
  | TYPE_INT32x4
  | TYPE_UINT64x2
  | TYPE_INT64x2
  | TYPE_FLOAT32x4
  | TYPE_FLOAT64x2
  | TYPE_UINT8x32
  | TYPE_INT8x32
  | TYPE_UINT16x16
  | TYPE_INT16x16
  | TYPE_UINT32x8
  | TYPE_INT32x8
  | TYPE_UINT64x4
  | TYPE_INT64x4
  | TYPE_FLOAT32x8
  | TYPE_FLOAT64x4
  | TYPE_OTHER (raw : Nat)
  deriving DecidableEq, Repr

/-- The record `TestCase::Result`: type tag, the bytes of the payload union,
source line, sequence number and the tolerance recorded at capture. -/
structure Result where
  type : TypeTag
  v_u8 : List Nat
  line : Nat
  seq : Nat
  prec_ulp : Nat
  deriving DecidableEq, Repr

end TestCase

/-- The class `TestCase`: name, file, captured results, sequence counter and
the current tolerance. -/
structure TestCase where
  name_ : String
  file_ : String
  results_ : List TestCase.Result
  seq_ : Nat
  curr_precision_ulp_ : Nat
  deriving DecidableEq, Repr

namespace TestCase

open TypeTag

/-- `TestCase::size_for_type`; the `default:` branch calls `std::abort()`. -/
def size_for_type : TypeTag → Option Nat
  | TYPE_UINT16 => some 2
  | TYPE_UINT8x16 => some 16
  | TYPE_INT8x16 => some 16
  | TYPE_UINT16x8 => some 16
  | TYPE_INT16x8 => some 16
  | TYPE_UINT32x4 => some 16
  | TYPE_INT32x4 => some 16
  | TYPE_UINT64x2 => some 16
  | TYPE_INT64x2 => some 16
  | TYPE_FLOAT32x4 => some 16
  | TYPE_FLOAT64x2 => some 16
  | TYPE_UINT8x32 => some 32
  | TYPE_INT8x32 => some 32
  | TYPE_UINT16x16 => some 32
  | TYPE_INT16x16 => some 32
  | TYPE_UINT32x8 => some 32
  | TYPE_INT32x8 => some 32
  | TYPE_UINT64x4 => some 32
  | TYPE_INT64x4 => some 32
  | TYPE_FLOAT32x8 => some 32
  | TYPE_FLOAT64x4 => some 32
  | TYPE_OTHER _ => none

/-- `TestCase::precision_for_result`. -/
def precision_for_result (res : Result) : Nat :=
  match res.type with
  | TYPE_FLOAT32x4 => res.prec_ulp
  | TYPE_FLOAT64x2 => res.prec_ulp
  | TYPE_FLOAT32x8 => res.prec_ulp
  | TYPE_FLOAT64x4 => res.prec_ulp
  | _ => 0

/-- Byte `i` of the payload union, as a `uint8_t`. -/
def Result.byte (r : Result) (i : Nat) : Nat := r.v_u8.getD i 0 % 256

/-- Little-endian read of `w` bytes of the payload starting at byte `off`. -/
def Result.load (r : Result) (off : Nat) : Nat → Nat
  | 0 => 0
  | w + 1 => r.byte off + 256 * Result.load r (off + 1) w

/-- Element `i` of the view of the union with elements of `w` bytes
(`v_u8`, `v_u16`, `v_u32`, `v_u64`; `v_f32` and `v_f64` as bit patterns). -/
def Result.lane (r : Result) (w i : Nat) : Nat := r.load (w * i) w

/-- Value of a `w`-byte lane read as a signed integer (`v_s8` .. `v_s64`). -/
def sext (w : Nat) (x : Nat) : Int :=
  if 2 ^ (8 * w - 1) ≤ x then (x : Int) - 2 ^ (8 * w) else x

end TestCase

/-! ## IEEE-754 bit patterns: comparison and `nextafter` -/

/-- An IEEE-754 binary interchange format: total width and number of
explicitly stored significand bits. -/
structure FloatFormat where
  width : Nat
  mant : Nat
  deriving DecidableEq, Repr

/-- The format of `float`. -/
def binary32 : FloatFormat := ⟨32, 23⟩

/-- The format of `double`. -/
def binary64 : FloatFormat := ⟨64, 52⟩

namespace FloatFormat

/-- Sign bit of a pattern. -/
def sign (f : FloatFormat) (x : Nat) : Bool := decide (2 ^ (f.width - 1) ≤ x % 2 ^ f.width)

/-- The pattern without its sign bit. -/
def mag (f : FloatFormat) (x : Nat) : Nat := x % 2 ^ (f.width - 1)

/-- The pattern of +infinity: all exponent bits set, significand zero. -/
def inf (f : FloatFormat) : Nat := 2 ^ (f.width - 1) - 2 ^ f.mant

/-- A pattern is a NaN when its magnitude is above that of infinity. -/
def isnan (f : FloatFormat) (x : Nat) : Bool := decide (f.inf < f.mag x)

/-- Order-preserving key of a non-NaN pattern: sign-magnitude read as an
integer, so that both zeros have key 0. -/
def key (f : FloatFormat) (x : Nat) : Int :=
  if f.sign x then -(f.mag x : Int) else (f.mag x : Int)

/-- The comparison `x != y` on floating-point values: true when either side is
a NaN, otherwise true when the values differ. -/
def ne (f : FloatFormat) (x y : Nat) : Bool :=
  f.isnan x || f.isnan y || decide (f.key x ≠ f.key y)

/-- The C library function `nextafter(x, y)` on bit patterns: a NaN when either
argument is a NaN; `y` when the values are equal; the smallest subnormal with
the sign of `y` when `x` is a zero; otherwise the pattern next to `x` in the
direction of `y`. -/
def nextafter (f : FloatFormat) (x y : Nat) : Nat :=
  if f.isnan x then x ||| 2 ^ (f.mant - 1)
  else if f.isnan y then y ||| 2 ^ (f.mant - 1)
  else if f.key x = f.key y then y
  else if f.mag x = 0 then (if f.sign y then 2 ^ (f.width - 1) + 1 else 1)
  else if decide (f.key x < f.key y) = !f.sign x then x + 1
  else x - 1

end FloatFormat

/-- Round `v / 2 ^ sh` to the nearest integer, ties to even: the rounding of a
conversion under the default rounding mode. -/
def round_to_nearest_even (v sh : Nat) : Nat :=
  v / 2 ^ sh +
    (if 2 ^ sh < 2 * (v % 2 ^ sh) ∨ (2 ^ sh = 2 * (v % 2 ^ sh) ∧ v / 2 ^ sh % 2 = 1) then 1 else 0)

/-- The magnitude (pattern without sign) of the `double` a `float` magnitude
is promoted to.  The conversion is exact: infinity stays infinity, a NaN
becomes a quiet NaN with the same payload, zero stays zero, a subnormal
`f * 2^-149` is normalised around its leading bit `Nat.log2 f`, and a normal
value has its exponent rebiased by 1023 - 127 = 896 and its significand
widened by 29 bits. -/
def float_to_double_mag (n : Nat) : Nat :=
  let e := n / 2 ^ 23
  let f := n % 2 ^ 23
  if e = 255 then
    (if f = 0 then 2047 * 2 ^ 52 else 2047 * 2 ^ 52 + 2 ^ 51 + f % 2 ^ 22 * 2 ^ 29)
  else if e = 0 then
    (if f = 0 then 0 else (Nat.log2 f + 873) * 2 ^ 52 + f * 2 ^ (52 - Nat.log2 f))
  else (n + 896 * 2 ^ 23) * 2 ^ 29

/-- The implicit conversion `float → double` of an argument, on bit patterns:
the sign bit moves from bit 31 to bit 63. -/
def float_to_double (x : Nat) : Nat :=
  x / 2 ^ 31 % 2 * 2 ^ 63 + float_to_double_mag (x % 2 ^ 31)

/-- The magnitude of the `float` a `double` magnitude is converted to, rounded
to nearest, ties to even.  A NaN gives a quiet NaN with the upper payload
bits; from the exponent of the smallest normal `float` (897) upward the
pattern is rounded at bit 29, a carry moves into the exponent, and a result at
or above the exponent 255 is infinity; below, the 53-bit significand is
shifted down to the subnormal grid of `2^-149` and rounded; a value below
`2^-150` (exponent under 873) rounds to zero. -/
def double_to_float_mag (m : Nat) : Nat :=
  let de := m / 2 ^ 52
  let dm := m % 2 ^ 52
  if 2047 * 2 ^ 52 < m then 0x7fc00000 + dm / 2 ^ 29 % 2 ^ 22
  else if 897 ≤ de then
    (if 1151 * 2 ^ 23 ≤ round_to_nearest_even m 29 then 0x7f800000
     else round_to_nearest_even m 29 - 896 * 2 ^ 23)
  else if de < 873 then 0
  else round_to_nearest_even (2 ^ 52 + dm) (926 - de)

/-- The conversion `double → float` of an assignment to a `float`, on bit
patterns: the sign bit moves from bit 63 to bit 31. -/
def double_to_float (d : Nat) : Nat :=
  d / 2 ^ 63 % 2 * 2 ^ 31 + double_to_float_mag (d % 2 ^ 63)

/-- The statement `ia = nextafter(ia, ib)` of `cmpeq_arrays<num_elems, T>`.
The call is unqualified and `test_case.cc` includes `<cmath>` without a using
directive, so the name found is the C library function
`double nextafter(double, double)` of the global namespace, as with
libstdc++ on glibc (`test_case.h` is taken to declare no `nextafter` of its
own).  For `T = double` that is the step between neighbouring doubles.  For
`T = float` both arguments are promoted to `double`, the step is taken between
neighbouring doubles, and the assignment converts the result back to `float`. -/
def cmpeq_arrays_nextafter (f : FloatFormat) (ia ib : Nat) : Nat :=
  if f = binary32 then
    double_to_float (binary64.nextafter (float_to_double ia) (float_to_double ib))
  else f.nextafter ia ib

/-- The inner loop of `cmpeq_arrays`: `prec` times `ia = nextafter(ia, ib)`. -/
def cmpeq_arrays_walk (f : FloatFormat) : Nat → Nat → Nat → Nat
  | 0, ia, _ => ia
  | prec + 1, ia, ib => cmpeq_arrays_walk f prec (cmpeq_arrays_nextafter f ia ib) ib

/-- The outer loop of `cmpeq_arrays`, started at element `i` with `n` elements
left: the first element whose walk does not end on `ib` returns false. -/
def cmpeq_arrays_from (f : FloatFormat) (a b : Nat → Nat) (prec : Nat) : Nat → Nat → Bool
  | 0, _ => true
  | n + 1, i =>
    if f.ne (cmpeq_arrays_walk f prec (a i) (b i)) (b i) then false
    else cmpeq_arrays_from f a b prec n (i + 1)

/-- The template `cmpeq_arrays<num_elems, T>(a, b, prec)`. -/
def cmpeq_arrays (f : FloatFormat) (num_elems : Nat) (a b : Nat → Nat) (prec : Nat) : Bool :=
  cmpeq_arrays_from f a b prec num_elems 0

namespace TestCase

open TypeTag

/-- The call `std::memcmp(a, b, n) == 0` on two payload unions. -/
def memcmp_eq (a b : Result) (n : Nat) : Bool :=
  (List.range n).all (fun i => a.byte i == b.byte i)

/-- `TestEqualImpl::cmpeq_result`. -/
def cmpeq_result (ia ib : Result) (prec : Nat) : Option Bool :=
  match size_for_type ia.type with
  | none => none
  | some n =>
    if memcmp_eq ia ib n then some true
    else if prec = 0 then some false
    else match ia.type with
      | TYPE_FLOAT32x4 => some (cmpeq_arrays binary32 4 (ia.lane 4) (ib.lane 4) prec)
      | TYPE_FLOAT64x2 => some (cmpeq_arrays binary64 2 (ia.lane 8) (ib.lane 8) prec)
      | TYPE_FLOAT32x8 => some (cmpeq_arrays binary32 8 (ia.lane 4) (ib.lane 4) prec)
      | TYPE_FLOAT64x4 => some (cmpeq_arrays binary64 4 (ia.lane 8) (ib.lane 8) prec)
      | _ => some false

end TestCase

/-! ## The diagnostic stream -/

/-- A value printed by `fmt_vec_num`: an integer, or a floating-point number
given by its format and bit pattern. -/
inductive Elem where
  | int (v : Int)
  | flt (f : FloatFormat) (bits : Nat)
  deriving DecidableEq, Repr

/-- One insertion into the `std::ostream`. -/
inductive Out where
  /-- A string literal of the program text. -/
  | lit (s : String)
  /-- A C string held in a variable (name, file, architecture label, prefix). -/
  | str (s : String)
  /-- An `unsigned` or `size_t` value in decimal. -/
  | num (n : Nat)
  /-- A `uint64_t` in `std::hex` with `std::setw(w)` and fill character 0. -/
  | hex (w : Nat) (v : Nat)
  /-- A value printed in decimal under `precision(p)`. -/
  | val (p : Nat) (e : Elem)
  /-- A single character. -/
  | chr (c : Char)
  deriving DecidableEq, Repr

/-- The elements written by the loop of `fmt_vec_hex` from index `i` on, `n`
elements left: `setw(width*2) << uint64_t(*p)`, then `" ; "` unless last. -/
def fmt_vec_hex_from (width num_elems : Nat) (p : Nat → Int) : Nat → Nat → List Out
  | 0, _ => []
  | n + 1, i =>
    [Out.hex (width * 2) ((p i) % 2 ^ 64).toNat]
      ++ (if i ≠ num_elems - 1 then [Out.lit " ; "] else [])
      ++ fmt_vec_hex_from width num_elems p n (i + 1)

/-- The template `fmt_vec_hex<width, num_elems, T>(err, prefix, p)`. -/
def fmt_vec_hex (width num_elems : Nat) (pfx : String) (p : Nat → Int) : List Out :=
  [Out.str pfx, Out.lit "[ "] ++ fmt_vec_hex_from width num_elems p num_elems 0
    ++ [Out.lit " ]\n"]

/-- The elements written by the loop of `fmt_vec_num`. -/
def fmt_vec_num_from (precision num_elems : Nat) (p : Nat → Elem) : Nat → Nat → List Out
  | 0, _ => []
  | n + 1, i =>
    [Out.val precision (p i)]
      ++ (if i ≠ num_elems - 1 then [Out.lit " ; "] else [])
      ++ fmt_vec_num_from precision num_elems p n (i + 1)

/-- The template `fmt_vec_num<precision, num_elems, T>(err, prefix, p)`. -/
def fmt_vec_num (precision num_elems : Nat) (pfx : String) (p : Nat → Elem) : List Out :=
  [Out.str pfx, Out.lit "[ "] ++ fmt_vec_num_from precision num_elems p num_elems 0
    ++ [Out.lit " ]\n"]

/-- The loop of `fmt_bin`: one character per bit, lowest bit first. -/
def fmt_bin_from (n : Nat) : Nat → Nat → List Out
  | 0, _ => []
  | k + 1, i =>
    Out.chr (if n &&& (1 <<< i) ≠ 0 then '1' else '0') :: fmt_bin_from n k (i + 1)

/-- The template `fmt_bin<T>(err, prefix, n)` at `T = uint16_t`, where
`sizeof(T)*8` is 16. -/
def fmt_bin (pfx : String) (n : Nat) : List Out :=
  [Out.str pfx, Out.lit "[ "] ++ fmt_bin_from n 16 0 ++ [Out.lit " ]\n"]

namespace TestCase

open TypeTag

/-- The view of a result as unsigned `w`-byte elements (`v_u8` .. `v_u64`). -/
def Result.v_u (r : Result) (w : Nat) : Nat → Int := fun i => (r.lane w i : Int)

/-- The view of a result as signed `w`-byte elements (`v_s8` .. `v_s64`). -/
def Result.v_s (r : Result) (w : Nat) : Nat → Int := fun i => sext w (r.lane w i)

/-- The view `v_f32`. -/
def Result.v_f32 (r : Result) : Nat → Elem := fun i => Elem.flt binary32 (r.lane 4 i)

/-- The view `v_f64`. -/
def Result.v_f64 (r : Result) : Nat → Elem := fun i => Elem.flt binary64 (r.lane 8 i)

/-- `TestEqualImpl::type_str`. -/
def type_str : TypeTag → String
  | TYPE_UINT16 => "uint16"
  | TYPE_UINT8x16 => "uint8x16"
  | TYPE_INT8x16 => "int8x16"
  | TYPE_UINT16x8 => "uint16x8"
  | TYPE_INT16x8 => "int16x8"
  | TYPE_UINT32x4 => "uint32x4"
  | TYPE_INT32x4 => "int32x4"
  | TYPE_UINT64x2 => "uint64x2"
  | TYPE_INT64x2 => "int64x2"
  | TYPE_FLOAT32x4 => "float32x4"
  | TYPE_FLOAT64x2 => "float64x2"
  | TYPE_UINT8x32 => "uint8x32"
  | TYPE_INT8x32 => "int8x32"
  | TYPE_UINT16x16 => "uint16x16"
  | TYPE_INT16x16 => "int16x16"
  | TYPE_UINT32x8 => "uint32x8"
  | TYPE_INT32x8 => "int32x8"
  | TYPE_UINT64x4 => "uint64x4"
  | TYPE_INT64x4 => "int64x4"
  | TYPE_FLOAT32x8 => "float32x8"
  | TYPE_FLOAT64x4 => "float64x4"
  | TYPE_OTHER _ => "UNDEFINED"

/-- `TestEqualImpl::fmt_vector`; the switch has no `default:` branch. -/
def fmt_vector (r : Result) (pfx : String) : List Out :=
  match r.type with
  | TYPE_UINT16 => fmt_bin pfx (r.lane 2 0)
  | TYPE_UINT8x16 =>
    fmt_vec_hex 1 16 pfx (r.v_u 1) ++ fmt_vec_num 4 16 pfx (fun i => Elem.int (r.v_u 1 i))
  | TYPE_INT8x16 =>
    fmt_vec_hex 1 16 pfx (r.v_s 1) ++ fmt_vec_num 4 16 pfx (fun i => Elem.int (r.v_s 1 i))
  | TYPE_UINT16x8 =>
    fmt_vec_hex 2 8 pfx (r.v_u 2) ++ fmt_vec_num 6 8 pfx (fun i => Elem.int (r.v_u 2 i))
  | TYPE_INT16x8 =>
    fmt_vec_hex 2 8 pfx (r.v_s 2) ++ fmt_vec_num 6 8 pfx (fun i => Elem.int (r.v_s 2 i))
  | TYPE_UINT32x4 =>
    fmt_vec_hex 4 4 pfx (r.v_u 4) ++ fmt_vec_num 11 4 pfx (fun i => Elem.int (r.v_u 4 i))
  | TYPE_INT32x4 =>
    fmt_vec_hex 4 4 pfx (r.v_s 4) ++ fmt_vec_num 11 4 pfx (fun i => Elem.int (r.v_s 4 i))
  | TYPE_UINT64x2 =>
    fmt_vec_hex 8 2 pfx (r.v_u 8) ++ fmt_vec_num 20 2 pfx (fun i => Elem.int (r.v_u 8 i))
  | TYPE_INT64x2 =>
    fmt_vec_hex 8 2 pfx (r.v_s 8) ++ fmt_vec_num 20 2 pfx (fun i => Elem.int (r.v_s 8 i))
  | TYPE_FLOAT32x4 => fmt_vec_hex 4 4 pfx (r.v_u 4) ++ fmt_vec_num 7 4 pfx r.v_f32
  | TYPE_FLOAT64x2 => fmt_vec_hex 8 2 pfx (r.v_u 8) ++ fmt_vec_num 17 2 pfx r.v_f64
  | TYPE_UINT8x32 =>
    fmt_vec_hex 1 32 pfx (r.v_u 1) ++ fmt_vec_num 4 32 pfx (fun i => Elem.int (r.v_u 1 i))
  | TYPE_INT8x32 =>
    fmt_vec_hex 1 32 pfx (r.v_s 1) ++ fmt_vec_num 4 32 pfx (fun i => Elem.int (r.v_s 1 i))
  | TYPE_UINT16x16 =>
    fmt_vec_hex 2 16 pfx (r.v_u 2) ++ fmt_vec_num 6 16 pfx (fun i => Elem.int (r.v_u 2 i))
  | TYPE_INT16x16 =>
    fmt_vec_hex 2 16 pfx (r.v_s 2) ++ fmt_vec_num 6 16 pfx (fun i => Elem.int (r.v_s 2 i))
  | TYPE_UINT32x8 =>
    fmt_vec_hex 4 8 pfx (r.v_u 4) ++ fmt_vec_num 11 8 pfx (fun i => Elem.int (r.v_u 4 i))
  | TYPE_INT32x8 =>
    fmt_vec_hex 4 8 pfx (r.v_s 4) ++ fmt_vec_num 11 8 pfx (fun i => Elem.int (r.v_s 4 i))
  | TYPE_UINT64x4 =>
    fmt_vec_hex 8 4 pfx (r.v_u 8) ++ fmt_vec_num 20 4 pfx (fun i => Elem.int (r.v_u 8 i))
  | TYPE_INT64x4 =>
    fmt_vec_hex 8 4 pfx (r.v_s 8) ++ fmt_vec_num 20 4 pfx (fun i => Elem.int (r.v_s 8 i))
  | TYPE_FLOAT32x8 => fmt_vec_hex 4 8 pfx (r.v_u 4) ++ fmt_vec_num 7 8 pfx r.v_f32
  | TYPE_FLOAT64x4 => fmt_vec_hex 8 4 pfx (r.v_u 8) ++ fmt_vec_num 17 4 pfx r.v_f64
  | TYPE_OTHER _ => []

end TestCase

/-- The local class `TestEqualImpl` of `test_equal`: the two test cases and
their architecture labels (the stream is the value the methods return). -/
structure TestEqualImpl where
  a : TestCase
  a_arch : String
  b : TestCase
  b_arch : String
  deriving DecidableEq, Repr

namespace TestEqualImpl

open TestCase

/-- `fmt_separator`. -/
def fmt_separator : List Out :=
  [Out.lit "--------------------------------------------------------------\n"]

/-- `fmt_arch`. -/
def fmt_arch (t : TestEqualImpl) : List Out :=
  [Out.lit "  For architectures: ", Out.str t.a_arch, Out.lit " and ", Out.str t.b_arch,
    Out.lit " :\n"]

/-- `fmt_file`. -/
def fmt_file (t : TestEqualImpl) : List Out :=
  t.fmt_arch ++ [Out.lit "  In file \"", Out.str t.a.file_, Out.lit "\" :\n"]

/-- `fmt_file_line`. -/
def fmt_file_line (t : TestEqualImpl) (line : Nat) : List Out :=
  t.fmt_arch ++ [Out.lit "  In file \"", Out.str t.a.file_, Out.lit "\" at line ", Out.num line,
    Out.lit " : \n"]

/-- `fmt_test_case`. -/
def fmt_test_case (t : TestEqualImpl) : List Out :=
  [Out.lit "  In test case \"", Out.str t.a.name_, Out.lit "\" :\n"]

/-- `fmt_seq`. -/
def fmt_seq (num : Nat) : List Out :=
  [Out.lit "  Sequence number: ", Out.num num, Out.lit "\n"]

/-- `fmt_prec`. -/
def fmt_prec (prec : Nat) : List Out :=
  if prec > 0 then [Out.lit "  Precision: ", Out.num prec, Out.lit "ULP\n"] else []

/-- The text `run` writes when the names differ. -/
def fatal_names (t : TestEqualImpl) : List Out :=
  fmt_separator ++ t.fmt_file
    ++ [Out.lit "FATAL: Test case names do not match: \"", Out.str t.a.name_,
        Out.lit "\" and \"", Out.str t.b.name_, Out.lit "\"\n"]
    ++ fmt_separator

/-- The text `run` writes when the result counts differ. -/
def fatal_sizes (t : TestEqualImpl) : List Out :=
  fmt_separator ++ t.fmt_file ++ t.fmt_test_case
    ++ [Out.lit "FATAL: The lengths of the result vectors does not match: ",
        Out.num t.a.results_.length, Out.lit "/", Out.num t.b.results_.length, Out.lit "\n"]
    ++ fmt_separator

/-- The text `run` writes when the line numbers at index `i` differ. -/
def fatal_line (t : TestEqualImpl) (i : Nat) (ia ib : Result) : List Out :=
  fmt_separator ++ t.fmt_file ++ t.fmt_test_case
    ++ [Out.lit "FATAL: Line numbers do not match for items with the same ",
        Out.lit "sequence number: id: ", Out.num i,
        Out.lit " line_A: ", Out.num ia.line, Out.lit " line_B: ", Out.num ib.line,
        Out.lit "\n"]
    ++ fmt_separator

/-- The text `run` writes when the type tags at index `i` differ. -/
def fatal_type (t : TestEqualImpl) (i : Nat) (ia ib : Result) : List Out :=
  fmt_separator ++ t.fmt_file_line ia.line ++ t.fmt_test_case
    ++ [Out.lit "FATAL: Types do not match for items with the same ",
        Out.lit "sequence number: id: ", Out.num i,
        Out.lit " type_A: ", Out.str (type_str ia.type),
        Out.lit " line_B: ", Out.str (type_str ib.type), Out.lit "\n"]
    ++ fmt_separator

/-- The text `run` writes when the values of `ia` and `ib` differ. -/
def not_equal (t : TestEqualImpl) (ia ib : Result) (prec : Nat) : List Out :=
  fmt_separator ++ t.fmt_file_line ia.line ++ t.fmt_test_case ++ fmt_seq ia.seq
    ++ [Out.lit "ERROR: Vectors not equal: \n"]
    ++ fmt_vector ia "A : " ++ fmt_vector ib "B : " ++ fmt_prec prec
    ++ fmt_separator

/-- The loop of `run` over `a.results_[i]`, `b.results_[i]` (both sequences
have the same length here), with the loop variable `i`, the flag `ok` and the
text written so far. -/
def run_loop (t : TestEqualImpl) :
    List Result → List Result → Nat → Bool → List Out → Option (Bool × List Out)
  | ia :: as, ib :: bs, i, ok, err =>
    if ia.line ≠ ib.line then some (false, err ++ t.fatal_line i ia ib)
    else if ia.type ≠ ib.type then some (false, err ++ t.fatal_type i ia ib)
    else
      let prec := max (precision_for_result ia) (precision_for_result ib)
      match cmpeq_result ia ib prec with
      | none => none
      | some true => run_loop t as bs (i + 1) ok err
      | some false => run_loop t as bs (i + 1) false (err ++ t.not_equal ia ib prec)
  | _, _, _, ok, err => some (ok, err)

/-- `TestEqualImpl::run`: the result and the text written, or `none` when the
process is aborted. -/
def run (t : TestEqualImpl) : Option (Bool × List Out) :=
  if t.a.name_ ≠ t.b.name_ then some (false, t.fatal_names)
  else if t.a.results_.length ≠ t.b.results_.length then some (false, t.fatal_sizes)
  else run_loop t t.a.results_ t.b.results_ 0 true []

end TestEqualImpl

/-- The function `test_equal(a, a_arch, b, b_arch, err)`. -/
def test_equal (a : TestCase) (a_arch : String) (b : TestCase) (b_arch : String) :
    Option (Bool × List Out) :=
  TestEqualImpl.run ⟨a, a_arch, b, b_arch⟩

/-! ## Vocabulary of the comparison claims -/

namespace TestCase

/-- The tolerance `run` passes to `cmpeq_result` for a pair: the larger of the
two recorded tolerances, each filtered by `precision_for_result`. -/
def pair_prec (ia ib : Result) : Nat :=
  max (precision_for_result ia) (precision_for_result ib)

/-- Two test cases are structurally comparable: equal names, equal snapshot
counts, and equal line numbers and type tags at every index. -/
def comparable (a b : TestCase) : Prop :=
  a.name_ = b.name_ ∧ a.results_.length = b.results_.length ∧
    ∀ p ∈ a.results_.zip b.results_, p.1.line = p.2.line ∧ p.1.type = p.2.type

/-- A snapshot pair is value-equal under the laxer of its two tolerances. -/
def value_equal (p : Result × Result) : Prop :=
  cmpeq_result p.1 p.2 (pair_prec p.1 p.2) = some true

instance (p : Result × Result) : Decidable (value_equal p) := by
  unfold value_equal; infer_instance

end TestCase

namespace TestEqualImpl

open TestCase

/-- The line `run` writes at the head of the dumps of a value mismatch. -/
def not_equal_mark : Out := Out.lit "ERROR: Vectors not equal: \n"

/-- The blocks written for a sequence of snapshot pairs: one `not_equal` block
for each pair that is not value-equal, in order. -/
def blocks (t : TestEqualImpl) (ps : List (Result × Result)) : List Out :=
  ps.flatMap (fun p =>
    if value_equal p then [] else t.not_equal p.1 p.2 (pair_prec p.1 p.2))

end TestEqualImpl

/-! ## Concrete snapshots used as examples -/

namespace Example

open TestCase TestCase.TypeTag

/-- A `uint8x16` snapshot of sixteen bytes 0xFF at line 10, sequence 0. -/
def u8_ff : Result := ⟨TYPE_UINT8x16, List.replicate 16 0xFF, 10, 0, 0⟩

/-- A `uint8x16` snapshot of sixteen bytes 0x0F at line 10, sequence 0. -/
def u8_0f : Result := ⟨TYPE_UINT8x16, List.replicate 16 0x0F, 10, 0, 0⟩

/-- A `uint8x16` snapshot of sixteen zero bytes at `line`, sequence 1. -/
def u8_zero (line : Nat) : Result := ⟨TYPE_UINT8x16, List.replicate 16 0, line, 1, 0⟩

/-- A test case named `t` of file `f.cc` holding the given snapshots. -/
def case_of (rs : List Result) : TestCase := ⟨"t", "f.cc", rs, rs.length, 0⟩

end Example

/-! ## The shape a type tag names -/

namespace TestCase

open TypeTag

/-- The floating-point vector tags. -/
def is_float : TypeTag → Bool
  | TYPE_FLOAT32x4 => true
  | TYPE_FLOAT64x2 => true
  | TYPE_FLOAT32x8 => true
  | TYPE_FLOAT64x4 => true
  | _ => false

/-- Byte width of one element of the shape the tag names (0 for no shape). -/
def elem_width : TypeTag → Nat
  | TYPE_UINT16 => 2
  | TYPE_UINT8x16 => 1
  | TYPE_INT8x16 => 1
  | TYPE_UINT16x8 => 2
  | TYPE_INT16x8 => 2
  | TYPE_UINT32x4 => 4
  | TYPE_INT32x4 => 4
  | TYPE_UINT64x2 => 8
  | TYPE_INT64x2 => 8
  | TYPE_FLOAT32x4 => 4
  | TYPE_FLOAT64x2 => 8
  | TYPE_UINT8x32 => 1
  | TYPE_INT8x32 => 1
  | TYPE_UINT16x16 => 2
  | TYPE_INT16x16 => 2
  | TYPE_UINT32x8 => 4
  | TYPE_INT32x8 => 4
  | TYPE_UINT64x4 => 8
  | TYPE_INT64x4 => 8
  | TYPE_FLOAT32x8 => 4
  | TYPE_FLOAT64x4 => 8
  | TYPE_OTHER _ => 0

/-- Lane count of the shape the tag names (1 for the scalar tag). -/
def lane_count : TypeTag → Nat
  | TYPE_UINT16 => 1
  | TYPE_UINT8x16 => 16
  | TYPE_INT8x16 => 16
  | TYPE_UINT16x8 => 8
  | TYPE_INT16x8 => 8
  | TYPE_UINT32x4 => 4
  | TYPE_INT32x4 => 4
  | TYPE_UINT64x2 => 2
  | TYPE_INT64x2 => 2
  | TYPE_FLOAT32x4 => 4
  | TYPE_FLOAT64x2 => 2
  | TYPE_UINT8x32 => 32
  | TYPE_INT8x32 => 32
  | TYPE_UINT16x16 => 16
  | TYPE_INT16x16 => 16
  | TYPE_UINT32x8 => 8
  | TYPE_INT32x8 => 8
  | TYPE_UINT64x4 => 4
  | TYPE_INT64x4 => 4
  | TYPE_FLOAT32x8 => 8
  | TYPE_FLOAT64x4 => 4
  | TYPE_OTHER _ => 0

end TestCase

namespace TestCase

/-- Two `float32x4` payloads differ only in the last bit of lane `j`: the other
three lanes hold the same pattern, lane `j` holds two patterns that agree
except in bit 0. -/
def differ_in_last_bit (ia ib : Result) (j : Nat) : Prop :=
  (∀ i < 4, i ≠ j → ia.lane 4 i = ib.lane 4 i) ∧
    ia.lane 4 j / 2 = ib.lane 4 j / 2 ∧ ia.lane 4 j ≠ ib.lane 4 j

instance (ia ib : Result) (j : Nat) : Decidable (differ_in_last_bit ia ib j) := by
  unfold differ_in_last_bit; infer_instance

end TestCase

namespace Example

open TestCase TestCase.TypeTag

/-- Sixteen bytes 0xFF as `uint8x16`, captured under tolerance 3. -/
def u8_ff_tol3 : Result := ⟨TYPE_UINT8x16, List.replicate 16 0xFF, 10, 0, 3⟩

/-- Sixteen bytes 0x0F as `uint8x16`, captured under tolerance 5. -/
def u8_0f_tol5 : Result := ⟨TYPE_UINT8x16, List.replicate 16 0x0F, 10, 0, 5⟩

/-- A `float32x4` snapshot with lanes NaN (0x7fc00000), 1.0 (0x3f800000), 0, 0,
captured under tolerance 1. -/
def f32_a : Result :=
  ⟨TYPE_FLOAT32x4, [0, 0, 0xc0, 0x7f, 0, 0, 0x80, 0x3f, 0, 0, 0, 0, 0, 0, 0, 0], 10, 0, 1⟩

/-- A `float32x4` snapshot with lanes 1.0, 1.5, -0.0, 0, under tolerance 1. -/
def f32_c : Result :=
  ⟨TYPE_FLOAT32x4, [0, 0, 0x80, 0x3f, 0, 0, 0xc0, 0x3f, 0, 0, 0, 0x80, 0, 0, 0, 0], 10, 0, 1⟩

/-- The same snapshot with the last bit of lane 0 flipped. -/
def f32_d : Result :=
  ⟨TYPE_FLOAT32x4, [1, 0, 0x80, 0x3f, 0, 0, 0xc0, 0x3f, 0, 0, 0, 0x80, 0, 0, 0, 0], 10, 0, 1⟩

/-- A `float64x2` snapshot with lanes 1.0 (0x3ff0000000000000) and -0.0, under
tolerance 1. -/
def f64_a : Result :=
  ⟨TYPE_FLOAT64x2, [0, 0, 0, 0, 0, 0, 0xf0, 0x3f, 0, 0, 0, 0, 0, 0, 0, 0x80], 10, 0, 1⟩

/-- The same snapshot with the last bit of lane 0 flipped. -/
def f64_b : Result :=
  ⟨TYPE_FLOAT64x2, [1, 0, 0, 0, 0, 0, 0xf0, 0x3f, 0, 0, 0, 0, 0, 0, 0, 0x80], 10, 0, 1⟩

end Example

/-! ## `bit_andnot.h`: capability set, registers and instructions -/

/-- The configuration macros `SIMDPP_USE_*` tested by `bit_andnot.h`, each 0 or
1 for a build.  Their values are fixed by the configuration headers. -/
structure Caps where
  SIMDPP_USE_NULL : Bool
  SIMDPP_USE_SSE2 : Bool
  SIMDPP_USE_NEON : Bool
  SIMDPP_USE_NEON_NO_FLT_SP : Bool
  SIMDPP_USE_NEON32 : Bool
  SIMDPP_USE_NEON64 : Bool
  SIMDPP_USE_ALTIVEC : Bool
  SIMDPP_USE_AVX : Bool
  SIMDPP_USE_AVX2 : Bool
  SIMDPP_USE_AVX512 : Bool
  deriving DecidableEq, Repr

/-- The complement of a lane of `bits` bits. -/
def lane_not (bits x : Nat) : Nat := (2 ^ bits - 1) ^^^ x

/-- A vector of `n` lanes of `bits` bits each. -/
def is_vec (bits n : Nat) (v : List Nat) : Prop := v.length = n ∧ ∀ x ∈ v, x < 2 ^ bits

instance (bits n : Nat) (v : List Nat) : Decidable (is_vec bits n v) := by
  unfold is_vec; infer_instance

/-- The lane-wise result the operation is specified to have: lane `i` is
`a[i] AND (NOT b[i])` at a lane width of `bits` bits. -/
def andnot_lanes (bits : Nat) (a b : List Nat) : List Nat :=
  List.zipWith (fun x y => x &&& lane_not bits y) a b

/-- The conversion of a vector to its native register (an integer of
`bits * n` bits): lane `i` occupies the bits from `bits*i` on. -/
def pack (bits : Nat) : List Nat → Nat
  | [] => 0
  | x :: xs => x % 2 ^ bits + 2 ^ bits * pack bits xs

/-- The conversion of a native register to a vector of `n` lanes. -/
def unpack (bits : Nat) : Nat → Nat → List Nat
  | 0, _ => []
  | n + 1, r => r % 2 ^ bits :: unpack bits n (r / 2 ^ bits)

/-- The SSE2 instruction `_mm_andnot_si128(a, b)`: the complement of the 128
bits of `a`, and-ed with `b`. -/
def _mm_andnot_si128 (a b : Nat) : Nat := lane_not 128 a &&& b

/-- The SSE instruction `_mm_andnot_ps(a, b)`: `(NOT a) AND b` on 128 bits. -/
def _mm_andnot_ps (a b : Nat) : Nat := lane_not 128 a &&& b

/-- The SSE2 instruction `_mm_andnot_pd(a, b)`: `(NOT a) AND b` on 128 bits. -/
def _mm_andnot_pd (a b : Nat) : Nat := lane_not 128 a &&& b

/-- The AVX2 instruction `_mm256_andnot_si256(a, b)`: `(NOT a) AND b`. -/
def _mm256_andnot_si256 (a b : Nat) : Nat := lane_not 256 a &&& b

/-- The AVX instruction `_mm256_andnot_ps(a, b)`: `(NOT a) AND b`. -/
def _mm256_andnot_ps (a b : Nat) : Nat := lane_not 256 a &&& b

/-- The AVX instruction `_mm256_andnot_pd(a, b)`: `(NOT a) AND b`. -/
def _mm256_andnot_pd (a b : Nat) : Nat := lane_not 256 a &&& b

/-- The AVX-512 instruction `_mm512_andnot_epi32(a, b)`: `(NOT a) AND b`. -/
def _mm512_andnot_epi32 (a b : Nat) : Nat := lane_not 512 a &&& b

/-- The AVX-512 instruction `_mm512_andnot_epi64(a, b)`: `(NOT a) AND b`. -/
def _mm512_andnot_epi64 (a b : Nat) : Nat := lane_not 512 a &&& b

/-- The NEON instruction `vbicq_u8(a, b)`: lane-wise `a AND (NOT b)`. -/
def vbicq_u8 (a b : List Nat) : List Nat := List.zipWith (fun x y => x &&& lane_not 8 y) a b

/-- The NEON instruction `vbicq_u32(a, b)`: lane-wise `a AND (NOT b)`. -/
def vbicq_u32 (a b : List Nat) : List Nat := List.zipWith (fun x y => x &&& lane_not 32 y) a b

/-- The NEON instruction `vbicq_u64(a, b)`: lane-wise `a AND (NOT b)`. -/
def vbicq_u64 (a b : List Nat) : List Nat := List.zipWith (fun x y => x &&& lane_not 64 y) a b

/-- The AltiVec instruction `vec_andc(a, b)` on lanes of `bits` bits:
lane-wise `a AND (NOT b)`. -/
def vec_andc (bits : Nat) (a b : List Nat) : List Nat :=
  List.zipWith (fun x y => x &&& lane_not bits y) a b

namespace detail.null

/-- Modelled from the spec: `detail::null::bit_andnot` of
`simdpp/detail/null/bitwise.h`, which is not among the sources.  The scalar
reference implementation computes `a[i] AND (NOT b[i])` in every lane (for
floating-point lanes on their bit patterns). -/
def bit_andnot (bits : Nat) (a b : List Nat) : List Nat :=
  List.zipWith (fun x y => x &&& lane_not bits y) a b

end detail.null

/-! ## `bit_andnot.h`: the overloads for data vectors -/

/-- Which `return` statement of an overload the preprocessor keeps. -/
inductive Backend where
  /-- A function of `detail::null`, the scalar reference implementation. -/
  | scalar
  /-- An SSE/SSE2 instruction. -/
  | sse2
  /-- A NEON instruction. -/
  | neon
  /-- An AltiVec instruction. -/
  | altivec
  /-- A 256-bit AVX or AVX2 instruction. -/
  | avx
  /-- An AVX-512 instruction. -/
  | avx512
  /-- A call of another `i_bit_andnot` overload through conversions. -/
  | composed
  deriving DecidableEq, Repr

/-- The `#if` chain of `i_bit_andnot(uint8<16>, uint8<16>)`; `none` when no
branch is kept and the body is empty. -/
def select_u8x16 (c : Caps) : Option Backend :=
  if c.SIMDPP_USE_NULL then some Backend.scalar
  else if c.SIMDPP_USE_SSE2 then some Backend.sse2
  else if c.SIMDPP_USE_NEON then some Backend.neon
  else if c.SIMDPP_USE_ALTIVEC then some Backend.altivec
  else none

/-- `i_bit_andnot(const uint8<16>& a, const uint8<16>& b)`. -/
def i_bit_andnot_u8x16 (c : Caps) (a b : List Nat) : Option (List Nat) :=
  match select_u8x16 c with
  | some Backend.scalar => some (detail.null.bit_andnot 8 a b)
  | some Backend.sse2 => some (unpack 8 16 (_mm_andnot_si128 (pack 8 b) (pack 8 a)))
  | some Backend.neon => some (vbicq_u8 a b)
  | some Backend.altivec => some (vec_andc 8 a b)
  | _ => none

/-- The `#if` chain of `i_bit_andnot(float32<4>, float32<4>)`. -/
def select_f32x4 (c : Caps) : Option Backend :=
  if c.SIMDPP_USE_NULL || c.SIMDPP_USE_NEON_NO_FLT_SP then some Backend.scalar
  else if c.SIMDPP_USE_SSE2 then some Backend.sse2
  else if c.SIMDPP_USE_NEON then some Backend.neon
  else if c.SIMDPP_USE_ALTIVEC then some Backend.altivec
  else none

/-- `i_bit_andnot(const float32<4>& a, const float32<4> b)`, on the bit
patterns of the lanes. -/
def i_bit_andnot_f32x4 (c : Caps) (a b : List Nat) : Option (List Nat) :=
  match select_f32x4 c with
  | some Backend.scalar => some (detail.null.bit_andnot 32 a b)
  | some Backend.sse2 => some (unpack 32 4 (_mm_andnot_ps (pack 32 b) (pack 32 a)))
  | some Backend.neon => some (vbicq_u32 a b)
  | some Backend.altivec => some (vec_andc 32 a b)
  | _ => none

/-- The `#if` chain of `i_bit_andnot(float64<2>, float64<2>)`. -/
def select_f64x2 (c : Caps) : Option Backend :=
  if c.SIMDPP_USE_NULL || c.SIMDPP_USE_NEON32 || c.SIMDPP_USE_ALTIVEC then some Backend.scalar
  else if c.SIMDPP_USE_SSE2 then some Backend.sse2
  else if c.SIMDPP_USE_NEON64 then some Backend.neon
  else none

/-- `i_bit_andnot(const float64<2>& a, const float64<2>& b)`, on the bit
patterns of the lanes. -/
def i_bit_andnot_f64x2 (c : Caps) (a b : List Nat) : Option (List Nat) :=
  match select_f64x2 c with
  | some Backend.scalar => some (detail.null.bit_andnot 64 a b)
  | some Backend.sse2 => some (unpack 64 2 (_mm_andnot_pd (pack 64 b) (pack 64 a)))
  | some Backend.neon => some (vbicq_u64 a b)
  | _ => none

/-- The conversion constructor between two vector types of the same total
width, `V<n>(x)` for `x` of lanes of `from_bits` bits: the register is kept and
read as `n` lanes of `to_bits` bits. -/
def convert (from_bits to_bits n : Nat) (x : List Nat) : List Nat :=
  unpack to_bits n (pack from_bits x)

/-- `i_bit_andnot(const uint16<8>& a, const uint16<8>& b)`. -/
def i_bit_andnot_u16x8 (c : Caps) (a b : List Nat) : Option (List Nat) :=
  (i_bit_andnot_u8x16 c (convert 16 8 16 a) (convert 16 8 16 b)).map (convert 8 16 8)

/-- `i_bit_andnot(const uint32<4>& a, const uint32<4>& b)`. -/
def i_bit_andnot_u32x4 (c : Caps) (a b : List Nat) : Option (List Nat) :=
  (i_bit_andnot_u8x16 c (convert 32 8 16 a) (convert 32 8 16 b)).map (convert 8 32 4)

/-- `i_bit_andnot(const uint64<2>& a, const uint64<2>& b)`. -/
def i_bit_andnot_u64x2 (c : Caps) (a b : List Nat) : Option (List Nat) :=
  (i_bit_andnot_u8x16 c (convert 64 8 16 a) (convert 64 8 16 b)).map (convert 8 64 2)

/-! ## `bit_andnot.h`: which body each native 128-bit overload keeps -/

/-- The operand types of the overload families of `i_bit_andnot`: two data
vectors, a data vector and a mask, or two masks, per element kind. -/
inductive Operands where
  | u8 | u8_mask | mask8
  | u16 | u16_mask | mask16
  | u32 | u32_mask | mask32
  | u64 | u64_mask | mask64
  | f32 | f32_mask | mask_f32
  | f64 | f64_mask | mask_f64
  deriving DecidableEq, Repr

/-- The element kind of an overload family. -/
inductive ElemKind where
  | integer | float32 | float64
  deriving DecidableEq, Repr

/-- The element kind of the operands of a family. -/
def Operands.kind : Operands → ElemKind
  | .f32 | .f32_mask | .mask_f32 => ElemKind.float32
  | .f64 | .f64_mask | .mask_f64 => ElemKind.float64
  | _ => ElemKind.integer

/-- The `return` statement kept in the 128-bit overload of each family
(`uint8<16>`, `uint16<8>`, `uint32<4>`, `uint64<2>`, `float32<4>`,
`float64<2>` and their masks). -/
def select128 (c : Caps) : Operands → Option Backend
  | .u8 => select_u8x16 c
  | .u8_mask => if c.SIMDPP_USE_NULL then some Backend.scalar else some Backend.composed
  | .mask8 => if c.SIMDPP_USE_NULL then some Backend.scalar else some Backend.composed
  | .u16 => some Backend.composed
  | .u16_mask => if c.SIMDPP_USE_NULL then some Backend.scalar else some Backend.composed
  | .mask16 => if c.SIMDPP_USE_NULL then some Backend.scalar else some Backend.composed
  | .u32 => some Backend.composed
  | .u32_mask => if c.SIMDPP_USE_NULL then some Backend.scalar else some Backend.composed
  | .mask32 => if c.SIMDPP_USE_NULL then some Backend.scalar else some Backend.composed
  | .u64 => some Backend.composed
  | .u64_mask => if c.SIMDPP_USE_NULL then some Backend.scalar else some Backend.composed
  | .mask64 => if c.SIMDPP_USE_NULL then some Backend.scalar else some Backend.composed
  | .f32 => select_f32x4 c
  | .f32_mask => if c.SIMDPP_USE_NULL then some Backend.scalar else some Backend.composed
  | .mask_f32 =>
    if c.SIMDPP_USE_NULL || c.SIMDPP_USE_NEON_NO_FLT_SP then some Backend.scalar
    else some Backend.composed
  | .f64 => select_f64x2 c
  | .f64_mask => if c.SIMDPP_USE_NULL then some Backend.scalar else some Backend.composed
  | .mask_f64 =>
    if c.SIMDPP_USE_NULL || c.SIMDPP_USE_NEON32 || c.SIMDPP_USE_ALTIVEC then some Backend.scalar
    else some Backend.composed

/-- The overload that the composed body of a 128-bit overload calls. -/
def callee128 : Operands → Option Operands
  | .u8 => none
  | .u8_mask => some .u8
  | .mask8 => some .u8
  | .u16 => some .u8
  | .u16_mask => some .u16
  | .mask16 => some .u8
  | .u32 => some .u8
  | .u32_mask => some .u32
  | .mask32 => some .u8
  | .u64 => some .u8
  | .u64_mask => some .u64
  | .mask64 => some .u8
  | .f32 => none
  | .f32_mask => some .f32
  | .mask_f32 => some .f32
  | .f64 => none
  | .f64_mask => some .f64
  | .mask_f64 => some .f64

/-- The backend a 128-bit call ends in, following composed bodies to the
overload they call (at most `fuel` calls deep). -/
def resolve128_fuel (c : Caps) : Nat → Operands → Option Backend
  | 0, _ => none
  | fuel + 1, o =>
    match select128 c o with
    | some Backend.composed => (callee128 o).bind (resolve128_fuel c fuel)
    | r => r

/-- The backend a 128-bit call ends in; the longest chain of calls is
`(uint16<8>, mask_int16<8>)`, `uint16<8>`, `uint8<16>`. -/
def resolve128 (c : Caps) (o : Operands) : Option Backend := resolve128_fuel c 3 o

/-- Some vector instruction set is enabled. -/
def Caps.has_vector (c : Caps) : Bool :=
  c.SIMDPP_USE_SSE2 || c.SIMDPP_USE_NEON || c.SIMDPP_USE_NEON32 || c.SIMDPP_USE_NEON64
    || c.SIMDPP_USE_ALTIVEC || c.SIMDPP_USE_AVX || c.SIMDPP_USE_AVX2 || c.SIMDPP_USE_AVX512

/-- The condition under which the code takes the scalar reference
implementation for an element kind. -/
def scalar_guard (c : Caps) : ElemKind → Bool
  | ElemKind.integer => c.SIMDPP_USE_NULL
  | ElemKind.float32 => c.SIMDPP_USE_NULL || c.SIMDPP_USE_NEON_NO_FLT_SP
  | ElemKind.float64 => c.SIMDPP_USE_NULL || c.SIMDPP_USE_NEON32 || c.SIMDPP_USE_ALTIVEC

namespace Example

/-- A build without any vector instruction set. -/
def caps_null : Caps := ⟨true, false, false, false, false, false, false, false, false, false⟩

/-- An SSE2 build. -/
def caps_sse2 : Caps := ⟨false, true, false, false, false, false, false, false, false, false⟩

/-- An AltiVec build. -/
def caps_altivec : Caps := ⟨false, false, false, false, false, false, true, false, false, false⟩

/-- A 64-bit NEON build. -/
def caps_neon64 : Caps := ⟨false, false, true, false, false, true, false, false, false, false⟩

/-- An AVX2 build (which also enables SSE2 and AVX). -/
def caps_avx2 : Caps := ⟨false, true, false, false, false, false, false, true, true, false⟩

/-- An AVX-512 build (which also enables SSE2, AVX and AVX2). -/
def caps_avx512 : Caps := ⟨false, true, false, false, false, false, false, true, true, true⟩

end Example

/-! ## `bit_andnot.h`: wider vectors and the generic template -/

/-- Segment `j` of a vector cut into segments of `w` lanes, `v.vec(j)`. -/
def vec {α : Type} (w : Nat) (v : List α) (j : Nat) : List α := (v.drop (w * j)).take w

/-- The loop of `SIMDPP_VEC_ARRAY_IMPL2` from segment `j` on, `k` segments
left. -/
def VEC_ARRAY_IMPL2_from {α β γ : Type} (w : Nat) (op : List α → List β → Option (List γ))
    (a : List α) (b : List β) : Nat → Nat → Option (List γ)
  | 0, _ => some []
  | k + 1, j =>
    match op (vec w a j) (vec w b j) with
    | none => none
    | some r => (VEC_ARRAY_IMPL2_from w op a b k (j + 1)).map (fun rest => r ++ rest)

/-- Modelled from the spec: the macro `SIMDPP_VEC_ARRAY_IMPL2(R, OP, V1, V2)`
of the library's detail headers, which is not among the sources.  It is the
width decomposition of the specification: both operands are cut into the same
number of native-width segments, `OP` is applied to segment `0, 1, ...` of the
two operands in ascending order, and the results are stored as the segments of
the result in the same order. -/
def SIMDPP_VEC_ARRAY_IMPL2 {α β γ : Type} (w : Nat) (op : List α → List β → Option (List γ))
    (a : List α) (b : List β) : Option (List γ) :=
  VEC_ARRAY_IMPL2_from w op a b (a.length / w) 0

/-- The concatenation of segment results, when every segment has a result. -/
def concat_segments {γ : Type} : List (Option (List γ)) → Option (List γ)
  | [] => some []
  | none :: _ => none
  | some r :: rest => (concat_segments rest).map (fun tail => r ++ tail)

/-- `i_bit_andnot(const uint8<32>& a, const uint8<32>& b)`, compiled under
`SIMDPP_USE_AVX2`. -/
def i_bit_andnot_u8x32 (a b : List Nat) : List Nat :=
  unpack 8 32 (_mm256_andnot_si256 (pack 8 b) (pack 8 a))

/-- `i_bit_andnot(const uint16<16>& a, const uint16<16>& b)`, compiled under
`SIMDPP_USE_AVX2`. -/
def i_bit_andnot_u16x16 (a b : List Nat) : List Nat :=
  unpack 16 16 (_mm256_andnot_si256 (pack 16 b) (pack 16 a))

/-- `i_bit_andnot(const uint32<8>& a, const uint32<8>& b)`, compiled under
`SIMDPP_USE_AVX2`. -/
def i_bit_andnot_u32x8 (a b : List Nat) : List Nat :=
  unpack 32 8 (_mm256_andnot_si256 (pack 32 b) (pack 32 a))

/-- `i_bit_andnot(const uint32<16>& a, const uint32<16>& b)`, compiled under
`SIMDPP_USE_AVX512`. -/
def i_bit_andnot_u32x16 (a b : List Nat) : List Nat :=
  unpack 32 16 (_mm512_andnot_epi32 (pack 32 b) (pack 32 a))

/-- `i_bit_andnot(const uint64<4>& a, const uint64<4>& b)`, compiled under
`SIMDPP_USE_AVX2`. -/
def i_bit_andnot_u64x4 (a b : List Nat) : List Nat :=
  unpack 64 4 (_mm256_andnot_si256 (pack 64 b) (pack 64 a))

/-- `i_bit_andnot(const uint64<8>& a, const uint64<8>& b)`, compiled under
`SIMDPP_USE_AVX512`. -/
def i_bit_andnot_u64x8 (a b : List Nat) : List Nat :=
  unpack 64 8 (_mm512_andnot_epi64 (pack 64 b) (pack 64 a))

/-- Modelled from the spec: the native width of `uint8` vectors, a constant of
the type headers, which are not among the sources: the lane count one
instruction processes, 32 with the 256-bit integer instructions, else 16. -/
def native_width_u8 (c : Caps) : Nat := if c.SIMDPP_USE_AVX2 then 32 else 16

/-- Modelled from the spec: the native width of `uint32` vectors (see
`native_width_u8`): 16 with the 512-bit instructions, 8 with the 256-bit
integer instructions, else 4. -/
def native_width_u32 (c : Caps) : Nat :=
  if c.SIMDPP_USE_AVX512 then 16 else if c.SIMDPP_USE_AVX2 then 8 else 4

/-- The overload set `i_bit_andnot(uint8<N>, uint8<N>)` at `N = a.length`: the
non-template overloads for 16 lanes and (under AVX2) 32 lanes, otherwise the
template, whose macro applies the overload of the native width. -/
def i_bit_andnot_u8 (c : Caps) (a b : List Nat) : Option (List Nat) :=
  if a.length = 16 then i_bit_andnot_u8x16 c a b
  else if c.SIMDPP_USE_AVX2 = true ∧ a.length = 32 then some (i_bit_andnot_u8x32 a b)
  else SIMDPP_VEC_ARRAY_IMPL2 (native_width_u8 c)
    (fun x y => if c.SIMDPP_USE_AVX2 then some (i_bit_andnot_u8x32 x y)
      else i_bit_andnot_u8x16 c x y) a b

/-! ## `bit_andnot.h`: masks -/

/-- Modelled from the spec: the conversion of a mask to its data vector,
declared in the type headers, which are not among the sources: a true lane has
every bit set, a false lane is zero. -/
def mask_to_data (bits : Nat) (m : List Bool) : List Nat :=
  m.map (fun t => if t then 2 ^ bits - 1 else 0)

/-- Modelled from the spec: the conversion of a data vector to a mask (see
`mask_to_data`): a lane is true when it is not zero. -/
def data_to_mask (d : List Nat) : List Bool := d.map (fun x => decide (x ≠ 0))

/-- The packed-bit register (`__mmask16`, `__mmask8`) of a mask: bit `i` is
lane `i`. -/
def pack_mask (m : List Bool) : Nat := pack 1 (m.map (fun t => if t then 1 else 0))

/-- The mask held by a packed-bit register of `n` lanes. -/
def unpack_mask (n r : Nat) : List Bool := (unpack 1 n r).map (fun x => decide (x ≠ 0))

/-- The AVX-512 instruction `_mm512_knot(a)` on a 16-bit mask register. -/
def _mm512_knot (a : Nat) : Nat := lane_not 16 a

/-- The AVX-512 instruction `_mm512_kandn(a, b)`: `(NOT a) AND b` on 16-bit
mask registers. -/
def _mm512_kandn (a b : Nat) : Nat := lane_not 16 a &&& b

/-- The lanes written by a zero-masked move: lane `i` of `a` where bit `i` of
`k` is set, zero elsewhere. -/
def maskz_mov_from (k : Nat) : Nat → List Nat → List Nat
  | _, [] => []
  | i, x :: xs => (if k.testBit i then x else 0) :: maskz_mov_from k (i + 1) xs

/-- The AVX-512 instructions `_mm512_maskz_mov_epi32(k, a)`,
`_mm512_maskz_mov_epi64`, `_mm512_maskz_mov_ps` and `_mm512_maskz_mov_pd`, on
the lanes of `a`. -/
def _mm512_maskz_mov (k : Nat) (a : List Nat) : List Nat := maskz_mov_from k 0 a

namespace detail.null

/-- Modelled from the spec: `detail::null::bit_andnot_vm`, not among the
sources.  The scalar fallback treats a mask lane as a truth value: the result
lane is zero where the mask is true and `a[i]` where it is false. -/
def bit_andnot_vm (a : List Nat) (m : List Bool) : List Nat :=
  List.zipWith (fun x t => if t then 0 else x) a m

/-- Modelled from the spec: `detail::null::bit_andnot_mm`, not among the
sources.  The scalar fallback on two masks: lane `i` is `a[i] AND (NOT b[i])`
on truth values. -/
def bit_andnot_mm (a b : List Bool) : List Bool := List.zipWith (fun x y => x && !y) a b

end detail.null

/-- `i_bit_andnot(const uint32<4>& a, const mask_int32<4>& b)`. -/
def i_bit_andnot_u32x4_mask (c : Caps) (a : List Nat) (b : List Bool) : Option (List Nat) :=
  if c.SIMDPP_USE_NULL then some (detail.null.bit_andnot_vm a b)
  else i_bit_andnot_u32x4 c a (mask_to_data 32 b)

/-- `i_bit_andnot(const uint32<8>& a, const mask_int32<8>& b)`, compiled under
`SIMDPP_USE_AVX2`. -/
def i_bit_andnot_u32x8_mask (a : List Nat) (b : List Bool) : List Nat :=
  i_bit_andnot_u32x8 a (mask_to_data 32 b)

/-- `i_bit_andnot(const uint32<16>& a, const mask_int32<16>& b)`, compiled
under `SIMDPP_USE_AVX512`. -/
def i_bit_andnot_u32x16_mask (a : List Nat) (b : List Bool) : List Nat :=
  _mm512_maskz_mov (_mm512_knot (pack_mask b)) a

/-- The overload set `i_bit_andnot(uint32<N>, mask_int32<N>)` at
`N = a.length`. -/
def i_bit_andnot_u32_mask (c : Caps) (a : List Nat) (b : List Bool) : Option (List Nat) :=
  if a.length = 4 then i_bit_andnot_u32x4_mask c a b
  else if c.SIMDPP_USE_AVX2 = true ∧ a.length = 8 then some (i_bit_andnot_u32x8_mask a b)
  else if c.SIMDPP_USE_AVX512 = true ∧ a.length = 16 then some (i_bit_andnot_u32x16_mask a b)
  else SIMDPP_VEC_ARRAY_IMPL2 (native_width_u32 c)
    (fun x y =>
      if c.SIMDPP_USE_AVX512 then some (i_bit_andnot_u32x16_mask x y)
      else if c.SIMDPP_USE_AVX2 then some (i_bit_andnot_u32x8_mask x y)
      else i_bit_andnot_u32x4_mask c x y) a b

/-! ## `TestCase::push` -/

namespace TestCase

/-- Modelled from the spec: the constructor
`Result(type, data, size, line, seq, prec_ulp)` of `test_case.h`, which is not
among the sources: the snapshot holds the tag, the first `size` bytes of the
data, the line, the sequence number and the tolerance. -/
def Result.create (type : TypeTag) (data : List Nat) (size line seq prec_ulp : Nat) : Result :=
  ⟨type, data.take size, line, seq, prec_ulp⟩

/-- `TestCase::push(type, data, line)`: `none` when `size_for_type` aborts.
The counter `seq_` is read for the new snapshot and then incremented. -/
def push (t : TestCase) (type : TypeTag) (data : List Nat) (line : Nat) : Option TestCase :=
  match size_for_type type with
  | none => none
  | some size =>
    some { t with
      results_ := t.results_ ++ [Result.create type data size line t.seq_ t.curr_precision_ulp_]
      seq_ := t.seq_ + 1 }

/-- The sequence numbers of the snapshots increase strictly and stay below the
counter. -/
def seq_increasing (t : TestCase) : Prop :=
  (t.results_.map (fun r => r.seq)).Pairwise (fun x y => x < y) ∧
    ∀ r ∈ t.results_, r.seq < t.seq_

end TestCase

/-! ## `bit_andnot.h`: the overload set of every family -/

/-- The lane count of the 128-bit vector of a family. -/
def Operands.lanes128 : Operands → Nat
  | .u8 | .u8_mask | .mask8 => 16
  | .u16 | .u16_mask | .mask16 => 8
  | .u32 | .u32_mask | .mask32 | .f32 | .f32_mask | .mask_f32 => 4
  | .u64 | .u64_mask | .mask64 | .f64 | .f64_mask | .mask_f64 => 2

/-- The two operands are masks. -/
def Operands.is_mask_mask : Operands → Bool
  | .mask8 | .mask16 | .mask32 | .mask64 | .mask_f32 | .mask_f64 => true
  | _ => false

/-- The second operand is a mask, the first a data vector. -/
def Operands.is_data_mask : Operands → Bool
  | .u8_mask | .u16_mask | .u32_mask | .u64_mask | .f32_mask | .f64_mask => true
  | _ => false

/-- The guard `#if` around the 256-bit overload of a family: `SIMDPP_USE_AVX2`
for the integer kinds, `SIMDPP_USE_AVX` for the floating-point kinds. -/
def has256 (c : Caps) (o : Operands) : Bool :=
  match o.kind with
  | ElemKind.integer => c.SIMDPP_USE_AVX2
  | _ => c.SIMDPP_USE_AVX

/-- The guard around the 512-bit overload of a family: `SIMDPP_USE_AVX512`;
the families of 8- and 16-bit lanes have no such overload. -/
def has512 (c : Caps) : Operands → Bool
  | .u8 | .u8_mask | .mask8 | .u16 | .u16_mask | .mask16 => false
  | _ => c.SIMDPP_USE_AVX512

/-- The body of the 256-bit overload of a family: an instruction for two data
vectors, a call through conversions when a mask is involved. -/
def body256 (o : Operands) : Backend :=
  if o.is_mask_mask || o.is_data_mask then Backend.composed else Backend.avx

/-- The body of the 512-bit overload of a family: `_mm512_andnot_epi32/64` for
integer data, `_mm512_maskz_mov_*` for data with mask, `_mm512_kandn` for two
masks, and a call through `uint32<16>` or `uint64<8>` for floating-point
data. -/
def body512 : Operands → Backend
  | .f32 | .f64 => Backend.composed
  | _ => Backend.avx512

/-- The function a call `i_bit_andnot(a, b)` with operands of `N` lanes
resolves to. -/
inductive Overload where
  /-- The non-template overload for exactly `N` lanes, with the body the
  preprocessor keeps (`none`: an empty body). -/
  | fixed (body : Option Backend)
  /-- The template `template<unsigned N>`, whose body is
  `SIMDPP_VEC_ARRAY_IMPL2`. -/
  | generic
  deriving DecidableEq, Repr

/-- Overload resolution at `N` lanes: a compiled non-template overload of
exactly `N` lanes is preferred to the template. -/
def overload (c : Caps) (o : Operands) (N : Nat) : Overload :=
  if N = o.lanes128 then Overload.fixed (select128 c o)
  else if has256 c o = true ∧ N = 2 * o.lanes128 then Overload.fixed (some (body256 o))
  else if has512 c o = true ∧ N = 4 * o.lanes128 then Overload.fixed (some (body512 o))
  else Overload.generic

/-- The only `#error` of `bit_andnot.h`: the header is rejected unless it is
included through `simd.h`; otherwise every overload is compiled with the body
its `#if` chain keeps. -/
inductive Compiled where
  | rejected (message : String)
  | body (b : Option Backend)
  deriving DecidableEq, Repr

/-- What the compiler makes of the native 128-bit overload of a family. -/
def compile128 (simd_h : Bool) (c : Caps) (o : Operands) : Compiled :=
  if simd_h then Compiled.body (select128 c o)
  else Compiled.rejected "This file must be included through simd.h"

/-- Some branch of the `#if` chain of the 128-bit overload is eligible. -/
def eligible128 (c : Caps) : Operands → Bool
  | .u8 => c.SIMDPP_USE_NULL || c.SIMDPP_USE_SSE2 || c.SIMDPP_USE_NEON || c.SIMDPP_USE_ALTIVEC
  | .f32 =>
    c.SIMDPP_USE_NULL || c.SIMDPP_USE_NEON_NO_FLT_SP || c.SIMDPP_USE_SSE2 || c.SIMDPP_USE_NEON
      || c.SIMDPP_USE_ALTIVEC
  | .f64 =>
    c.SIMDPP_USE_NULL || c.SIMDPP_USE_NEON32 || c.SIMDPP_USE_ALTIVEC || c.SIMDPP_USE_SSE2
      || c.SIMDPP_USE_NEON64
  | _ => true

namespace Example

/-- A capability set with every macro 0. -/
def caps_none : Caps := ⟨false, false, false, false, false, false, false, false, false, false⟩

end Example

/-! ## `bit_andnot.h`: two masks -/

/-- `i_bit_andnot(const mask_int8<16>& a, const mask_int8<16>& b)`. -/
def i_bit_andnot_mask8x16 (c : Caps) (a b : List Bool) : Option (List Bool) :=
  if c.SIMDPP_USE_NULL then some (detail.null.bit_andnot_mm a b)
  else (i_bit_andnot_u8x16 c (mask_to_data 8 a) (mask_to_data 8 b)).map data_to_mask

/-- `i_bit_andnot(const mask_int32<16>& a, const mask_int32<16>& b)`, compiled
under `SIMDPP_USE_AVX512`. -/
def i_bit_andnot_mask32x16 (a b : List Bool) : List Bool :=
  unpack_mask 16 (_mm512_kandn (pack_mask b) (pack_mask a))

/-- A hardware data-vector backend exists for the 128-bit vector of the
element kind of a family. -/
def data_backend_exists (c : Caps) (o : Operands) : Bool :=
  match o.kind with
  | ElemKind.integer => decide (resolve128 c Operands.u8 ≠ none ∧
      resolve128 c Operands.u8 ≠ some Backend.scalar)
  | ElemKind.float32 => decide (resolve128 c Operands.f32 ≠ none ∧
      resolve128 c Operands.f32 ≠ some Backend.scalar)
  | ElemKind.float64 => decide (resolve128 c Operands.f64 ≠ none ∧
      resolve128 c Operands.f64 ≠ some Backend.scalar)

/-! ## `get_arch_gcc_builtin_cpu_supports.h` -/

/-- The feature names passed to `__builtin_cpu_supports`. -/
inductive CpuFeature where
  | sse2 | sse3 | ssse3 | sse4_1 | avx | avx2
  deriving DecidableEq, Repr

/-- The flag set `Arch` of `simdpp/dispatch/arch.h` (not among the sources),
restricted to the six flags the function sets: one bit per flag. -/
structure Arch where
  sse2 : Bool
  sse3 : Bool
  ssse3 : Bool
  sse4_1 : Bool
  avx : Bool
  avx2 : Bool
  deriving DecidableEq, Repr

namespace Arch

/-- The default-constructed `Arch`: no flag set. -/
def none : Arch := ⟨false, false, false, false, false, false⟩

/-- The flag `Arch::X86_SSE2`. -/
def X86_SSE2 : Arch := ⟨true, false, false, false, false, false⟩

/-- The flag `Arch::X86_SSE3`. -/
def X86_SSE3 : Arch := ⟨false, true, false, false, false, false⟩

/-- The flag `Arch::X86_SSSE3`. -/
def X86_SSSE3 : Arch := ⟨false, false, true, false, false, false⟩

/-- The flag `Arch::X86_SSE4_1`. -/
def X86_SSE4_1 : Arch := ⟨false, false, false, true, false, false⟩

/-- The flag `Arch::X86_AVX`. -/
def X86_AVX : Arch := ⟨false, false, false, false, true, false⟩

/-- The flag `Arch::X86_AVX2`. -/
def X86_AVX2 : Arch := ⟨false, false, false, false, false, true⟩

/-- The operator `|=` on flag sets. -/
def or (a b : Arch) : Arch :=
  ⟨a.sse2 || b.sse2, a.sse3 || b.sse3, a.ssse3 || b.ssse3, a.sse4_1 || b.sse4_1,
    a.avx || b.avx, a.avx2 || b.avx2⟩

/-- The flag of a feature in a flag set. -/
def has (a : Arch) : CpuFeature → Bool
  | .sse2 => a.sse2
  | .sse3 => a.sse3
  | .ssse3 => a.ssse3
  | .sse4_1 => a.sse4_1
  | .avx => a.avx
  | .avx2 => a.avx2

end Arch

/-- `get_arch_gcc_builtin_cpu_supports()`, for a compiler with the given
`__GNUC__` and `__GNUC_MINOR__`, a target that defines `__i386__` or
`__amd64__` (or neither), and a CPU probe. -/
def get_arch_gcc_builtin_cpu_supports (gnuc gnuc_minor : Nat) (x86 : Bool)
    (builtin_cpu_supports : CpuFeature → Bool) : Arch :=
  let arch_info := Arch.none
  if gnuc ≥ 4 ∧ gnuc_minor ≥ 8 then
    if x86 then
      if builtin_cpu_supports .avx2 then
        (((((arch_info.or Arch.X86_SSE2).or Arch.X86_SSE3).or Arch.X86_SSSE3).or
          Arch.X86_SSE4_1).or Arch.X86_AVX).or Arch.X86_AVX2
      else if builtin_cpu_supports .avx then
        ((((arch_info.or Arch.X86_SSE2).or Arch.X86_SSE3).or Arch.X86_SSSE3).or
          Arch.X86_SSE4_1).or Arch.X86_AVX
      else if builtin_cpu_supports .sse4_1 then
        (((arch_info.or Arch.X86_SSE2).or Arch.X86_SSE3).or Arch.X86_SSSE3).or Arch.X86_SSE4_1
      else if builtin_cpu_supports .ssse3 then
        ((arch_info.or Arch.X86_SSE2).or Arch.X86_SSE3).or Arch.X86_SSSE3
      else if builtin_cpu_supports .sse3 then
        (arch_info.or Arch.X86_SSE3).or Arch.X86_SSE2
      else if builtin_cpu_supports .sse2 then
        arch_info.or Arch.X86_SSE2
      else arch_info
    else arch_info
  else arch_info

/-- The item is a hexadecimal number. -/
def Out.is_hex : Out → Bool
  | Out.hex _ _ => true
  | _ => false

namespace Example

open TestCase TestCase.TypeTag

/-- A `uint16` mask snapshot with bits 0000000000000001. -/
def u16_a : Result := ⟨TYPE_UINT16, [1, 0], 5, 0, 0⟩

/-- A `uint16` mask snapshot with bits 0000000000000010. -/
def u16_b : Result := ⟨TYPE_UINT16, [2, 0], 5, 0, 0⟩

end Example

/-! ## Test cases built by captures -/

namespace TestCase

/-- One capture of a test run: the tolerance set before it, then the arguments
of `push`. -/
structure Capture where
  prec_ulp : Nat
  type : TypeTag
  data : List Nat
  line : Nat
  deriving DecidableEq, Repr

/-- A test case after a sequence of captures: before each `push` the current
tolerance is set to the tolerance of the capture; `none` when a `push`
aborts. -/
def captures : TestCase → List Capture → Option TestCase
  | t, [] => some t
  | t, c :: cs =>
    match push { t with curr_precision_ulp_ := c.prec_ulp } c.type c.data c.line with
    | none => none
    | some t' => captures t' cs

end TestCase

/-! ## The chain of x86 instruction sets -/

/-- The flag set holding the first `n` flags of the chain SSE2, SSE3, SSSE3,
SSE4.1, AVX, AVX2. -/
def Arch.chain (n : Nat) : Arch :=
  ⟨decide (0 < n), decide (1 < n), decide (2 < n), decide (3 < n), decide (4 < n),
    decide (5 < n)⟩

/-- The position of a feature in the chain, from 1. -/
def CpuFeature.rank : CpuFeature → Nat
  | .sse2 => 1
  | .sse3 => 2
  | .ssse3 => 3
  | .sse4_1 => 4
  | .avx => 5
  | .avx2 => 6

/-- The position of the highest feature the probe reports, 0 when it reports
none. -/
def highest_reported (probe : CpuFeature → Bool) : Nat :=
  if probe .avx2 then 6
  else if probe .avx then 5
  else if probe .sse4_1 then 4
  else if probe .ssse3 then 3
  else if probe .sse3 then 2
  else if probe .sse2 then 1
  else 0

/-! ## The text of a hexadecimal item -/

/-- The characters a `std::ostream` writes for `Out.hex w v`: the hexadecimal
digits of `v`, filled on the left with the character 0 up to `w` characters
(`std::setw` gives a minimum width and never truncates). -/
def Out.hex_text (w v : Nat) : List Char := List.leftpad w '0' (Nat.toDigits 16 v)

namespace Example

open TestCase TestCase.TypeTag

/-- An `int8x16` snapshot of sixteen bytes 0xFF, the lanes being -1. -/
def s8_ff : Result := ⟨TYPE_INT8x16, List.replicate 16 0xFF, 10, 0, 0⟩

end Example

/-! ## `bit_andnot.h`: the remaining native overloads with a data operand -/

/-- `i_bit_andnot(const float32<8>& a, const float32<8>& b)`, compiled under
`SIMDPP_USE_AVX`. -/
def i_bit_andnot_f32x8 (a b : List Nat) : List Nat :=
  unpack 32 8 (_mm256_andnot_ps (pack 32 b) (pack 32 a))

/-- `i_bit_andnot(const float64<4>& a, const float64<4>& b)`, compiled under
`SIMDPP_USE_AVX`. -/
def i_bit_andnot_f64x4 (a b : List Nat) : List Nat :=
  unpack 64 4 (_mm256_andnot_pd (pack 64 b) (pack 64 a))

/-- `i_bit_andnot(const uint8<16>& a, const mask_int8<16>& b)`. -/
def i_bit_andnot_u8x16_mask (c : Caps) (a : List Nat) (b : List Bool) : Option (List Nat) :=
  if c.SIMDPP_USE_NULL then some (detail.null.bit_andnot_vm a b)
  else i_bit_andnot_u8x16 c a (mask_to_data 8 b)

/-- `i_bit_andnot(const uint8<32>& a, const mask_int8<32>& b)`, compiled under
`SIMDPP_USE_AVX2`. -/
def i_bit_andnot_u8x32_mask (a : List Nat) (b : List Bool) : List Nat :=
  i_bit_andnot_u8x32 a (mask_to_data 8 b)

/-- `i_bit_andnot(const uint16<8>& a, const mask_int16<8>& b)`. -/
def i_bit_andnot_u16x8_mask (c : Caps) (a : List Nat) (b : List Bool) : Option (List Nat) :=
  if c.SIMDPP_USE_NULL then some (detail.null.bit_andnot_vm a b)
  else i_bit_andnot_u16x8 c a (mask_to_data 16 b)

/-- `i_bit_andnot(const uint16<16>& a, const mask_int16<16>& b)`, compiled
under `SIMDPP_USE_AVX2`. -/
def i_bit_andnot_u16x16_mask (a : List Nat) (b : List Bool) : List Nat :=
  i_bit_andnot_u16x16 a (mask_to_data 16 b)

/-- `i_bit_andnot(const uint64<2>& a, const mask_int64<2>& b)`. -/
def i_bit_andnot_u64x2_mask (c : Caps) (a : List Nat) (b : List Bool) : Option (List Nat) :=
  if c.SIMDPP_USE_NULL then some (detail.null.bit_andnot_vm a b)
  else i_bit_andnot_u64x2 c a (mask_to_data 64 b)

/-- `i_bit_andnot(const uint64<4>& a, const mask_int64<4>& b)`, compiled under
`SIMDPP_USE_AVX2`. -/
def i_bit_andnot_u64x4_mask (a : List Nat) (b : List Bool) : List Nat :=
  i_bit_andnot_u64x4 a (mask_to_data 64 b)

/-- `i_bit_andnot(const uint64<8>& a, const mask_int64<8>& b)`, compiled under
`SIMDPP_USE_AVX512`: `_mm512_maskz_mov_epi64(_mm512_knot(b), a)`. -/
def i_bit_andnot_u64x8_mask (a : List Nat) (b : List Bool) : List Nat :=
  _mm512_maskz_mov (_mm512_knot (pack_mask b)) a

/-- `i_bit_andnot(const float32<4>& a, const mask_float32<4>& b)`. -/
def i_bit_andnot_f32x4_mask (c : Caps) (a : List Nat) (b : List Bool) : Option (List Nat) :=
  if c.SIMDPP_USE_NULL then some (detail.null.bit_andnot_vm a b)
  else i_bit_andnot_f32x4 c a (mask_to_data 32 b)

/-- `i_bit_andnot(const float32<8>& a, const mask_float32<8>& b)`, compiled
under `SIMDPP_USE_AVX`. -/
def i_bit_andnot_f32x8_mask (a : List Nat) (b : List Bool) : List Nat :=
  i_bit_andnot_f32x8 a (mask_to_data 32 b)

/-- `i_bit_andnot(const float32<16>& a, const mask_float32<16>& b)`, compiled
under `SIMDPP_USE_AVX512`: `_mm512_maskz_mov_ps(_mm512_knot(b), a)`. -/
def i_bit_andnot_f32x16_mask (a : List Nat) (b : List Bool) : List Nat :=
  _mm512_maskz_mov (_mm512_knot (pack_mask b)) a

/-- `i_bit_andnot(const float64<2>& a, const mask_float64<2>& b)`. -/
def i_bit_andnot_f64x2_mask (c : Caps) (a : List Nat) (b : List Bool) : Option (List Nat) :=
  if c.SIMDPP_USE_NULL then some (detail.null.bit_andnot_vm a b)
  else i_bit_andnot_f64x2 c a (mask_to_data 64 b)

/-- `i_bit_andnot(const float64<4>& a, const mask_float64<4>& b)`, compiled
under `SIMDPP_USE_AVX`. -/
def i_bit_andnot_f64x4_mask (a : List Nat) (b : List Bool) : List Nat :=
  i_bit_andnot_f64x4 a (mask_to_data 64 b)

/-- `i_bit_andnot(const float64<8>& a, const mask_float64<8>& b)`, compiled
under `SIMDPP_USE_AVX512`: `_mm512_maskz_mov_pd(_mm512_knot(b), a)`. -/
def i_bit_andnot_f64x8_mask (a : List Nat) (b : List Bool) : List Nat :=
  _mm512_maskz_mov (_mm512_knot (pack_mask b)) a

/-- The result the data-mask operation is specified to have: lane `i` is zero
where the mask lane is true and `a[i]` where it is false. -/
def clear_where (a : List Nat) (m : List Bool) : List Nat :=
  List.zipWith (fun x t => if t then 0 else x) a m

/-! # Theorems -/

namespace TestEqualImpl

open TestCase

theorem run_loop_nil_right (t : TestEqualImpl) (as : List Result) (i : Nat) (ok : Bool)
    (err : List Out) : run_loop t as [] i ok err = some (ok, err) := by
  cases as <;> rfl

theorem run_loop_cons (t : TestEqualImpl) (ia ib : Result) (as bs : List Result) (i : Nat)
    (ok : Bool) (err : List Out) (hl : ia.line = ib.line) (ht : ia.type = ib.type) :
    run_loop t (ia :: as) (ib :: bs) i ok err =
      match cmpeq_result ia ib (pair_prec ia ib) with
      | none => none
      | some true => run_loop t as bs (i + 1) ok err
      | some false =>
        run_loop t as bs (i + 1) false (err ++ t.not_equal ia ib (pair_prec ia ib)) := by
  simp [run_loop, hl, ht, pair_prec]

/-- The loop returns true exactly when the flag was true on entry and every
remaining pair is value-equal. -/
theorem run_loop_true_iff (t : TestEqualImpl) (as bs : List Result) (i : Nat) (ok : Bool)
    (err : List Out)
    (hs : ∀ p ∈ as.zip bs, p.1.line = p.2.line ∧ p.1.type = p.2.type) :
    (∃ out, run_loop t as bs i ok err = some (true, out)) ↔
      (ok = true ∧ ∀ p ∈ as.zip bs, value_equal p) := by
  induction as generalizing bs i ok err with
  | nil => simp [run_loop]
  | cons ia as ih =>
    cases bs with
    | nil => simp [run_loop]
    | cons ib bs =>
      have h0 := hs (ia, ib) (by simp)
      have hs1 : ∀ p ∈ as.zip bs, p.1.line = p.2.line ∧ p.1.type = p.2.type :=
        fun p hp => hs p (by simp [hp])
      rw [run_loop_cons t ia ib as bs i ok err h0.1 h0.2]
      cases hc : cmpeq_result ia ib (pair_prec ia ib) with
      | none => simp [value_equal, hc]
      | some v =>
        cases v with
        | true =>
          simp only []
          rw [ih bs (i + 1) ok err hs1]
          simp [value_equal, hc]
        | false =>
          simp only []
          rw [ih bs (i + 1) false _ hs1]
          simp [value_equal, hc]

end TestEqualImpl

/-- C1: for structurally comparable test cases, `test_equal` returns true if and
only if every snapshot pair at the same index is value-equal under the larger of
the two recorded tolerances. -/
theorem C1_test_equal_iff_all_value_equal (a b : TestCase) (a_arch b_arch : String)
    (h : TestCase.comparable a b) :
    (∃ out, test_equal a a_arch b b_arch = some (true, out)) ↔
      ∀ p ∈ a.results_.zip b.results_,
        TestCase.cmpeq_result p.1 p.2
          (max (TestCase.precision_for_result p.1) (TestCase.precision_for_result p.2))
          = some true := by
  obtain ⟨hn, hl, hs⟩ := h
  have := TestEqualImpl.run_loop_true_iff ⟨a, a_arch, b, b_arch⟩ a.results_ b.results_ 0 true []
    hs
  simpa [test_equal, TestEqualImpl.run, hn, hl, TestCase.value_equal, TestCase.pair_prec]
    using this

namespace TestCase

theorem cmpeq_result_some (ia ib : Result) (prec : Nat)
    (h : (size_for_type ia.type).isSome = true) :
    ∃ v, cmpeq_result ia ib prec = some v := by
  unfold cmpeq_result
  cases hs : size_for_type ia.type with
  | none => simp [hs] at h
  | some n =>
    simp only []
    split
    · exact ⟨_, rfl⟩
    · split
      · exact ⟨_, rfl⟩
      · split <;> exact ⟨_, rfl⟩

end TestCase

namespace TestEqualImpl

open TestCase

/-- The loop over a comparable prefix of recognised snapshots: it reaches the
rest with the flag lowered by every unequal pair and the blocks appended. -/
theorem run_loop_append (t : TestEqualImpl) (as bs ra rb : List Result) (i : Nat) (ok : Bool)
    (err : List Out) (hlen : as.length = bs.length)
    (hs : ∀ p ∈ as.zip bs, p.1.line = p.2.line ∧ p.1.type = p.2.type)
    (hr : ∀ r ∈ as, (size_for_type r.type).isSome = true) :
    run_loop t (as ++ ra) (bs ++ rb) i ok err =
      run_loop t ra rb (i + as.length)
        (ok && (as.zip bs).all (fun p => decide (value_equal p))) (err ++ t.blocks (as.zip bs)) := by
  induction as generalizing bs i ok err with
  | nil =>
    cases bs with
    | nil => simp [blocks]
    | cons ib bs => simp at hlen
  | cons ia as ih =>
    cases bs with
    | nil => simp at hlen
    | cons ib bs =>
      have h0 := hs (ia, ib) (by simp)
      have hs1 : ∀ p ∈ as.zip bs, p.1.line = p.2.line ∧ p.1.type = p.2.type :=
        fun p hp => hs p (by simp [hp])
      have hr1 : ∀ r ∈ as, (size_for_type r.type).isSome = true :=
        fun r hr0 => hr r (by simp [hr0])
      have hlen1 : as.length = bs.length := by simpa using hlen
      obtain ⟨v, hv⟩ := cmpeq_result_some ia ib (pair_prec ia ib) (hr ia (by simp))
      simp only [List.cons_append]
      rw [run_loop_cons t ia ib _ _ i ok err h0.1 h0.2, hv]
      cases v with
      | true =>
        simp only []
        rw [ih bs (i + 1) ok err hlen1 hs1 hr1]
        have hve : value_equal (ia, ib) := hv
        simp [blocks, hve, Nat.add_assoc, Nat.add_comm 1]
      | false =>
        simp only []
        rw [ih bs (i + 1) false _ hlen1 hs1 hr1]
        have hve : ¬ value_equal (ia, ib) := by simp [value_equal, hv]
        simp [blocks, hve, Nat.add_assoc, Nat.add_comm 1]

end TestEqualImpl

/-! ## The mismatch mark occurs once per block -/

theorem mark_not_mem_hex (width num_elems : Nat) (p : Nat → Int) (n i : Nat) :
    TestEqualImpl.not_equal_mark ∉ fmt_vec_hex_from width num_elems p n i := by
  induction n generalizing i with
  | zero => simp [fmt_vec_hex_from]
  | succ n ih =>
    simp only [fmt_vec_hex_from, List.mem_append, not_or]
    refine ⟨⟨?_, ?_⟩, ih _⟩
    · simp [TestEqualImpl.not_equal_mark]
    · split <;> simp [TestEqualImpl.not_equal_mark]

theorem mark_not_mem_num (precision num_elems : Nat) (p : Nat → Elem) (n i : Nat) :
    TestEqualImpl.not_equal_mark ∉ fmt_vec_num_from precision num_elems p n i := by
  induction n generalizing i with
  | zero => simp [fmt_vec_num_from]
  | succ n ih =>
    simp only [fmt_vec_num_from, List.mem_append, not_or]
    refine ⟨⟨?_, ?_⟩, ih _⟩
    · simp [TestEqualImpl.not_equal_mark]
    · split <;> simp [TestEqualImpl.not_equal_mark]

theorem mark_not_mem_bin (v n i : Nat) :
    TestEqualImpl.not_equal_mark ∉ fmt_bin_from v n i := by
  induction n generalizing i with
  | zero => simp [fmt_bin_from]
  | succ n ih =>
    simp only [fmt_bin_from, List.mem_cons, not_or]
    exact ⟨by simp [TestEqualImpl.not_equal_mark], ih _⟩

theorem mark_not_mem_fmt_vec_hex (width num_elems : Nat) (pfx : String) (p : Nat → Int) :
    TestEqualImpl.not_equal_mark ∉ fmt_vec_hex width num_elems pfx p := by
  simp only [fmt_vec_hex, List.mem_append, not_or]
  exact ⟨⟨by simp [TestEqualImpl.not_equal_mark], mark_not_mem_hex _ _ _ _ _⟩,
    by simp [TestEqualImpl.not_equal_mark]⟩

theorem mark_not_mem_fmt_vec_num (precision num_elems : Nat) (pfx : String) (p : Nat → Elem) :
    TestEqualImpl.not_equal_mark ∉ fmt_vec_num precision num_elems pfx p := by
  simp only [fmt_vec_num, List.mem_append, not_or]
  exact ⟨⟨by simp [TestEqualImpl.not_equal_mark], mark_not_mem_num _ _ _ _ _⟩,
    by simp [TestEqualImpl.not_equal_mark]⟩

theorem mark_not_mem_fmt_bin (pfx : String) (v : Nat) :
    TestEqualImpl.not_equal_mark ∉ fmt_bin pfx v := by
  simp only [fmt_bin, List.mem_append, not_or]
  exact ⟨⟨by simp [TestEqualImpl.not_equal_mark], mark_not_mem_bin _ _ _⟩,
    by simp [TestEqualImpl.not_equal_mark]⟩

theorem mark_not_mem_fmt_vector (r : TestCase.Result) (pfx : String) :
    TestEqualImpl.not_equal_mark ∉ TestCase.fmt_vector r pfx := by
  unfold TestCase.fmt_vector
  split <;>
    first
    | exact mark_not_mem_fmt_bin _ _
    | exact List.not_mem_nil _
    | (simp only [List.mem_append, not_or]
       exact ⟨mark_not_mem_fmt_vec_hex _ _ _ _, mark_not_mem_fmt_vec_num _ _ _ _⟩)

namespace TestEqualImpl

open TestCase

theorem mark_not_mem_fmt_file_line (t : TestEqualImpl) (line : Nat) :
    not_equal_mark ∉ t.fmt_file_line line := by
  simp [fmt_file_line, fmt_arch, not_equal_mark]

theorem mark_not_mem_fmt_file (t : TestEqualImpl) : not_equal_mark ∉ t.fmt_file := by
  simp [fmt_file, fmt_arch, not_equal_mark]

theorem mark_not_mem_fmt_test_case (t : TestEqualImpl) : not_equal_mark ∉ t.fmt_test_case := by
  simp [fmt_test_case, not_equal_mark]

theorem mark_not_mem_fmt_separator : not_equal_mark ∉ fmt_separator := by
  simp [fmt_separator, not_equal_mark]

theorem mark_not_mem_fmt_seq (n : Nat) : not_equal_mark ∉ fmt_seq n := by
  simp [fmt_seq, not_equal_mark]

theorem mark_not_mem_fmt_prec (n : Nat) : not_equal_mark ∉ fmt_prec n := by
  unfold fmt_prec; split <;> simp [not_equal_mark]

theorem mark_not_mem_fatal_names (t : TestEqualImpl) : not_equal_mark ∉ t.fatal_names := by
  simp only [fatal_names, List.mem_append, not_or]
  exact ⟨⟨⟨mark_not_mem_fmt_separator, mark_not_mem_fmt_file t⟩, by simp [not_equal_mark]⟩,
    mark_not_mem_fmt_separator⟩

theorem mark_not_mem_fatal_sizes (t : TestEqualImpl) : not_equal_mark ∉ t.fatal_sizes := by
  simp only [fatal_sizes, List.mem_append, not_or]
  exact ⟨⟨⟨⟨mark_not_mem_fmt_separator, mark_not_mem_fmt_file t⟩,
    mark_not_mem_fmt_test_case t⟩, by simp [not_equal_mark]⟩, mark_not_mem_fmt_separator⟩

theorem mark_not_mem_fatal_line (t : TestEqualImpl) (i : Nat) (ia ib : Result) :
    not_equal_mark ∉ t.fatal_line i ia ib := by
  simp only [fatal_line, List.mem_append, not_or]
  exact ⟨⟨⟨⟨mark_not_mem_fmt_separator, mark_not_mem_fmt_file t⟩,
    mark_not_mem_fmt_test_case t⟩, by simp [not_equal_mark]⟩, mark_not_mem_fmt_separator⟩

theorem mark_not_mem_fatal_type (t : TestEqualImpl) (i : Nat) (ia ib : Result) :
    not_equal_mark ∉ t.fatal_type i ia ib := by
  simp only [fatal_type, List.mem_append, not_or]
  exact ⟨⟨⟨⟨mark_not_mem_fmt_separator, mark_not_mem_fmt_file_line t _⟩,
    mark_not_mem_fmt_test_case t⟩, by simp [not_equal_mark]⟩, mark_not_mem_fmt_separator⟩

/-- A mismatch block holds the mark exactly once. -/
theorem count_mark_not_equal (t : TestEqualImpl) (ia ib : Result) (prec : Nat) :
    (t.not_equal ia ib prec).count not_equal_mark = 1 := by
  have h1 := List.count_eq_zero.2 mark_not_mem_fmt_separator
  have h2 := List.count_eq_zero.2 (mark_not_mem_fmt_file_line t ia.line)
  have h3 := List.count_eq_zero.2 (mark_not_mem_fmt_test_case t)
  have h4 := List.count_eq_zero.2 (mark_not_mem_fmt_seq ia.seq)
  have h5 := List.count_eq_zero.2 (mark_not_mem_fmt_vector ia "A : ")
  have h6 := List.count_eq_zero.2 (mark_not_mem_fmt_vector ib "B : ")
  have h7 := List.count_eq_zero.2 (mark_not_mem_fmt_prec prec)
  simp only [not_equal, List.count_append, h1, h2, h3, h4, h5, h6, h7]
  simp [not_equal_mark]

/-- The blocks of a sequence of pairs hold one mark per unequal pair. -/
theorem count_mark_blocks (t : TestEqualImpl) (ps : List (Result × Result)) :
    (t.blocks ps).count not_equal_mark =
      (ps.filter (fun p => !decide (value_equal p))).length := by
  induction ps with
  | nil => simp [blocks]
  | cons p ps ih =>
    have hc : t.blocks (p :: ps) =
        (if value_equal p then [] else t.not_equal p.1 p.2 (pair_prec p.1 p.2))
          ++ t.blocks ps := by
      simp [blocks]
    rw [hc, List.count_append, ih]
    by_cases hv : value_equal p
    · simp [hv]
    · simp [hv, count_mark_not_equal, Nat.add_comm]

/-- The block of an unequal pair, with its line and sequence number, is part of
the blocks written. -/
theorem not_equal_infix_blocks (t : TestEqualImpl) (ps : List (Result × Result))
    (p : Result × Result) (hp : p ∈ ps) (hv : ¬ value_equal p) :
    t.not_equal p.1 p.2 (pair_prec p.1 p.2) <:+: t.blocks ps := by
  have : t.not_equal p.1 p.2 (pair_prec p.1 p.2) ∈
      ps.map (fun p => if value_equal p then [] else t.not_equal p.1 p.2 (pair_prec p.1 p.2)) :=
    List.mem_map.2 ⟨p, hp, by simp [hv]⟩
  have h := List.infix_of_mem_flatten this
  simpa [blocks, List.flatMap] using h

end TestEqualImpl

namespace TestEqualImpl

open TestCase

theorem cite_infix_not_equal (t : TestEqualImpl) (ia ib : Result) (prec : Nat) :
    (t.fmt_file_line ia.line ++ t.fmt_test_case ++ fmt_seq ia.seq ++ [not_equal_mark])
      <:+: t.not_equal ia ib prec :=
  ⟨fmt_separator, fmt_vector ia "A : " ++ fmt_vector ib "B : " ++ fmt_prec prec ++ fmt_separator,
    by simp [not_equal, not_equal_mark, List.append_assoc]⟩

/-- The whole run on comparable test cases of recognised tags: the result is
the conjunction over the pairs, the text is the blocks of the unequal pairs. -/
theorem run_comparable (t : TestEqualImpl) (h : comparable t.a t.b)
    (hr : ∀ r ∈ t.a.results_, (size_for_type r.type).isSome = true) :
    t.run = some ((t.a.results_.zip t.b.results_).all (fun p => decide (value_equal p)),
      t.blocks (t.a.results_.zip t.b.results_)) := by
  obtain ⟨hn, hl, hs⟩ := h
  have := run_loop_append t t.a.results_ t.b.results_ [] [] 0 true [] hl hs hr
  simp only [List.append_nil] at this
  simp [run, hn, hl, this, run_loop]

end TestEqualImpl

/-- The run of the end-to-end scenario: one block, result false. -/
theorem Example.run_ff_0f (a_arch b_arch : String) :
    test_equal (Example.case_of [Example.u8_ff]) a_arch (Example.case_of [Example.u8_0f]) b_arch
      = some (false, TestEqualImpl.not_equal
          ⟨Example.case_of [Example.u8_ff], a_arch, Example.case_of [Example.u8_0f], b_arch⟩
          Example.u8_ff Example.u8_0f 0) := by
  have hv : TestCase.cmpeq_result Example.u8_ff Example.u8_0f
      (TestCase.pair_prec Example.u8_ff Example.u8_0f) = some false := by decide
  have hp : TestCase.pair_prec Example.u8_ff Example.u8_0f = 0 := by decide
  have hl : TestEqualImpl.run_loop
      ⟨Example.case_of [Example.u8_ff], a_arch, Example.case_of [Example.u8_0f], b_arch⟩
      [Example.u8_ff] [Example.u8_0f] 0 true [] = _ :=
    TestEqualImpl.run_loop_cons _ Example.u8_ff Example.u8_0f [] [] 0 true [] rfl rfl
  rw [hv, hp] at hl
  simp only [TestEqualImpl.run_loop_nil_right] at hl
  simpa [test_equal, TestEqualImpl.run, Example.case_of] using hl

/-- C7: on structurally comparable test cases (of recognised tags) `test_equal`
compares every pair: it returns whether all pairs are value-equal, the number of
`Vectors not equal` marks written equals the number of pairs that are not
value-equal, and the text holds, for each such pair, its line, the test case
name, its sequence number and the mark.  One `uint8x16` snapshot of bytes 0xFF
against one of bytes 0x0F (line 10, sequence 0, tolerance 0) gives false and
exactly one mark. -/
theorem C7_one_block_per_unequal_pair (a b : TestCase) (a_arch b_arch : String)
    (h : TestCase.comparable a b)
    (hr : ∀ r ∈ a.results_, (TestCase.size_for_type r.type).isSome = true) :
    (∃ out,
      test_equal a a_arch b b_arch =
        some ((a.results_.zip b.results_).all (fun p => decide (TestCase.value_equal p)), out) ∧
      out.count TestEqualImpl.not_equal_mark =
        ((a.results_.zip b.results_).filter
          (fun p => !decide (TestCase.value_equal p))).length ∧
      ∀ p ∈ a.results_.zip b.results_, ¬ TestCase.value_equal p →
        (TestEqualImpl.fmt_file_line ⟨a, a_arch, b, b_arch⟩ p.1.line
          ++ TestEqualImpl.fmt_test_case ⟨a, a_arch, b, b_arch⟩
          ++ TestEqualImpl.fmt_seq p.1.seq ++ [TestEqualImpl.not_equal_mark]) <:+: out) ∧
    (∃ out,
      test_equal (Example.case_of [Example.u8_ff]) a_arch (Example.case_of [Example.u8_0f]) b_arch
        = some (false, out) ∧
      out.count TestEqualImpl.not_equal_mark = 1 ∧
      Out.num 10 ∈ out ∧ TestEqualImpl.fmt_seq 0 <:+: out) := by
  constructor
  · refine ⟨_, TestEqualImpl.run_comparable ⟨a, a_arch, b, b_arch⟩ h hr, ?_, ?_⟩
    · exact TestEqualImpl.count_mark_blocks _ _
    · intro p hp hv
      exact (TestEqualImpl.cite_infix_not_equal _ p.1 p.2 _).trans
        (TestEqualImpl.not_equal_infix_blocks _ _ p hp hv)
  · refine ⟨_, Example.run_ff_0f a_arch b_arch, ?_, ?_, ?_⟩
    · exact TestEqualImpl.count_mark_not_equal _ _ _ _
    · simp [TestEqualImpl.not_equal, TestEqualImpl.fmt_file_line, Example.u8_ff]
    · exact ⟨TestEqualImpl.fmt_separator ++ TestEqualImpl.fmt_file_line _ Example.u8_ff.line
          ++ TestEqualImpl.fmt_test_case _, _, by
        simp [TestEqualImpl.not_equal, List.append_assoc, Example.u8_ff]; rfl⟩

/-- C4 (as stated) fails: the line numbers of the second pair differ, yet the
value mismatch of the first pair has been compared and reported before the
FATAL diagnostic. -/
theorem C4_counterexample :
    ¬ TestCase.comparable (Example.case_of [Example.u8_ff, Example.u8_zero 11])
        (Example.case_of [Example.u8_0f, Example.u8_zero 12]) ∧
    ∃ out, test_equal (Example.case_of [Example.u8_ff, Example.u8_zero 11]) "A"
        (Example.case_of [Example.u8_0f, Example.u8_zero 12]) "B" = some (false, out) ∧
      TestEqualImpl.not_equal_mark ∈ out := by
  constructor
  · intro h
    have := h.2.2 (Example.u8_zero 11, Example.u8_zero 12) (by simp [Example.case_of])
    exact absurd this.1 (by decide)
  · refine ⟨_, rfl, ?_⟩
    decide

/-- C4 (amended): a structural mismatch makes `test_equal` return false.  When
the names or the snapshot counts differ nothing is compared: the text is the one
FATAL diagnostic, without any `Vectors not equal` mark.  When names and counts
agree and the first line or type mismatch is at index `i`, the pairs below `i`
(of recognised tags) have been compared: the text is the blocks of the unequal
pairs below `i` followed by the one FATAL diagnostic, which holds no mark. -/
theorem C4_structural_mismatch (a b : TestCase) (a_arch b_arch : String) :
    (a.name_ ≠ b.name_ →
      test_equal a a_arch b b_arch
        = some (false, TestEqualImpl.fatal_names ⟨a, a_arch, b, b_arch⟩) ∧
      TestEqualImpl.not_equal_mark ∉ TestEqualImpl.fatal_names ⟨a, a_arch, b, b_arch⟩) ∧
    (a.name_ = b.name_ → a.results_.length ≠ b.results_.length →
      test_equal a a_arch b b_arch
        = some (false, TestEqualImpl.fatal_sizes ⟨a, a_arch, b, b_arch⟩) ∧
      TestEqualImpl.not_equal_mark ∉ TestEqualImpl.fatal_sizes ⟨a, a_arch, b, b_arch⟩) ∧
    (∀ (as bs ra rb : List TestCase.Result) (ia ib : TestCase.Result),
      a.name_ = b.name_ → a.results_.length = b.results_.length →
      a.results_ = as ++ ia :: ra → b.results_ = bs ++ ib :: rb → as.length = bs.length →
      (∀ p ∈ as.zip bs, p.1.line = p.2.line ∧ p.1.type = p.2.type) →
      (∀ r ∈ as, (TestCase.size_for_type r.type).isSome = true) →
      (ia.line ≠ ib.line ∨ ia.type ≠ ib.type) →
      test_equal a a_arch b b_arch
        = some (false, TestEqualImpl.blocks ⟨a, a_arch, b, b_arch⟩ (as.zip bs) ++
            (if ia.line ≠ ib.line
              then TestEqualImpl.fatal_line ⟨a, a_arch, b, b_arch⟩ as.length ia ib
              else TestEqualImpl.fatal_type ⟨a, a_arch, b, b_arch⟩ as.length ia ib)) ∧
      TestEqualImpl.not_equal_mark ∉
        (if ia.line ≠ ib.line
          then TestEqualImpl.fatal_line ⟨a, a_arch, b, b_arch⟩ as.length ia ib
          else TestEqualImpl.fatal_type ⟨a, a_arch, b, b_arch⟩ as.length ia ib)) := by
  refine ⟨?_, ?_, ?_⟩
  · intro hn
    exact ⟨by simp [test_equal, TestEqualImpl.run, hn],
      TestEqualImpl.mark_not_mem_fatal_names _⟩
  · intro hn hl
    exact ⟨by simp [test_equal, TestEqualImpl.run, hn, hl],
      TestEqualImpl.mark_not_mem_fatal_sizes _⟩
  · intro as bs ra rb ia ib hn hl ha hb hlen hs hr hm
    constructor
    · have h1 := TestEqualImpl.run_loop_append ⟨a, a_arch, b, b_arch⟩ as bs (ia :: ra)
        (ib :: rb) 0 true [] hlen hs hr
      have hrun : test_equal a a_arch b b_arch = TestEqualImpl.run_loop
          ⟨a, a_arch, b, b_arch⟩ a.results_ b.results_ 0 true [] := by
        simp [test_equal, TestEqualImpl.run, hn, hl]
      rw [hrun, ha, hb, h1]
      by_cases hline : ia.line = ib.line
      · have htype : ia.type ≠ ib.type := by
          rcases hm with h | h
          · exact absurd hline h
          · exact h
        simp [TestEqualImpl.run_loop, hline, htype]
      · simp [TestEqualImpl.run_loop, hline]
    · split
      · exact TestEqualImpl.mark_not_mem_fatal_line _ _ _ _
      · exact TestEqualImpl.mark_not_mem_fatal_type _ _ _ _

/-! ## Byte comparison and the floating-point walk -/

namespace TestCase

theorem memcmp_eq_iff (a b : Result) (n : Nat) :
    memcmp_eq a b n = true ↔ ∀ i < n, a.byte i = b.byte i := by
  simp [memcmp_eq]

theorem load_eq_of_bytes (a b : Result) (w off : Nat)
    (h : ∀ i, off ≤ i → i < off + w → a.byte i = b.byte i) : a.load off w = b.load off w := by
  induction w generalizing off with
  | zero => rfl
  | succ w ih =>
    simp only [Result.load]
    rw [h off (Nat.le_refl _) (by omega), ih (off + 1) (fun i h1 h2 => h i (by omega) (by omega))]

theorem load_lt (a : Result) (w off : Nat) : a.load off w < 256 ^ w := by
  induction w generalizing off with
  | zero => simp [Result.load]
  | succ w ih =>
    simp only [Result.load]
    have h1 : a.byte off < 256 := by unfold Result.byte; omega
    have h2 := ih (off + 1)
    rw [pow_succ]
    omega

end TestCase

theorem cmpeq_arrays_walk_succ (f : FloatFormat) (n x y : Nat) :
    cmpeq_arrays_walk f (n + 1) x y =
      cmpeq_arrays_nextafter f (cmpeq_arrays_walk f n x y) y := by
  induction n generalizing x with
  | zero => rfl
  | succ n ih =>
    rw [cmpeq_arrays_walk, ih]
    rfl

theorem FloatFormat.ne_nextafter (f : FloatFormat) (x y : Nat) (h : f.ne x y = false) :
    f.ne (f.nextafter x y) y = false := by
  simp only [FloatFormat.ne, Bool.or_eq_false_iff, decide_eq_false_iff_not, not_not] at h
  obtain ⟨⟨hx, hy⟩, hk⟩ := h
  simp [FloatFormat.nextafter, hx, hy, hk, FloatFormat.ne]

/-! ## Conversions between `float` and `double` -/

theorem float_to_double_mag_normal (n : Nat) (h1 : 2 ^ 23 ≤ n) (h2 : n < 255 * 2 ^ 23) :
    float_to_double_mag n = (n + 896 * 2 ^ 23) * 2 ^ 29 := by
  unfold float_to_double_mag
  simp only []
  norm_num at h1 h2 ⊢
  split_ifs <;> omega

theorem float_to_double_mag_inf : float_to_double_mag 0x7f800000 = 2047 * 2 ^ 52 := by
  decide

theorem double_to_float_mag_normal (n : Nat) (h1 : 2 ^ 23 ≤ n) (h2 : n < 255 * 2 ^ 23) :
    double_to_float_mag (float_to_double_mag n) = n ∧
    double_to_float_mag (float_to_double_mag n + 1) = n ∧
    double_to_float_mag (float_to_double_mag n - 1) = n := by
  rw [float_to_double_mag_normal n h1 h2]
  unfold double_to_float_mag round_to_nearest_even
  simp only []
  norm_num at h1 h2 ⊢
  refine ⟨?_, ?_, ?_⟩
  · split_ifs <;> omega
  · split_ifs <;> omega
  · by_cases hn : n = 8388608
    · subst hn; decide
    · split_ifs <;> omega

theorem double_to_float_mag_inf :
    double_to_float_mag (2047 * 2 ^ 52) = 0x7f800000 ∧
    double_to_float_mag (2047 * 2 ^ 52 - 1) = 0x7f800000 := by
  decide

theorem float_to_double_mag_subnormal (n : Nat) (h1 : 0 < n) (h2 : n < 2 ^ 23) :
    float_to_double_mag n = (Nat.log2 n + 873) * 2 ^ 52 + n * 2 ^ (52 - Nat.log2 n) := by
  have e0 : n / 2 ^ 23 = 0 := by norm_num at h2 ⊢; omega
  have e1 : n % 2 ^ 23 = n := by norm_num at h2 ⊢; omega
  have e2 : n ≠ 0 := by omega
  unfold float_to_double_mag
  simp only [e0, e1, e2]
  norm_num

theorem double_to_float_mag_small (m de : Nat) (hde : m / 2 ^ 52 = de) (h1 : 873 ≤ de)
    (h2 : de ≤ 896) :
    double_to_float_mag m = round_to_nearest_even (2 ^ 52 + m % 2 ^ 52) (926 - de) := by
  have h3 : ¬ 2047 * 2 ^ 52 < m := by norm_num at hde ⊢; omega
  have h4 : ¬ 897 ≤ de := by omega
  have h5 : ¬ de < 873 := by omega
  unfold double_to_float_mag
  simp only [hde, h3, h4, h5, if_false]

theorem round_to_nearest_even_eq (q r sh : Nat) (hr : r < 2 ^ sh) :
    round_to_nearest_even (q * 2 ^ sh + r) sh =
      q + (if 2 ^ sh < 2 * r ∨ (2 ^ sh = 2 * r ∧ q % 2 = 1) then 1 else 0) := by
  have hpos : 0 < 2 ^ sh := Nat.two_pow_pos sh
  have hd : (q * 2 ^ sh + r) / 2 ^ sh = q := by
    rw [Nat.add_comm, Nat.add_mul_div_right _ _ hpos, Nat.div_eq_of_lt hr, Nat.zero_add]
  have hm : (q * 2 ^ sh + r) % 2 ^ sh = r := by
    rw [Nat.add_comm, Nat.add_mul_mod_self_right, Nat.mod_eq_of_lt hr]
  unfold round_to_nearest_even
  rw [hd, hm]

theorem double_to_float_mag_subnormal (n : Nat) (h1 : 0 < n) (h2 : n < 2 ^ 23) :
    double_to_float_mag (float_to_double_mag n) = n ∧
    double_to_float_mag (float_to_double_mag n + 1) = n ∧
    double_to_float_mag (float_to_double_mag n - 1) = n ∧
    874 * 2 ^ 52 ≤ float_to_double_mag n ∧ float_to_double_mag n < 897 * 2 ^ 52 := by
  have hp : Nat.log2 n < 23 := (Nat.log2_lt (by omega)).2 h2
  have hlo : 2 ^ Nat.log2 n ≤ n := Nat.log2_self_le (by omega)
  have hhi : n < 2 ^ (Nat.log2 n + 1) := Nat.lt_log2_self
  rw [float_to_double_mag_subnormal n h1 h2]
  generalize Nat.log2 n = p at hp hlo hhi
  have hS : 2 ^ p * 2 ^ (52 - p) = 2 ^ 52 := by
    rw [← pow_add]; congr 1; omega
  have hS2 : 2 ^ (p + 1) * 2 ^ (52 - p) = 2 ^ 53 := by
    rw [← pow_add]; congr 1; omega
  have hS30 : 2 ^ 30 ≤ 2 ^ (52 - p) := Nat.pow_le_pow_right (by norm_num) (by omega)
  have hX1 : 2 ^ 52 ≤ n * 2 ^ (52 - p) := hS ▸ Nat.mul_le_mul_right _ hlo
  have hX2 : (n + 1) * 2 ^ (52 - p) ≤ 2 ^ 53 := hS2 ▸ Nat.mul_le_mul_right _ hhi
  rw [Nat.add_mul, Nat.one_mul] at hX2
  have he : 926 - (p + 874) = 52 - p := by omega
  norm_num at hS30 hX1 hX2
  refine ⟨?_, ?_, ?_, ?_, ?_⟩
  · rw [double_to_float_mag_small _ (p + 874) (by norm_num; omega) (by omega) (by omega), he]
    have hsig : 2 ^ 52 + ((p + 873) * 2 ^ 52 + n * 2 ^ (52 - p)) % 2 ^ 52
        = n * 2 ^ (52 - p) + 0 := by norm_num; omega
    rw [hsig, round_to_nearest_even_eq _ _ _ (by omega)]
    have : ¬ (2 ^ (52 - p) < 2 * 0 ∨ 2 ^ (52 - p) = 2 * 0 ∧ n % 2 = 1) := by omega
    simp only [this, if_false, Nat.add_zero]
  · rw [double_to_float_mag_small _ (p + 874) (by norm_num; omega) (by omega) (by omega), he]
    have hsig : 2 ^ 52 + ((p + 873) * 2 ^ 52 + n * 2 ^ (52 - p) + 1) % 2 ^ 52
        = n * 2 ^ (52 - p) + 1 := by norm_num; omega
    rw [hsig, round_to_nearest_even_eq _ _ _ (by omega)]
    have : ¬ (2 ^ (52 - p) < 2 * 1 ∨ 2 ^ (52 - p) = 2 * 1 ∧ n % 2 = 1) := by omega
    simp only [this, if_false, Nat.add_zero]
  · by_cases hn : n = 2 ^ p
    · subst hn
      interval_cases p <;> decide
    · have hn1 : 2 ^ p + 1 ≤ n := by omega
      have hX3 : (2 ^ p + 1) * 2 ^ (52 - p) ≤ n * 2 ^ (52 - p) := Nat.mul_le_mul_right _ hn1
      rw [Nat.add_mul, Nat.one_mul, hS] at hX3
      have hX4 : (n - 1) * 2 ^ (52 - p) = n * 2 ^ (52 - p) - 2 ^ (52 - p) := by
        rw [Nat.sub_mul, Nat.one_mul]
      norm_num at hX3
      rw [double_to_float_mag_small _ (p + 874) (by norm_num; omega) (by omega) (by omega), he]
      have hsig : 2 ^ 52 + ((p + 873) * 2 ^ 52 + n * 2 ^ (52 - p) - 1) % 2 ^ 52
          = (n - 1) * 2 ^ (52 - p) + (2 ^ (52 - p) - 1) := by norm_num; omega
      rw [hsig, round_to_nearest_even_eq _ _ _ (by omega)]
      have : (2 ^ (52 - p) < 2 * (2 ^ (52 - p) - 1) ∨
          2 ^ (52 - p) = 2 * (2 ^ (52 - p) - 1) ∧ (n - 1) % 2 = 1) := by omega
      simp only [this, if_true]
      omega
  · norm_num; omega
  · norm_num; omega

theorem float_to_double_mag_facts (n : Nat) (h : n ≤ 0x7f800000) :
    double_to_float_mag (float_to_double_mag n) = n ∧
    (0 < n → n < 0x7f800000 → double_to_float_mag (float_to_double_mag n + 1) = n) ∧
    (0 < n → double_to_float_mag (float_to_double_mag n - 1) = n) ∧
    (0 < n → 0 < float_to_double_mag n) ∧
    float_to_double_mag n ≤ 2047 * 2 ^ 52 ∧
    (n < 0x7f800000 → float_to_double_mag n < 2047 * 2 ^ 52) := by
  by_cases h0 : n = 0
  · subst h0
    refine ⟨by decide, ?_, ?_, ?_, by decide, fun _ => by decide⟩ <;> intro h <;> omega
  by_cases h1 : n < 2 ^ 23
  · obtain ⟨a, b, c, d, e⟩ := double_to_float_mag_subnormal n (by omega) h1
    norm_num at d e ⊢
    exact ⟨a, fun _ _ => b, fun _ => c, fun _ => by omega, by omega, fun _ => by omega⟩
  by_cases h2 : n < 255 * 2 ^ 23
  · obtain ⟨a, b, c⟩ := double_to_float_mag_normal n (by omega) h2
    have e := float_to_double_mag_normal n (by omega) h2
    norm_num at e h1 h2 ⊢
    exact ⟨a, fun _ _ => b, fun _ => c, fun _ => by omega, by omega, fun _ => by omega⟩
  · have e : n = 0x7f800000 := by norm_num at h2 h ⊢; omega
    subst e
    refine ⟨by decide, ?_, fun _ => by decide, fun _ => by decide, by decide, ?_⟩
    · intro _ h; omega
    · intro h; omega

theorem float_to_double_mag_nan (n : Nat) (h1 : 0x7f800000 < n) (h2 : n < 2 ^ 31) :
    2047 * 2 ^ 52 < float_to_double_mag n ∧ float_to_double_mag n < 2 ^ 63 := by
  unfold float_to_double_mag
  simp only []
  norm_num at h1 h2 ⊢
  split_ifs <;> omega

theorem double_to_float_mag_nan (m : Nat) (h1 : 2047 * 2 ^ 52 < m) :
    0x7f800000 < double_to_float_mag m ∧ double_to_float_mag m < 2 ^ 31 := by
  unfold double_to_float_mag
  simp only [h1, if_true]
  norm_num
  omega

theorem decide_eq_not_decide (p q : Prop) [Decidable p] [Decidable q] :
    (decide p = !decide q) ↔ (p ↔ ¬ q) := by
  by_cases hp : p <;> by_cases hq : q <;> simp [hp, hq]

theorem float_to_double_mag_zero : float_to_double_mag 0 = 0 := by decide

theorem float_to_double_mag_lt (n : Nat) (h : n < 2 ^ 31) : float_to_double_mag n < 2 ^ 63 := by
  by_cases h1 : n ≤ 0x7f800000
  · have := (float_to_double_mag_facts n h1).2.2.2.2.1
    norm_num at this ⊢; omega
  · exact (float_to_double_mag_nan n (by omega) h).2

/-- Sign, magnitude and class of a promoted `float`. -/
theorem float_to_double_parts (x : Nat) :
    float_to_double x % 2 ^ 63 = float_to_double_mag (x % 2 ^ 31) ∧
    float_to_double x / 2 ^ 63 % 2 = x / 2 ^ 31 % 2 ∧
    float_to_double x < 2 ^ 64 := by
  have h := float_to_double_mag_lt (x % 2 ^ 31) (Nat.mod_lt _ (by norm_num))
  unfold float_to_double
  generalize float_to_double_mag (x % 2 ^ 31) = A at h
  norm_num at h ⊢
  omega

theorem float_to_double_isnan (x : Nat) :
    binary64.isnan (float_to_double x) = binary32.isnan x := by
  have hp := (float_to_double_parts x).1
  simp only [FloatFormat.isnan, FloatFormat.inf, FloatFormat.mag, binary32, binary64]
  norm_num at hp ⊢
  rw [hp]
  by_cases h : x % 2147483648 ≤ 0x7f800000
  · have := (float_to_double_mag_facts _ h).2.2.2.2.1
    norm_num at this h
    omega
  · have := float_to_double_mag_nan (x % 2147483648) (by omega) (by omega)
    norm_num at this h
    omega

theorem double_to_float_isnan (d : Nat) (h : binary64.isnan d = true) :
    binary32.isnan (double_to_float d) = true := by
  simp only [FloatFormat.isnan, FloatFormat.inf, FloatFormat.mag, binary32, binary64,
    decide_eq_true_eq] at h ⊢
  norm_num at h ⊢
  have := double_to_float_mag_nan (d % 9223372036854775808) (by norm_num; omega)
  unfold double_to_float
  norm_num at this ⊢
  omega

theorem FloatFormat.isnan_nextafter (f : FloatFormat) (x y : Nat) (h : f.isnan x = true) :
    f.isnan (f.nextafter x y) = true := by
  have hle : f.mag x ≤ f.mag (x ||| 2 ^ (f.mant - 1)) := by
    unfold FloatFormat.mag
    apply Nat.le_of_testBit
    intro i
    simp only [Nat.testBit_mod_two_pow, Nat.testBit_or, Bool.and_eq_true, decide_eq_true_eq,
      Bool.or_eq_true]
    exact fun hi => ⟨hi.1, Or.inl hi.2⟩
  simp only [FloatFormat.nextafter, h, if_true]
  simp only [FloatFormat.isnan, decide_eq_true_eq] at h ⊢
  omega

/-- A `float` pattern with the bits above bit 31 dropped is the same value. -/
theorem binary32_mod (x : Nat) :
    binary32.isnan (x % 2 ^ 32) = binary32.isnan x ∧
    binary32.key (x % 2 ^ 32) = binary32.key x := by
  have h1 : x % 2 ^ 32 % 2 ^ 31 = x % 2 ^ 31 := by omega
  have h2 : x % 2 ^ 32 % 2 ^ 32 = x % 2 ^ 32 := by omega
  simp only [FloatFormat.isnan, FloatFormat.key, FloatFormat.sign, FloatFormat.mag, binary32,
    h1, h2]
  exact ⟨trivial, trivial⟩

theorem binary32_isnan_false (x : Nat) (nx : binary32.isnan x = false) :
    x % 2 ^ 31 ≤ 0x7f800000 := by
  simp only [FloatFormat.isnan, FloatFormat.inf, FloatFormat.mag, binary32,
    decide_eq_false_iff_not, not_lt] at nx
  omega

/-- Promotion to `double` followed by conversion back gives the `float` again. -/
theorem double_to_float_float_to_double (x : Nat) (nx : binary32.isnan x = false) :
    double_to_float (float_to_double x) = x % 2 ^ 32 := by
  obtain ⟨h1, h2, _⟩ := float_to_double_parts x
  have hf := (float_to_double_mag_facts (x % 2 ^ 31) (binary32_isnan_false x nx)).1
  unfold double_to_float
  rw [h1, h2, hf]
  omega

/-- The double next above a promoted nonzero finite `float` rounds back to it. -/
theorem double_to_float_succ (x : Nat) (nx : binary32.isnan x = false)
    (h0 : x % 2 ^ 31 ≠ 0) (hi : x % 2 ^ 31 ≠ 0x7f800000) :
    double_to_float (float_to_double x + 1) = x % 2 ^ 32 := by
  obtain ⟨h1, h2, h3⟩ := float_to_double_parts x
  have hn := binary32_isnan_false x nx
  obtain ⟨_, hp, _, hpos, _, hlt⟩ := float_to_double_mag_facts (x % 2 ^ 31) hn
  have hp := hp (by omega) (by omega)
  have hpos := hpos (by omega)
  have hlt := hlt (by omega)
  have e1 : (float_to_double x + 1) % 2 ^ 63 = float_to_double_mag (x % 2 ^ 31) + 1 := by
    omega
  have e2 : (float_to_double x + 1) / 2 ^ 63 % 2 = x / 2 ^ 31 % 2 := by
    omega
  unfold double_to_float
  rw [e1, e2, hp]
  omega

/-- The double next below a promoted nonzero `float` rounds back to it. -/
theorem double_to_float_pred (x : Nat) (nx : binary32.isnan x = false)
    (h0 : x % 2 ^ 31 ≠ 0) :
    double_to_float (float_to_double x - 1) = x % 2 ^ 32 := by
  obtain ⟨h1, h2, h3⟩ := float_to_double_parts x
  have hn := binary32_isnan_false x nx
  obtain ⟨_, _, hm, hpos, hle, _⟩ := float_to_double_mag_facts (x % 2 ^ 31) hn
  have hm := hm (by omega)
  have hpos := hpos (by omega)
  have e1 : (float_to_double x - 1) % 2 ^ 63 = float_to_double_mag (x % 2 ^ 31) - 1 := by
    omega
  have e2 : (float_to_double x - 1) / 2 ^ 63 % 2 = x / 2 ^ 31 % 2 := by
    omega
  unfold double_to_float
  rw [e1, e2, hm]
  omega

/-- Sign and magnitude of a promoted `float`. -/
theorem float_to_double_sign_mag (x : Nat) :
    binary64.sign (float_to_double x) = decide (2 ^ 31 ≤ x % 2 ^ 32) ∧
    binary64.mag (float_to_double x) = float_to_double_mag (x % 2 ^ 31) := by
  obtain ⟨h1, h2, h3⟩ := float_to_double_parts x
  constructor
  · show decide (2 ^ 63 ≤ float_to_double x % 2 ^ 64) = decide (2 ^ 31 ≤ x % 2 ^ 32)
    simp only [decide_eq_decide]
    omega
  · exact h1

/-- Promotion keeps equal values equal and distinct values distinct. -/
theorem float_to_double_key_eq_iff (x y : Nat) (nx : binary32.isnan x = false)
    (ny : binary32.isnan y = false) :
    binary64.key (float_to_double x) = binary64.key (float_to_double y) ↔
      binary32.key x = binary32.key y := by
  have fx := float_to_double_mag_facts (x % 2 ^ 31) (binary32_isnan_false x nx)
  have fy := float_to_double_mag_facts (y % 2 ^ 31) (binary32_isnan_false y ny)
  have h0 : x % 2 ^ 31 = 0 → float_to_double_mag (x % 2 ^ 31) = 0 := fun h => by
    rw [h]; exact float_to_double_mag_zero
  have h0y : y % 2 ^ 31 = 0 → float_to_double_mag (y % 2 ^ 31) = 0 := fun h => by
    rw [h]; exact float_to_double_mag_zero
  have hxy : x % 2 ^ 31 = y % 2 ^ 31 →
      float_to_double_mag (x % 2 ^ 31) = float_to_double_mag (y % 2 ^ 31) :=
    fun h => by rw [h]
  have hyx : float_to_double_mag (x % 2 ^ 31) = float_to_double_mag (y % 2 ^ 31) →
      x % 2 ^ 31 = y % 2 ^ 31 := fun h => by
    rw [← fx.1, ← fy.1, h]
  have px := fx.2.2.2.1
  have py := fy.2.2.2.1
  simp only [FloatFormat.key, (float_to_double_sign_mag x).1, (float_to_double_sign_mag x).2,
    (float_to_double_sign_mag y).1, (float_to_double_sign_mag y).2]
  show _ ↔ (if decide (2 ^ 31 ≤ x % 2 ^ 32) then -((x % 2 ^ 31 : Nat) : Int)
      else ((x % 2 ^ 31 : Nat) : Int)) = (if decide (2 ^ 31 ≤ y % 2 ^ 32)
      then -((y % 2 ^ 31 : Nat) : Int) else ((y % 2 ^ 31 : Nat) : Int))
  simp only [decide_eq_true_eq]
  generalize float_to_double_mag (x % 2 ^ 31) = A at *
  generalize float_to_double_mag (y % 2 ^ 31) = B at *
  split_ifs <;> omega

/-! ## The step of the walk -/

theorem cmpeq_arrays_nextafter_float (x y : Nat) :
    cmpeq_arrays_nextafter binary32 x y =
      double_to_float (binary64.nextafter (float_to_double x) (float_to_double y)) := by
  simp [cmpeq_arrays_nextafter]

theorem cmpeq_arrays_nextafter_other (f : FloatFormat) (hf : f ≠ binary32) (x y : Nat) :
    cmpeq_arrays_nextafter f x y = f.nextafter x y := by
  simp [cmpeq_arrays_nextafter, hf]

/-- A `float` NaN stays a NaN through the promoted `nextafter`. -/
theorem cmpeq_arrays_nextafter_float_isnan (x y : Nat) (h : binary32.isnan x = true) :
    binary32.isnan (cmpeq_arrays_nextafter binary32 x y) = true := by
  rw [cmpeq_arrays_nextafter_float]
  exact double_to_float_isnan _
    (FloatFormat.isnan_nextafter binary64 _ _ (by rw [float_to_double_isnan]; exact h))

/-- A `float` that compares equal to the target is sent to the target. -/
theorem cmpeq_arrays_nextafter_float_eq (x y : Nat) (nx : binary32.isnan x = false)
    (ny : binary32.isnan y = false) (hk : binary32.key x = binary32.key y) :
    cmpeq_arrays_nextafter binary32 x y = y % 2 ^ 32 := by
  rw [cmpeq_arrays_nextafter_float]
  have h1 : binary64.isnan (float_to_double x) = false := by rw [float_to_double_isnan]; exact nx
  have h2 : binary64.isnan (float_to_double y) = false := by rw [float_to_double_isnan]; exact ny
  have h3 := (float_to_double_key_eq_iff x y nx ny).2 hk
  have : binary64.nextafter (float_to_double x) (float_to_double y) = float_to_double y := by
    simp [FloatFormat.nextafter, h1, h2, h3]
  rw [this, double_to_float_float_to_double y ny]

/-- A `float` that differs from the target keeps its value through the
promoted `nextafter`: the adjacent double rounds back to the start. -/
theorem cmpeq_arrays_nextafter_float_ne (x y : Nat) (nx : binary32.isnan x = false)
    (ny : binary32.isnan y = false) (hk : binary32.key x ≠ binary32.key y) :
    cmpeq_arrays_nextafter binary32 x y < 2 ^ 32 ∧
    binary32.isnan (cmpeq_arrays_nextafter binary32 x y) = false ∧
    binary32.key (cmpeq_arrays_nextafter binary32 x y) = binary32.key x := by
  rw [cmpeq_arrays_nextafter_float]
  have h1 : binary64.isnan (float_to_double x) = false := by rw [float_to_double_isnan]; exact nx
  have h2 : binary64.isnan (float_to_double y) = false := by rw [float_to_double_isnan]; exact ny
  have h3 : ¬ binary64.key (float_to_double x) = binary64.key (float_to_double y) :=
    fun h => hk ((float_to_double_key_eq_iff x y nx ny).1 h)
  have hm := binary32_mod x
  have hlt : x % 2 ^ 32 < 2 ^ 32 := Nat.mod_lt _ (by norm_num)
  simp only [FloatFormat.nextafter, h1, h2, h3, Bool.false_eq_true, if_false]
  by_cases h0 : x % 2 ^ 31 = 0
  · have hz : binary64.mag (float_to_double x) = 0 := by
      rw [(float_to_double_sign_mag x).2, h0]; exact float_to_double_mag_zero
    have hkx : binary32.key x = 0 := by
      show (if binary32.sign x then -((x % 2 ^ 31 : Nat) : Int)
        else ((x % 2 ^ 31 : Nat) : Int)) = 0
      rw [h0]
      split_ifs <;> rfl
    simp only [hz, if_true]
    rw [hkx]
    split_ifs <;> decide
  · have hz : ¬ binary64.mag (float_to_double x) = 0 := by
      rw [(float_to_double_sign_mag x).2]
      have := (float_to_double_mag_facts (x % 2 ^ 31) (binary32_isnan_false x nx)).2.2.2.1
      omega
    simp only [hz, if_false]
    split_ifs with hup
    · have hi : x % 2 ^ 31 ≠ 0x7f800000 := by
        intro hi
        have fy := float_to_double_mag_facts (y % 2 ^ 31) (binary32_isnan_false y ny)
        have hA : float_to_double_mag (x % 2 ^ 31) = 2047 * 2 ^ 52 := by
          rw [hi]; exact float_to_double_mag_inf
        simp only [FloatFormat.key, (float_to_double_sign_mag x).1,
          (float_to_double_sign_mag x).2, (float_to_double_sign_mag y).1,
          (float_to_double_sign_mag y).2, decide_eq_not_decide, decide_eq_true_eq] at hup h3
        generalize float_to_double_mag (y % 2 ^ 31) = B at *
        generalize float_to_double_mag (x % 2 ^ 31) = A at *
        have hB := fy.2.2.2.2.1
        split_ifs at hup h3 <;> omega
      rw [double_to_float_succ x nx h0 hi]
      exact ⟨hlt, hm.1.trans nx, hm.2⟩
    · rw [double_to_float_pred x nx h0]
      exact ⟨hlt, hm.1.trans nx, hm.2⟩

theorem binary32_ne_comm (x y : Nat) : binary32.ne x y = binary32.ne y x := by
  simp only [FloatFormat.ne, ne_eq]
  rw [Bool.or_comm (binary32.isnan x) (binary32.isnan y)]
  congr 1
  simp only [decide_eq_decide]
  exact ⟨fun h e => h e.symm, fun h e => h e.symm⟩

theorem cmpeq_arrays_walk_float_isnan (T x y : Nat) (h : binary32.isnan x = true) :
    binary32.isnan (cmpeq_arrays_walk binary32 T x y) = true := by
  induction T generalizing x with
  | zero => exact h
  | succ T ih => exact ih _ (cmpeq_arrays_nextafter_float_isnan x y h)

/-- The walk over `float` lanes never changes the outcome of the comparison:
after any number of steps the lane compares to the target as it did at the
start. -/
theorem cmpeq_arrays_walk_float (T x y : Nat) (hy : y < 2 ^ 32) :
    binary32.ne (cmpeq_arrays_walk binary32 T x y) y = binary32.ne x y := by
  cases nx : binary32.isnan x with
  | true =>
    have h1 := cmpeq_arrays_walk_float_isnan T x y nx
    simp [FloatFormat.ne, nx, h1]
  | false =>
    cases ny : binary32.isnan y with
    | true => simp [FloatFormat.ne, ny]
    | false =>
      induction T generalizing x with
      | zero => rfl
      | succ T ih =>
        simp only [cmpeq_arrays_walk]
        by_cases hk : binary32.key x = binary32.key y
        · rw [cmpeq_arrays_nextafter_float_eq x y nx ny hk, Nat.mod_eq_of_lt hy, ih y ny]
          simp [FloatFormat.ne, nx, ny, hk]
        · obtain ⟨_, h2, h3⟩ := cmpeq_arrays_nextafter_float_ne x y nx ny hk
          rw [ih _ h2]
          simp [FloatFormat.ne, nx, ny, h2, h3]

theorem cmpeq_arrays_nextafter_ne (f : FloatFormat) (x y : Nat) (h : f.ne x y = false) :
    f.ne (cmpeq_arrays_nextafter f x y) y = false := by
  by_cases hf : f = binary32
  · subst hf
    simp only [FloatFormat.ne, Bool.or_eq_false_iff, decide_eq_false_iff_not, not_not] at h
    obtain ⟨⟨hx, hy⟩, hk⟩ := h
    rw [cmpeq_arrays_nextafter_float_eq x y hx hy hk]
    have hm := binary32_mod y
    simp only [FloatFormat.ne, hm.1, hm.2, hy, Bool.or_false, ne_eq, not_true_eq_false,
      decide_False]
  · rw [cmpeq_arrays_nextafter_other f hf]
    exact FloatFormat.ne_nextafter f x y h

/-- Once the walk has reached the target it stays there. -/
theorem cmpeq_arrays_walk_mono (f : FloatFormat) (x y : Nat) (T T' : Nat) (hT : T ≤ T')
    (h : f.ne (cmpeq_arrays_walk f T x y) y = false) :
    f.ne (cmpeq_arrays_walk f T' x y) y = false := by
  induction T' with
  | zero =>
    have : T = 0 := by omega
    subst this; exact h
  | succ n ih =>
    by_cases hn : T ≤ n
    · rw [cmpeq_arrays_walk_succ]
      exact cmpeq_arrays_nextafter_ne f _ y (ih hn)
    · have : T = n + 1 := by omega
      subst this; exact h

theorem cmpeq_arrays_from_iff (f : FloatFormat) (a b : Nat → Nat) (prec n i : Nat) :
    cmpeq_arrays_from f a b prec n i = true ↔
      ∀ k < n, f.ne (cmpeq_arrays_walk f prec (a (i + k)) (b (i + k))) (b (i + k)) = false := by
  induction n generalizing i with
  | zero => simp [cmpeq_arrays_from]
  | succ n ih =>
    simp only [cmpeq_arrays_from]
    constructor
    · intro h
      split at h
      · simp at h
      · rename_i hne
        rw [ih] at h
        intro k hk
        cases k with
        | zero => simpa using hne
        | succ k =>
          have := h k (by omega)
          simpa [Nat.add_assoc, Nat.add_comm 1] using this
    · intro h
      have h0 := h 0 (by omega)
      simp only [Nat.add_zero] at h0
      rw [h0]
      simp only [Bool.false_eq_true, if_false]
      rw [ih]
      intro k hk
      have := h (k + 1) (by omega)
      simpa [Nat.add_assoc, Nat.add_comm 1] using this

theorem cmpeq_arrays_iff (f : FloatFormat) (num_elems : Nat) (a b : Nat → Nat) (prec : Nat) :
    cmpeq_arrays f num_elems a b prec = true ↔
      ∀ k < num_elems, f.ne (cmpeq_arrays_walk f prec (a k) (b k)) (b k) = false := by
  simpa using cmpeq_arrays_from_iff f a b prec num_elems 0

theorem cmpeq_arrays_mono (f : FloatFormat) (num_elems : Nat) (a b : Nat → Nat) (T T' : Nat)
    (hT : T ≤ T') (h : cmpeq_arrays f num_elems a b T = true) :
    cmpeq_arrays f num_elems a b T' = true := by
  rw [cmpeq_arrays_iff] at h ⊢
  exact fun k hk => cmpeq_arrays_walk_mono f _ _ T T' hT (h k hk)

theorem TestCase.precision_for_result_non_float (r : TestCase.Result)
    (h : TestCase.is_float r.type = false) : TestCase.precision_for_result r = 0 := by
  unfold TestCase.precision_for_result
  cases hr : r.type <;> simp_all [TestCase.is_float]

/-- C5: for two snapshots with the same recognised non-floating-point tag and
any recorded tolerances, `cmpeq_result` under the tolerance `run` uses answers
true exactly when the two payloads agree on each of the first
`size_for_type(tag)` bytes, and false otherwise. -/
theorem C5_non_float_compares_bytes (ia ib : TestCase.Result) (n : Nat)
    (ht : ia.type = ib.type) (hnf : TestCase.is_float ia.type = false)
    (hn : TestCase.size_for_type ia.type = some n) :
    TestCase.cmpeq_result ia ib
        (max (TestCase.precision_for_result ia) (TestCase.precision_for_result ib))
      = some (decide (∀ i < n, ia.byte i = ib.byte i)) := by
  have hp : max (TestCase.precision_for_result ia) (TestCase.precision_for_result ib) = 0 := by
    rw [TestCase.precision_for_result_non_float ia hnf,
      TestCase.precision_for_result_non_float ib (ht ▸ hnf)]
    rfl
  rw [hp]
  unfold TestCase.cmpeq_result
  rw [hn]
  by_cases hm : TestCase.memcmp_eq ia ib n = true
  · have := (TestCase.memcmp_eq_iff ia ib n).1 hm
    simp only [hm, if_true]
    simpa using this
  · have : ¬ ∀ i < n, ia.byte i = ib.byte i := fun h => hm ((TestCase.memcmp_eq_iff ia ib n).2 h)
    simp [hm, this]

/-- C8: if two snapshots compare equal under tolerance `T`, they compare equal
under every larger tolerance `T'`; this holds for every tag of the first
snapshot, the four floating-point tags included. -/
theorem C8_tolerance_monotone (ia ib : TestCase.Result) (T T' : Nat) (hT : T < T')
    (h : TestCase.cmpeq_result ia ib T = some true) :
    TestCase.cmpeq_result ia ib T' = some true := by
  unfold TestCase.cmpeq_result at h ⊢
  cases hs : TestCase.size_for_type ia.type with
  | none => simp [hs] at h
  | some n =>
    simp only [hs] at h ⊢
    by_cases hm : TestCase.memcmp_eq ia ib n = true
    · simp [hm]
    · simp only [hm, Bool.false_eq_true, if_false] at h ⊢
      have hT' : T' ≠ 0 := by omega
      by_cases hT0 : T = 0
      · simp [hT0] at h
      · simp only [hT0, hT', if_false] at h ⊢
        split at h <;> simp_all [cmpeq_arrays_mono _ _ _ _ T T' (Nat.le_of_lt hT)]

theorem TestCase.lane_lt (r : TestCase.Result) (w i : Nat) : r.lane w i < 256 ^ w :=
  TestCase.load_lt r w (w * i)

/-- C6 (failing input): the `float32x4` snapshots `f32_c` and `f32_d` hold no
NaN and differ only in the last bit of lane 0 (1.0 against the next `float`
above it).  They compare unequal under tolerance 0 and, against the claim,
unequal under tolerance 1 and under every other tolerance: the walk over
`float` lanes steps between neighbouring doubles and converts back, so after
any number of steps a lane compares to its target as it did at the start.  The
`double` lanes do step as the claim says: `f64_a` and `f64_b`, one last bit
apart, are unequal under tolerance 0 and equal under tolerance 1. -/
theorem C6_failing_input :
    Example.f32_c.type = TestCase.TypeTag.TYPE_FLOAT32x4 ∧
    Example.f32_d.type = TestCase.TypeTag.TYPE_FLOAT32x4 ∧
    TestCase.differ_in_last_bit Example.f32_c Example.f32_d 0 ∧
    (∀ i < 4, binary32.isnan (Example.f32_c.lane 4 i) = false ∧
      binary32.isnan (Example.f32_d.lane 4 i) = false) ∧
    TestCase.cmpeq_result Example.f32_c Example.f32_d 0 = some false ∧
    TestCase.cmpeq_result Example.f32_c Example.f32_d 1 = some false ∧
    (∀ T, TestCase.cmpeq_result Example.f32_c Example.f32_d T = some false) ∧
    (∀ T x y : Nat, y < 2 ^ 32 →
      binary32.ne (cmpeq_arrays_walk binary32 T x y) y = binary32.ne x y) ∧
    TestCase.cmpeq_result Example.f64_a Example.f64_b 0 = some false ∧
    TestCase.cmpeq_result Example.f64_a Example.f64_b 1 = some true := by
  refine ⟨rfl, rfl, by decide, by decide, by decide, by decide, ?_,
    fun T x y hy => cmpeq_arrays_walk_float T x y hy, by decide, by decide⟩
  intro T
  by_cases hT : T = 0
  · subst hT; decide
  · have hm : TestCase.memcmp_eq Example.f32_c Example.f32_d 16 = false := by decide
    have hs : TestCase.size_for_type Example.f32_c.type = some 16 := rfl
    have hl : binary32.ne (cmpeq_arrays_walk binary32 T (Example.f32_c.lane 4 0)
        (Example.f32_d.lane 4 0)) (Example.f32_d.lane 4 0) = true := by
      rw [cmpeq_arrays_walk_float T _ _ (by decide)]
      decide
    have hc : cmpeq_arrays binary32 4 (Example.f32_c.lane 4) (Example.f32_d.lane 4) T
        = false := by
      cases h : cmpeq_arrays binary32 4 (Example.f32_c.lane 4) (Example.f32_d.lane 4) T
      · rfl
      · have := (cmpeq_arrays_iff binary32 4 _ _ T).1 h 0 (by decide)
        rw [hl] at this
        exact absurd this (by decide)
    unfold TestCase.cmpeq_result
    rw [hs]
    simp only [hm, Bool.false_eq_true, if_false, hT]
    show some (cmpeq_arrays binary32 4 (Example.f32_c.lane 4) (Example.f32_d.lane 4) T)
      = some false
    rw [hc]

/-! ## Witnesses at concrete snapshots -/

theorem C1_witness :
    TestCase.comparable (Example.case_of [Example.f64_a]) (Example.case_of [Example.f64_b]) ∧
    ∃ out, test_equal (Example.case_of [Example.f64_a]) "sse2"
      (Example.case_of [Example.f64_b]) "neon" = some (true, out) :=
  have hc : TestCase.comparable (Example.case_of [Example.f64_a])
      (Example.case_of [Example.f64_b]) := by
    refine ⟨rfl, rfl, ?_⟩
    decide
  ⟨hc, (C1_test_equal_iff_all_value_equal _ _ "sse2" "neon" hc).2 (by decide)⟩

theorem C4_witness :
    test_equal (Example.case_of [Example.u8_ff, Example.u8_zero 11]) "A"
      (Example.case_of [Example.u8_0f, Example.u8_zero 12]) "B" =
    some (false,
      TestEqualImpl.blocks
        ⟨Example.case_of [Example.u8_ff, Example.u8_zero 11], "A",
          Example.case_of [Example.u8_0f, Example.u8_zero 12], "B"⟩
        [(Example.u8_ff, Example.u8_0f)] ++
      TestEqualImpl.fatal_line
        ⟨Example.case_of [Example.u8_ff, Example.u8_zero 11], "A",
          Example.case_of [Example.u8_0f, Example.u8_zero 12], "B"⟩
        1 (Example.u8_zero 11) (Example.u8_zero 12)) :=
  ((C4_structural_mismatch (Example.case_of [Example.u8_ff, Example.u8_zero 11])
    (Example.case_of [Example.u8_0f, Example.u8_zero 12]) "A" "B").2.2
    [Example.u8_ff] [Example.u8_0f] [] [] (Example.u8_zero 11) (Example.u8_zero 12)
    rfl rfl rfl rfl rfl (by decide) (by decide) (Or.inl (by decide))).1

theorem C5_witness :
    Example.u8_ff_tol3.type = Example.u8_0f_tol5.type ∧
    TestCase.is_float Example.u8_ff_tol3.type = false ∧
    TestCase.size_for_type Example.u8_ff_tol3.type = some 16 ∧
    TestCase.cmpeq_result Example.u8_ff_tol3 Example.u8_0f_tol5
      (max (TestCase.precision_for_result Example.u8_ff_tol3)
        (TestCase.precision_for_result Example.u8_0f_tol5))
      = some false :=
  ⟨rfl, rfl, rfl,
    (C5_non_float_compares_bytes Example.u8_ff_tol3 Example.u8_0f_tol5 16 rfl rfl rfl).trans
      (by decide)⟩

theorem C7_witness :
    TestCase.comparable (Example.case_of [Example.u8_ff, Example.u8_zero 11])
      (Example.case_of [Example.u8_0f, Example.u8_zero 11]) ∧
    ∃ out, test_equal (Example.case_of [Example.u8_ff, Example.u8_zero 11]) "A"
        (Example.case_of [Example.u8_0f, Example.u8_zero 11]) "B" = some (false, out) ∧
      out.count TestEqualImpl.not_equal_mark = 1 :=
  have hc : TestCase.comparable (Example.case_of [Example.u8_ff, Example.u8_zero 11])
      (Example.case_of [Example.u8_0f, Example.u8_zero 11]) := by
    refine ⟨rfl, rfl, ?_⟩
    decide
  by
    obtain ⟨out, h1, h2, _⟩ := (C7_one_block_per_unequal_pair _ _ "A" "B" hc (by decide)).1
    exact ⟨hc, out, h1.trans (congrArg (fun v => some (v, out)) (by decide)),
      h2.trans (by decide)⟩

theorem C8_witness :
    1 < 2 ∧ TestCase.cmpeq_result Example.f64_a Example.f64_b 1 = some true ∧
    TestCase.cmpeq_result Example.f64_a Example.f64_b 2 = some true :=
  ⟨by decide, by decide,
    C8_tolerance_monotone Example.f64_a Example.f64_b 1 2 (by decide) (by decide)⟩

/-! ## Registers and lanes -/

theorem Nat.and_mod_two_pow_distrib (x y k : Nat) :
    (x &&& y) % 2 ^ k = (x % 2 ^ k) &&& (y % 2 ^ k) := by
  apply Nat.eq_of_testBit_eq
  intro i
  simp only [Nat.testBit_mod_two_pow, Nat.testBit_and]
  cases decide (i < k) <;> simp

theorem Nat.and_div_two_pow_distrib (x y k : Nat) :
    (x &&& y) / 2 ^ k = (x / 2 ^ k) &&& (y / 2 ^ k) := by
  apply Nat.eq_of_testBit_eq
  intro i
  simp only [← Nat.shiftRight_eq_div_pow, Nat.testBit_shiftRight, Nat.testBit_and]

theorem testBit_lane_not (bits x i : Nat) :
    (lane_not bits x).testBit i = (decide (i < bits) ^^ x.testBit i) := by
  simp [lane_not, Nat.testBit_xor, Nat.testBit_two_pow_sub_one]

theorem lane_not_mod (bits m x : Nat) (h : bits ≤ m) :
    lane_not m x % 2 ^ bits = lane_not bits (x % 2 ^ bits) := by
  apply Nat.eq_of_testBit_eq
  intro i
  simp only [Nat.testBit_mod_two_pow, testBit_lane_not]
  by_cases hi : i < bits
  · have : i < m := by omega
    simp [hi, this]
  · simp [hi]

theorem lane_not_div (bits m x : Nat) :
    lane_not (bits + m) x / 2 ^ bits = lane_not m (x / 2 ^ bits) := by
  apply Nat.eq_of_testBit_eq
  intro i
  simp only [← Nat.shiftRight_eq_div_pow, Nat.testBit_shiftRight, testBit_lane_not]
  congr 2
  simp

theorem lane_not_lt (bits x : Nat) (h : x < 2 ^ bits) : lane_not bits x < 2 ^ bits := by
  apply Nat.lt_pow_two_of_testBit
  intro i hi
  rw [testBit_lane_not]
  have h1 : decide (i < bits) = false := by simp; omega
  have h2 : x.testBit i = false := Nat.testBit_lt_two_pow (lt_of_lt_of_le h
    (Nat.pow_le_pow_right (by decide) hi))
  simp [h1, h2]

theorem unpack_length (bits n r : Nat) : (unpack bits n r).length = n := by
  induction n generalizing r with
  | zero => rfl
  | succ n ih => simp [unpack, ih]

theorem unpack_lt (bits n r : Nat) : ∀ x ∈ unpack bits n r, x < 2 ^ bits := by
  induction n generalizing r with
  | zero => simp [unpack]
  | succ n ih =>
    intro x hx
    simp only [unpack, List.mem_cons] at hx
    rcases hx with h | h
    · rw [h]; exact Nat.mod_lt _ (Nat.two_pow_pos bits)
    · exact ih _ x h

theorem is_vec_unpack (bits n r : Nat) : is_vec bits n (unpack bits n r) :=
  ⟨unpack_length bits n r, unpack_lt bits n r⟩

theorem unpack_and (bits n x y : Nat) :
    unpack bits n (x &&& y) = List.zipWith (· &&& ·) (unpack bits n x) (unpack bits n y) := by
  induction n generalizing x y with
  | zero => rfl
  | succ n ih =>
    simp only [unpack, List.zipWith_cons_cons, Nat.and_mod_two_pow_distrib,
      Nat.and_div_two_pow_distrib, ih]

theorem unpack_lane_not (bits n x : Nat) :
    unpack bits n (lane_not (bits * n) x) = (unpack bits n x).map (lane_not bits) := by
  induction n generalizing x with
  | zero => rfl
  | succ n ih =>
    have h1 : bits * (n + 1) = bits + bits * n := by rw [Nat.mul_succ, Nat.add_comm]
    have h2 : lane_not (bits * (n + 1)) x % 2 ^ bits = lane_not bits (x % 2 ^ bits) :=
      lane_not_mod bits _ x (by rw [h1]; omega)
    have h3 : lane_not (bits * (n + 1)) x / 2 ^ bits = lane_not (bits * n) (x / 2 ^ bits) := by
      rw [h1]; exact lane_not_div bits _ x
    simp only [unpack, List.map_cons, h2, h3, ih]

theorem unpack_pack (bits : Nat) (l : List Nat) (h : ∀ x ∈ l, x < 2 ^ bits) :
    unpack bits l.length (pack bits l) = l := by
  induction l with
  | nil => rfl
  | cons x xs ih =>
    have hx : x < 2 ^ bits := h x (by simp)
    have hp : 0 < 2 ^ bits := Nat.two_pow_pos bits
    simp only [pack, List.length_cons, unpack]
    rw [Nat.add_mul_mod_self_left, Nat.mod_mod, Nat.mod_eq_of_lt hx,
      Nat.add_mul_div_left _ _ hp, Nat.div_eq_of_lt hx, Nat.zero_add,
      ih (fun y hy => h y (by simp [hy]))]

theorem pack_unpack (bits n r : Nat) : pack bits (unpack bits n r) = r % 2 ^ (bits * n) := by
  induction n generalizing r with
  | zero => simp [unpack, pack, Nat.mod_one]
  | succ n ih =>
    simp only [unpack, pack, ih, Nat.mod_mod]
    rw [Nat.mul_succ, Nat.add_comm (bits * n), Nat.pow_add, Nat.mod_mul]

theorem unpack_mod (bits n r : Nat) :
    unpack bits n (r % 2 ^ (bits * n)) = unpack bits n r := by
  induction n generalizing r with
  | zero => rfl
  | succ n ih =>
    have h1 : bits * (n + 1) = bits + bits * n := by rw [Nat.mul_succ, Nat.add_comm]
    have h2 : r % 2 ^ (bits * (n + 1)) % 2 ^ bits = r % 2 ^ bits := by
      rw [h1, Nat.pow_add]
      exact Nat.mod_mul_right_mod r _ _
    have h3 : r % 2 ^ (bits * (n + 1)) / 2 ^ bits = r / 2 ^ bits % 2 ^ (bits * n) := by
      rw [h1, Nat.pow_add, Nat.mod_mul_right_div_self]
    simp only [unpack, h2, h3, ih]

/-- The lane-wise and-not of the lanes of two registers is the lanes of the
and-not of the registers. -/
theorem andnot_lanes_unpack (bits n x y : Nat) :
    andnot_lanes bits (unpack bits n x) (unpack bits n y)
      = unpack bits n (x &&& lane_not (bits * n) y) := by
  rw [unpack_and, unpack_lane_not, andnot_lanes, List.zipWith_map_right]

/-- An instruction that inverts its first operand, called with the operands
swapped, yields the lane-wise and-not. -/
theorem unpack_andnot_swapped (bits n : Nat) (a b : List Nat) (ha : is_vec bits n a)
    (hb : is_vec bits n b) :
    unpack bits n (lane_not (bits * n) (pack bits b) &&& pack bits a) = andnot_lanes bits a b := by
  rw [Nat.and_comm, ← andnot_lanes_unpack]
  obtain ⟨hal, hax⟩ := ha
  obtain ⟨hbl, hbx⟩ := hb
  subst hal
  rw [unpack_pack bits a hax, ← hbl, unpack_pack bits b hbx]

theorem is_vec_andnot_lanes (bits n : Nat) (a b : List Nat) (ha : is_vec bits n a)
    (hb : is_vec bits n b) : is_vec bits n (andnot_lanes bits a b) := by
  obtain ⟨hal, hax⟩ := ha
  obtain ⟨hbl, hbx⟩ := hb
  refine ⟨by simp [andnot_lanes, hal, hbl], ?_⟩
  intro x hx
  simp only [andnot_lanes, List.mem_iff_getElem, List.getElem_zipWith, List.length_zipWith] at hx
  obtain ⟨i, hi, rfl⟩ := hx
  exact lt_of_le_of_lt Nat.and_le_left (hax _ (List.getElem_mem _))

/-! ## The native 128-bit backends compute the lane-wise and-not -/

theorem i_bit_andnot_u8x16_eq (c : Caps) (a b : List Nat) (ha : is_vec 8 16 a)
    (hb : is_vec 8 16 b) (hs : select_u8x16 c ≠ none) :
    i_bit_andnot_u8x16 c a b = some (andnot_lanes 8 a b) := by
  unfold i_bit_andnot_u8x16
  unfold select_u8x16 at hs ⊢
  split_ifs at hs ⊢
  · rfl
  · exact congrArg some (unpack_andnot_swapped 8 16 a b ha hb)
  · rfl
  · rfl
  · exact absurd rfl hs

theorem i_bit_andnot_f32x4_eq (c : Caps) (a b : List Nat) (ha : is_vec 32 4 a)
    (hb : is_vec 32 4 b) (hs : select_f32x4 c ≠ none) :
    i_bit_andnot_f32x4 c a b = some (andnot_lanes 32 a b) := by
  unfold i_bit_andnot_f32x4
  unfold select_f32x4 at hs ⊢
  split_ifs at hs ⊢
  · rfl
  · exact congrArg some (unpack_andnot_swapped 32 4 a b ha hb)
  · rfl
  · rfl
  · exact absurd rfl hs

theorem i_bit_andnot_f64x2_eq (c : Caps) (a b : List Nat) (ha : is_vec 64 2 a)
    (hb : is_vec 64 2 b) (hs : select_f64x2 c ≠ none) :
    i_bit_andnot_f64x2 c a b = some (andnot_lanes 64 a b) := by
  unfold i_bit_andnot_f64x2
  unfold select_f64x2 at hs ⊢
  split_ifs at hs ⊢
  · rfl
  · exact congrArg some (unpack_andnot_swapped 64 2 a b ha hb)
  · rfl
  · exact absurd rfl hs

/-- C2: under every capability set that keeps a body of the native `uint8<16>`
overload, `i_bit_andnot(a, b)` is `a[i] AND (NOT b[i])` in every lane, whichever
operand the instruction inverts; the same holds for `float32<4>` and
`float64<2>` on the bit patterns; in particular for the all-0x00 and all-0xFF
byte patterns. -/
theorem C2_native_andnot (c : Caps) (hs8 : select_u8x16 c ≠ none)
    (hs32 : select_f32x4 c ≠ none) (hs64 : select_f64x2 c ≠ none) :
    (∀ a b, is_vec 8 16 a → is_vec 8 16 b →
      i_bit_andnot_u8x16 c a b = some (List.zipWith (fun x y => x &&& lane_not 8 y) a b)) ∧
    (∀ a b, is_vec 32 4 a → is_vec 32 4 b →
      i_bit_andnot_f32x4 c a b = some (List.zipWith (fun x y => x &&& lane_not 32 y) a b)) ∧
    (∀ a b, is_vec 64 2 a → is_vec 64 2 b →
      i_bit_andnot_f64x2 c a b = some (List.zipWith (fun x y => x &&& lane_not 64 y) a b)) ∧
    i_bit_andnot_u8x16 c (List.replicate 16 0xFF) (List.replicate 16 0x00)
      = some (List.replicate 16 0xFF) ∧
    i_bit_andnot_u8x16 c (List.replicate 16 0xFF) (List.replicate 16 0xFF)
      = some (List.replicate 16 0x00) ∧
    i_bit_andnot_u8x16 c (List.replicate 16 0x00) (List.replicate 16 0xFF)
      = some (List.replicate 16 0x00) ∧
    i_bit_andnot_u8x16 c (List.replicate 16 0x00) (List.replicate 16 0x00)
      = some (List.replicate 16 0x00) := by
  refine ⟨fun a b ha hb => i_bit_andnot_u8x16_eq c a b ha hb hs8,
    fun a b ha hb => i_bit_andnot_f32x4_eq c a b ha hb hs32,
    fun a b ha hb => i_bit_andnot_f64x2_eq c a b ha hb hs64, ?_, ?_, ?_, ?_⟩
  · exact (i_bit_andnot_u8x16_eq c _ _ (by decide) (by decide) hs8).trans (by decide)
  · exact (i_bit_andnot_u8x16_eq c _ _ (by decide) (by decide) hs8).trans (by decide)
  · exact (i_bit_andnot_u8x16_eq c _ _ (by decide) (by decide) hs8).trans (by decide)
  · exact (i_bit_andnot_u8x16_eq c _ _ (by decide) (by decide) hs8).trans (by decide)

theorem C2_witness :
    select_u8x16 Example.caps_sse2 ≠ none ∧ select_f32x4 Example.caps_sse2 ≠ none ∧
    select_f64x2 Example.caps_sse2 ≠ none ∧
    i_bit_andnot_u8x16 Example.caps_sse2 (List.replicate 16 0xFF) (List.replicate 16 0x0F)
      = some (List.replicate 16 0xF0) :=
  ⟨by decide, by decide, by decide,
    ((C2_native_andnot Example.caps_sse2 (by decide) (by decide) (by decide)).1
      (List.replicate 16 0xFF) (List.replicate 16 0x0F) (by decide) (by decide)).trans
      (by decide)⟩

/-! ## Composition through the 8-bit backend -/

theorem convert_andnot (bits n bits8 n8 : Nat) (h : bits8 * n8 = bits * n) (a b : List Nat)
    (ha : is_vec bits n a) (hb : is_vec bits n b) :
    convert bits8 bits n (andnot_lanes bits8 (convert bits bits8 n8 a) (convert bits bits8 n8 b))
      = andnot_lanes bits a b := by
  unfold convert
  rw [andnot_lanes_unpack, pack_unpack, h, unpack_mod, ← andnot_lanes_unpack]
  obtain ⟨hal, hax⟩ := ha
  obtain ⟨hbl, hbx⟩ := hb
  subst hal
  rw [unpack_pack bits a hax, ← hbl, unpack_pack bits b hbx]

/-- C9: under every capability set that keeps a body of the `uint8<16>`
overload, the 128-bit and-not of `uint16<8>`, `uint32<4>` and `uint64<2>`
vectors, computed by converting both operands to `uint8<16>`, applying the
8-bit backend and converting back, is the lane-wise `a[i] AND (NOT b[i])` at
16, 32 and 64 bits. -/
theorem C9_composed_equals_lanewise (c : Caps) (hs : select_u8x16 c ≠ none) :
    (∀ a b, is_vec 16 8 a → is_vec 16 8 b →
      i_bit_andnot_u16x8 c a b = some (List.zipWith (fun x y => x &&& lane_not 16 y) a b)) ∧
    (∀ a b, is_vec 32 4 a → is_vec 32 4 b →
      i_bit_andnot_u32x4 c a b = some (List.zipWith (fun x y => x &&& lane_not 32 y) a b)) ∧
    (∀ a b, is_vec 64 2 a → is_vec 64 2 b →
      i_bit_andnot_u64x2 c a b = some (List.zipWith (fun x y => x &&& lane_not 64 y) a b)) := by
  refine ⟨?_, ?_, ?_⟩
  · intro a b ha hb
    unfold i_bit_andnot_u16x8
    rw [i_bit_andnot_u8x16_eq c (convert 16 8 16 a) (convert 16 8 16 b)
      (is_vec_unpack 8 16 _) (is_vec_unpack 8 16 _) hs]
    exact congrArg some (convert_andnot 16 8 8 16 rfl a b ha hb)
  · intro a b ha hb
    unfold i_bit_andnot_u32x4
    rw [i_bit_andnot_u8x16_eq c (convert 32 8 16 a) (convert 32 8 16 b)
      (is_vec_unpack 8 16 _) (is_vec_unpack 8 16 _) hs]
    exact congrArg some (convert_andnot 32 4 8 16 rfl a b ha hb)
  · intro a b ha hb
    unfold i_bit_andnot_u64x2
    rw [i_bit_andnot_u8x16_eq c (convert 64 8 16 a) (convert 64 8 16 b)
      (is_vec_unpack 8 16 _) (is_vec_unpack 8 16 _) hs]
    exact congrArg some (convert_andnot 64 2 8 16 rfl a b ha hb)

theorem C9_witness :
    select_u8x16 Example.caps_sse2 ≠ none ∧
    i_bit_andnot_u16x8 Example.caps_sse2 [0xFFFF, 0x1234, 0, 1, 2, 3, 0xFF00, 0x00FF]
        [0x0F0F, 0x00FF, 0xFFFF, 0, 2, 1, 0x0FF0, 0x00FF]
      = some [0xF0F0, 0x1200, 0, 1, 0, 2, 0xF000, 0] :=
  ⟨by decide,
    ((C9_composed_equals_lanewise Example.caps_sse2 (by decide)).1 _ _ (by decide)
      (by decide)).trans (by decide)⟩

/-! ## Which capability sets end in the scalar reference implementation -/

/-- C10 (as stated) fails: an AltiVec build has vector support, yet the native
`float64<2>` overload keeps the scalar reference implementation. -/
theorem C10_counterexample :
    Example.caps_altivec.has_vector = true ∧
    Example.caps_altivec.SIMDPP_USE_NULL = false ∧
    select128 Example.caps_altivec Operands.f64 = some Backend.scalar ∧
    resolve128 Example.caps_altivec Operands.mask_f64 = some Backend.scalar := by
  decide

/-- C10 (amended): a native-width `i_bit_andnot` ends in the scalar reference
implementation exactly when the build has no vector support for the element
kind: `SIMDPP_USE_NULL` for the integer kinds, that or NEON without
single-precision support for `float32`, that or 32-bit NEON or AltiVec for
`float64` (masks and data-mask pairs included); every other build that ends in
a backend ends in a hardware instruction. -/
theorem C10_scalar_iff_guard (c : Caps) (o : Operands) :
    (resolve128 c o = some Backend.scalar ↔ scalar_guard c o.kind = true) ∧
    (∀ k, resolve128 c o = some k → scalar_guard c o.kind = false →
      k = Backend.sse2 ∨ k = Backend.neon ∨ k = Backend.altivec) := by
  cases o <;>
    simp only [resolve128, resolve128_fuel, select128, callee128, select_u8x16, select_f32x4,
      select_f64x2, scalar_guard, Operands.kind, Option.bind] <;>
    constructor <;>
    (try intro k) <;>
    split_ifs <;> intros <;> simp_all

/-! ## Width decomposition -/

theorem VEC_ARRAY_IMPL2_from_eq {α β γ : Type} (w : Nat)
    (op : List α → List β → Option (List γ)) (a : List α) (b : List β) (k j : Nat) :
    VEC_ARRAY_IMPL2_from w op a b k j =
      concat_segments ((List.range' j k).map (fun i => op (vec w a i) (vec w b i))) := by
  induction k generalizing j with
  | zero => rfl
  | succ k ih =>
    simp only [VEC_ARRAY_IMPL2_from, List.range'_succ, List.map_cons]
    cases h : op (vec w a j) (vec w b j) with
    | none => rfl
    | some r => simp only [concat_segments, ih]

theorem vec_zero_of_length {α : Type} (w : Nat) (v : List α) (h : v.length = w) :
    vec w v 0 = v := by
  simp [vec, ← h]

theorem concat_segments_singleton {γ : Type} (r : Option (List γ)) :
    concat_segments [r] = r := by
  cases r <;> simp [concat_segments]

theorem SIMDPP_VEC_ARRAY_IMPL2_eq {α β γ : Type} (w k : Nat)
    (op : List α → List β → Option (List γ)) (a : List α) (b : List β) (hw : 0 < w)
    (ha : a.length = k * w) :
    SIMDPP_VEC_ARRAY_IMPL2 w op a b =
      concat_segments ((List.range k).map (fun j => op (vec w a j) (vec w b j))) := by
  unfold SIMDPP_VEC_ARRAY_IMPL2
  rw [ha, Nat.mul_div_cancel k hw, VEC_ARRAY_IMPL2_from_eq, List.range_eq_range']

/-- C3: for every segment count `k` (1, 2, 3, 4, 8 among them) the macro of the
generic template, applied to operands of `k` times the native width, yields the
concatenation in ascending order of the native operation on segment `j` of the
first and segment `j` of the second operand; so do the overload sets of
`uint8` and, with a mask as second operand cut into the same `k` segments, of
`uint32` with `mask_int32`. -/
theorem C3_width_decomposition (c : Caps) (k : Nat) :
    (∀ (α β γ : Type) (w : Nat) (op : List α → List β → Option (List γ)) (a : List α)
        (b : List β), 0 < w → a.length = k * w →
      SIMDPP_VEC_ARRAY_IMPL2 w op a b =
        concat_segments ((List.range k).map (fun j => op (vec w a j) (vec w b j)))) ∧
    (∀ a b : List Nat, a.length = k * native_width_u8 c → b.length = k * native_width_u8 c →
      i_bit_andnot_u8 c a b =
        concat_segments ((List.range k).map (fun j =>
          (if c.SIMDPP_USE_AVX2 then some (i_bit_andnot_u8x32 (vec 32 a j) (vec 32 b j))
            else i_bit_andnot_u8x16 c (vec 16 a j) (vec 16 b j))))) ∧
    (∀ (a : List Nat) (b : List Bool), a.length = k * native_width_u32 c →
      b.length = k * native_width_u32 c →
      i_bit_andnot_u32_mask c a b =
        concat_segments ((List.range k).map (fun j =>
          (if c.SIMDPP_USE_AVX512 then some (i_bit_andnot_u32x16_mask (vec 16 a j) (vec 16 b j))
            else if c.SIMDPP_USE_AVX2 then
              some (i_bit_andnot_u32x8_mask (vec 8 a j) (vec 8 b j))
            else i_bit_andnot_u32x4_mask c (vec 4 a j) (vec 4 b j))))) := by
  refine ⟨fun α β γ w op a b hw ha => SIMDPP_VEC_ARRAY_IMPL2_eq w k op a b hw ha, ?_, ?_⟩
  · intro a b ha hb
    unfold i_bit_andnot_u8
    by_cases hA : c.SIMDPP_USE_AVX2 = true
    · simp only [native_width_u8, hA, if_true] at ha hb ⊢
      by_cases hk : k = 1
      · subst hk
        have ha' : a.length = 32 := by omega
        have hb' : b.length = 32 := by omega
        simp [ha', concat_segments, vec_zero_of_length 32 a ha', vec_zero_of_length 32 b hb']
      · have h1 : a.length ≠ 16 := by omega
        have h2 : a.length ≠ 32 := by omega
        simp only [h1, h2, if_false, and_false, true_and]
        exact SIMDPP_VEC_ARRAY_IMPL2_eq 32 k _ a b (by decide) ha
    · have hA' : c.SIMDPP_USE_AVX2 = false := by simpa using hA
      simp only [native_width_u8, hA', if_false, Bool.false_eq_true, false_and] at ha hb ⊢
      by_cases hk : k = 1
      · subst hk
        have ha' : a.length = 16 := by omega
        have hb' : b.length = 16 := by omega
        simp [ha', List.range_succ, concat_segments_singleton, vec_zero_of_length 16 a ha',
          vec_zero_of_length 16 b hb']
      · have h1 : a.length ≠ 16 := by omega
        simp only [h1, if_false]
        exact SIMDPP_VEC_ARRAY_IMPL2_eq 16 k _ a b (by decide) ha
  · intro a b ha hb
    unfold i_bit_andnot_u32_mask
    by_cases h5 : c.SIMDPP_USE_AVX512 = true
    · simp only [native_width_u32, h5, if_true] at ha hb ⊢
      by_cases hk : k = 1
      · subst hk
        have ha' : a.length = 16 := by omega
        have hb' : b.length = 16 := by omega
        simp [ha', concat_segments, vec_zero_of_length 16 a ha', vec_zero_of_length 16 b hb']
      · have h1 : a.length ≠ 4 := by omega
        have h2 : a.length ≠ 8 := by omega
        have h3 : a.length ≠ 16 := by omega
        simp only [h1, h2, h3, if_false, and_false]
        exact SIMDPP_VEC_ARRAY_IMPL2_eq 16 k _ a b (by decide) ha
    · have h5' : c.SIMDPP_USE_AVX512 = false := by simpa using h5
      by_cases hA : c.SIMDPP_USE_AVX2 = true
      · simp only [native_width_u32, h5', hA, if_true, if_false, Bool.false_eq_true,
          false_and, true_and] at ha hb ⊢
        by_cases hk : k = 1
        · subst hk
          have ha' : a.length = 8 := by omega
          have hb' : b.length = 8 := by omega
          simp [ha', concat_segments, vec_zero_of_length 8 a ha', vec_zero_of_length 8 b hb']
        · have h1 : a.length ≠ 4 := by omega
          have h2 : a.length ≠ 8 := by omega
          simp only [h1, h2, if_false]
          exact SIMDPP_VEC_ARRAY_IMPL2_eq 8 k _ a b (by decide) ha
      · have hA' : c.SIMDPP_USE_AVX2 = false := by simpa using hA
        simp only [native_width_u32, h5', hA', if_false, Bool.false_eq_true, false_and]
          at ha hb ⊢
        by_cases hk : k = 1
        · subst hk
          have ha' : a.length = 4 := by omega
          have hb' : b.length = 4 := by omega
          simp [ha', List.range_succ, concat_segments_singleton, vec_zero_of_length 4 a ha',
            vec_zero_of_length 4 b hb']
        · have h1 : a.length ≠ 4 := by omega
          simp only [h1, if_false]
          exact SIMDPP_VEC_ARRAY_IMPL2_eq 4 k _ a b (by decide) ha

theorem C3_witness :
    i_bit_andnot_u8 Example.caps_sse2 (List.replicate 16 0xFF ++ List.replicate 16 0x3C)
        (List.replicate 16 0x0F ++ List.replicate 16 0xFF)
      = some (List.replicate 16 0xF0 ++ List.replicate 16 0x00) :=
  ((C3_width_decomposition Example.caps_sse2 2).2.1
    (List.replicate 16 0xFF ++ List.replicate 16 0x3C)
    (List.replicate 16 0x0F ++ List.replicate 16 0xFF) (by decide) (by decide)).trans
    (by decide)

/-! ## Capture -/

/-- C11: for every test case state and every recognised tag, `push` appends
exactly one snapshot at the end, holding the tag, the line, the first
`size_for_type(tag)` bytes of the data, the current tolerance and the value of
the counter before the call; the earlier snapshots, the name, the file and the
current tolerance are unchanged and the counter is advanced by one, so that
strictly increasing sequence numbers stay strictly increasing. -/
theorem C11_push_appends_one (t : TestCase) (type : TestCase.TypeTag) (data : List Nat)
    (line n : Nat) (hn : TestCase.size_for_type type = some n) :
    ∃ t', TestCase.push t type data line = some t' ∧
      t'.results_ = t.results_ ++ [⟨type, data.take n, line, t.seq_, t.curr_precision_ulp_⟩] ∧
      t'.name_ = t.name_ ∧ t'.file_ = t.file_ ∧
      t'.curr_precision_ulp_ = t.curr_precision_ulp_ ∧ t'.seq_ = t.seq_ + 1 ∧
      (TestCase.seq_increasing t → TestCase.seq_increasing t') := by
  refine ⟨{ t with
      results_ := t.results_ ++ [⟨type, data.take n, line, t.seq_, t.curr_precision_ulp_⟩]
      seq_ := t.seq_ + 1 },
    by simp [TestCase.push, hn, TestCase.Result.create], rfl, rfl, rfl, rfl, rfl, ?_⟩
  intro ⟨h1, h2⟩
  constructor
  · simp only [List.map_append, List.map_cons, List.map_nil, List.pairwise_append,
      List.pairwise_cons, List.Pairwise.nil, List.mem_map, List.mem_singleton]
    refine ⟨h1, ⟨by simp, trivial⟩, ?_⟩
    rintro x ⟨r, hr, rfl⟩ y rfl
    exact h2 r hr
  · intro r hr
    simp only [List.mem_append, List.mem_singleton] at hr
    rcases hr with hr | hr
    · exact Nat.lt_succ_of_lt (h2 r hr)
    · subst hr
      exact Nat.lt_succ_self _

theorem C11_witness :
    TestCase.size_for_type TestCase.TypeTag.TYPE_UINT8x16 = some 16 ∧
    ∃ t', TestCase.push (Example.case_of [Example.u8_ff]) TestCase.TypeTag.TYPE_UINT8x16
        (List.replicate 20 7) 12 = some t' ∧
      t'.results_ =
        [Example.u8_ff, ⟨TestCase.TypeTag.TYPE_UINT8x16, List.replicate 16 7, 12, 1, 0⟩] ∧
      t'.seq_ = 2 := by
  obtain ⟨t', h1, h2, _, _, _, h6, _⟩ :=
    C11_push_appends_one (Example.case_of [Example.u8_ff]) TestCase.TypeTag.TYPE_UINT8x16
      (List.replicate 20 7) 12 16 rfl
  exact ⟨rfl, t', h1, h2.trans (by decide), h6.trans (by decide)⟩

/-- C16: `push` fails exactly for a tag outside the 21 recognised ones: then
`size_for_type` aborts and nothing is appended; for a recognised tag it
completes. -/
theorem C16_push_fails_iff_unrecognised (t : TestCase) (type : TestCase.TypeTag)
    (data : List Nat) (line : Nat) :
    (TestCase.push t type data line = none ↔ ∃ raw, type = TestCase.TypeTag.TYPE_OTHER raw) ∧
    (TestCase.size_for_type type = none ↔ ∃ raw, type = TestCase.TypeTag.TYPE_OTHER raw) ∧
    ((¬ ∃ raw, type = TestCase.TypeTag.TYPE_OTHER raw) →
      ∃ t', TestCase.push t type data line = some t' ∧
        t'.results_.length = t.results_.length + 1) := by
  cases type <;> simp [TestCase.push, TestCase.size_for_type]

/-- C13: for test cases with equal names and different snapshot counts,
`test_equal` returns false and writes only the count diagnostic, which names
both counts; no line, type or value diagnostic is written, whatever the
snapshots hold. -/
theorem C13_count_mismatch (a b : TestCase) (a_arch b_arch : String)
    (hn : a.name_ = b.name_) (hl : a.results_.length ≠ b.results_.length) :
    test_equal a a_arch b b_arch =
      some (false,
        [Out.lit "--------------------------------------------------------------\n",
          Out.lit "  For architectures: ", Out.str a_arch, Out.lit " and ", Out.str b_arch,
          Out.lit " :\n",
          Out.lit "  In file \"", Out.str a.file_, Out.lit "\" :\n",
          Out.lit "  In test case \"", Out.str a.name_, Out.lit "\" :\n",
          Out.lit "FATAL: The lengths of the result vectors does not match: ",
          Out.num a.results_.length, Out.lit "/", Out.num b.results_.length, Out.lit "\n",
          Out.lit "--------------------------------------------------------------\n"]) := by
  simp [test_equal, TestEqualImpl.run, hn, hl, TestEqualImpl.fatal_sizes,
    TestEqualImpl.fmt_separator, TestEqualImpl.fmt_file, TestEqualImpl.fmt_arch,
    TestEqualImpl.fmt_test_case]

theorem C13_witness :
    (Example.case_of [Example.u8_ff]).name_ = (Example.case_of []).name_ ∧
    (Example.case_of [Example.u8_ff]).results_.length ≠ (Example.case_of []).results_.length ∧
    ∃ out, test_equal (Example.case_of [Example.u8_ff]) "A" (Example.case_of []) "B"
        = some (false, out) ∧
      Out.num 1 ∈ out ∧ Out.num 0 ∈ out ∧ TestEqualImpl.not_equal_mark ∉ out :=
  ⟨rfl, by decide, _,
    C13_count_mismatch (Example.case_of [Example.u8_ff]) (Example.case_of []) "A" "B" rfl
      (by decide),
    by decide, by decide, by decide⟩

/-! ## Payload sizes and dumps -/

/-- C19: `size_for_type` is a function of the tag alone; for every recognised
tag it is the lane count times the element byte width of the shape the tag
names (16 for the 128-bit tags, 32 for the 256-bit tags, 2 for the scalar
`uint16` tag); and for every vector tag the dump of `fmt_vector` is a hex dump
and a decimal dump of `num_elems` elements of `width` bytes with
`width * num_elems` equal to that size. -/
theorem C19_size_is_lanes_times_width (type : TestCase.TypeTag)
    (hr : (TestCase.size_for_type type).isSome = true) :
    TestCase.size_for_type type = some (TestCase.lane_count type * TestCase.elem_width type) ∧
    (TestCase.size_for_type type = some 2 ∨ TestCase.size_for_type type = some 16 ∨
      TestCase.size_for_type type = some 32) ∧
    (TestCase.size_for_type type = some 2 ↔ type = TestCase.TypeTag.TYPE_UINT16) ∧
    (type ≠ TestCase.TypeTag.TYPE_UINT16 →
      ∀ (r : TestCase.Result) (pfx : String), r.type = type →
        ∃ width num_elems precision hexvals decvals,
          TestCase.fmt_vector r pfx =
            fmt_vec_hex width num_elems pfx hexvals
              ++ fmt_vec_num precision num_elems pfx decvals ∧
          TestCase.size_for_type type = some (width * num_elems)) := by
  cases type <;> simp [TestCase.size_for_type] at hr <;>
    refine ⟨rfl, by simp [TestCase.size_for_type], by simp [TestCase.size_for_type], ?_⟩ <;>
    intro hne r pfx hrt <;>
    first
    | exact absurd rfl hne
    | (simp only [TestCase.fmt_vector, hrt, TestCase.size_for_type]
       exact ⟨_, _, _, _, _, rfl, rfl⟩)

theorem C19_witness :
    (TestCase.size_for_type TestCase.TypeTag.TYPE_INT16x16).isSome = true ∧
    TestCase.size_for_type TestCase.TypeTag.TYPE_INT16x16 = some (16 * 2) :=
  ⟨rfl, (C19_size_is_lanes_times_width TestCase.TypeTag.TYPE_INT16x16 rfl).1⟩

/-! ## The mismatch block -/

/-- C12 (as stated) fails: the block written for two unequal `uint16` mask
snapshots holds no hexadecimal dump. -/
theorem C12_counterexample :
    TestCase.cmpeq_result Example.u16_a Example.u16_b
      (TestCase.pair_prec Example.u16_a Example.u16_b) = some false ∧
    (TestEqualImpl.not_equal
      ⟨Example.case_of [Example.u16_a], "A", Example.case_of [Example.u16_b], "B"⟩
      Example.u16_a Example.u16_b 0).any Out.is_hex = false := by
  decide

/-- C12 (amended): on comparable test cases of recognised tags, the text holds
for every pair that fails value comparison a block made of, in this order: the
separator line, the two architecture labels, the file and line, the test case
name, the sequence number, the line `Vectors not equal`, the dump of side A,
the dump of side B, a tolerance line exactly when the tolerance is not zero,
and the separator line.  The dump of a side with a vector tag is a hexadecimal
dump followed by a decimal dump, both of `lane_count` elements of `elem_width`
bytes; the dump of a side with the `uint16` tag is the 16 bits in binary. -/
theorem C12_block_layout (a b : TestCase) (a_arch b_arch : String)
    (h : TestCase.comparable a b)
    (hr : ∀ r ∈ a.results_, (TestCase.size_for_type r.type).isSome = true) :
    (∃ ok out, test_equal a a_arch b b_arch = some (ok, out) ∧
      ∀ p ∈ a.results_.zip b.results_, ¬ TestCase.value_equal p →
        ([Out.lit "--------------------------------------------------------------\n",
          Out.lit "  For architectures: ", Out.str a_arch, Out.lit " and ", Out.str b_arch,
          Out.lit " :\n",
          Out.lit "  In file \"", Out.str a.file_, Out.lit "\" at line ", Out.num p.1.line,
          Out.lit " : \n",
          Out.lit "  In test case \"", Out.str a.name_, Out.lit "\" :\n",
          Out.lit "  Sequence number: ", Out.num p.1.seq, Out.lit "\n",
          Out.lit "ERROR: Vectors not equal: \n"]
          ++ TestCase.fmt_vector p.1 "A : " ++ TestCase.fmt_vector p.2 "B : "
          ++ (if TestCase.pair_prec p.1 p.2 = 0 then []
              else [Out.lit "  Precision: ", Out.num (TestCase.pair_prec p.1 p.2),
                Out.lit "ULP\n"])
          ++ [Out.lit "--------------------------------------------------------------\n"])
          <:+: out) ∧
    (∀ (r : TestCase.Result) (pfx : String),
      (TestCase.size_for_type r.type).isSome = true →
      r.type ≠ TestCase.TypeTag.TYPE_UINT16 →
      ∃ precision hexvals decvals,
        TestCase.fmt_vector r pfx =
          fmt_vec_hex (TestCase.elem_width r.type) (TestCase.lane_count r.type) pfx hexvals
            ++ fmt_vec_num precision (TestCase.lane_count r.type) pfx decvals) ∧
    (∀ (r : TestCase.Result) (pfx : String), r.type = TestCase.TypeTag.TYPE_UINT16 →
      TestCase.fmt_vector r pfx = fmt_bin pfx (r.lane 2 0)) := by
  refine ⟨⟨_, _, TestEqualImpl.run_comparable ⟨a, a_arch, b, b_arch⟩ h hr, ?_⟩, ?_, ?_⟩
  · intro p hp hv
    have hb := TestEqualImpl.not_equal_infix_blocks ⟨a, a_arch, b, b_arch⟩ _ p hp hv
    have he : TestEqualImpl.not_equal ⟨a, a_arch, b, b_arch⟩ p.1 p.2
        (TestCase.pair_prec p.1 p.2) = _ := rfl
    rw [he] at hb
    convert hb using 1
    by_cases h0 : TestCase.pair_prec p.1 p.2 = 0
    · simp [TestEqualImpl.not_equal, TestEqualImpl.fmt_separator, TestEqualImpl.fmt_file_line,
        TestEqualImpl.fmt_arch, TestEqualImpl.fmt_test_case, TestEqualImpl.fmt_seq,
        TestEqualImpl.fmt_prec, h0]
    · have h1 : TestCase.pair_prec p.1 p.2 > 0 := Nat.pos_of_ne_zero h0
      simp [TestEqualImpl.not_equal, TestEqualImpl.fmt_separator, TestEqualImpl.fmt_file_line,
        TestEqualImpl.fmt_arch, TestEqualImpl.fmt_test_case, TestEqualImpl.fmt_seq,
        TestEqualImpl.fmt_prec, h0, h1]
  · intro r pfx hs hne
    cases hty : r.type <;> simp [hty, TestCase.size_for_type] at hs hne <;>
      simp only [TestCase.fmt_vector, hty, TestCase.elem_width, TestCase.lane_count] <;>
      exact ⟨_, _, _, rfl⟩
  · intro r pfx hty
    simp [TestCase.fmt_vector, hty]

theorem C12_witness :
    TestCase.comparable (Example.case_of [Example.u8_ff]) (Example.case_of [Example.u8_0f]) ∧
    ∃ ok out, test_equal (Example.case_of [Example.u8_ff]) "A"
        (Example.case_of [Example.u8_0f]) "B" = some (ok, out) ∧
      Out.hex 2 255 ∈ out ∧ Out.hex 2 15 ∈ out := by
  have hc : TestCase.comparable (Example.case_of [Example.u8_ff])
      (Example.case_of [Example.u8_0f]) := by
    refine ⟨rfl, rfl, ?_⟩
    decide
  obtain ⟨ok, out, h1, h2⟩ :=
    (C12_block_layout (Example.case_of [Example.u8_ff]) (Example.case_of [Example.u8_0f])
      "A" "B" hc (by decide)).1
  have h3 := h2 (Example.u8_ff, Example.u8_0f) (by decide) (by decide)
  exact ⟨hc, ok, out, h1, h3.subset (by decide), h3.subset (by decide)⟩

/-! ## Overload resolution -/

/-- C14: with the 256-bit integer instructions enabled, `i_bit_andnot` on a
`uint8<32>`, `uint16<16>`, `uint32<8>` or `uint64<4>` operand resolves to the
non-template overload whose body is the one 256-bit instruction, not to the
template that decomposes into 128-bit segments; with the 512-bit instructions
enabled the same holds for `uint32<16>` and `uint64<8>`.  For `uint8<32>` the
value is that of `_mm256_andnot_si256(b, a)`. -/
theorem C14_widest_overload_chosen (c : Caps) (h2 : c.SIMDPP_USE_AVX2 = true) :
    overload c Operands.u8 32 = Overload.fixed (some Backend.avx) ∧
    overload c Operands.u16 16 = Overload.fixed (some Backend.avx) ∧
    overload c Operands.u32 8 = Overload.fixed (some Backend.avx) ∧
    overload c Operands.u64 4 = Overload.fixed (some Backend.avx) ∧
    (c.SIMDPP_USE_AVX512 = true →
      overload c Operands.u32 16 = Overload.fixed (some Backend.avx512) ∧
      overload c Operands.u64 8 = Overload.fixed (some Backend.avx512)) ∧
    (∀ a b : List Nat, a.length = 32 →
      i_bit_andnot_u8 c a b
        = some (unpack 8 32 (_mm256_andnot_si256 (pack 8 b) (pack 8 a)))) := by
  refine ⟨?_, ?_, ?_, ?_, ?_, ?_⟩
  · simp [overload, has256, Operands.kind, Operands.lanes128, h2, body256,
      Operands.is_mask_mask, Operands.is_data_mask]
  · simp [overload, has256, Operands.kind, Operands.lanes128, h2, body256,
      Operands.is_mask_mask, Operands.is_data_mask]
  · simp [overload, has256, Operands.kind, Operands.lanes128, h2, body256,
      Operands.is_mask_mask, Operands.is_data_mask]
  · simp [overload, has256, Operands.kind, Operands.lanes128, h2, body256,
      Operands.is_mask_mask, Operands.is_data_mask]
  · intro h5
    simp [overload, has256, has512, Operands.kind, Operands.lanes128, h2, h5, body512]
  · intro a b ha
    simp [i_bit_andnot_u8, ha, h2, i_bit_andnot_u8x32]

theorem C14_witness :
    Example.caps_avx2.SIMDPP_USE_AVX2 = true ∧
    overload Example.caps_avx2 Operands.u8 32 = Overload.fixed (some Backend.avx) ∧
    overload Example.caps_sse2 Operands.u8 32 = Overload.generic :=
  ⟨rfl, (C14_widest_overload_chosen Example.caps_avx2 rfl).1, by decide⟩

/-- C15 (as stated) fails: with every macro 0 no branch of the `uint8<16>`
chain is eligible, and the overload is compiled with an empty body instead of
being rejected. -/
theorem C15_counterexample :
    eligible128 Example.caps_none Operands.u8 = false ∧
    compile128 true Example.caps_none Operands.u8 = Compiled.body none := by
  decide

/-- C15 (amended): for every capability set and every family the `#if` chain
of the native overload keeps at most one body, and exactly one whenever some
branch is eligible (always, for the overloads with an `#else` branch); when no
branch is eligible the overload is compiled with an empty body: the header
rejects a build only when it is not included through `simd.h`. -/
theorem C15_one_backend_or_empty_body (c : Caps) (o : Operands) :
    (∀ k k', select128 c o = some k → select128 c o = some k' → k = k') ∧
    (eligible128 c o = true ↔ ∃ k, select128 c o = some k) ∧
    (eligible128 c o = false ↔ select128 c o = none) ∧
    compile128 true c o = Compiled.body (select128 c o) ∧
    ((o ≠ Operands.u8 ∧ o ≠ Operands.f32 ∧ o ≠ Operands.f64) → eligible128 c o = true) := by
  refine ⟨fun k k' h1 h2 => Option.some.inj (h1.symm.trans h2), ?_, ?_, rfl, ?_⟩
  · cases o <;>
      simp only [eligible128, select128, select_u8x16, select_f32x4, select_f64x2] <;>
      (try split_ifs) <;> simp_all
  · cases o <;>
      simp only [eligible128, select128, select_u8x16, select_f32x4, select_f64x2] <;>
      (try split_ifs) <;> (try simp_all) <;> intros <;> simp_all
  · cases o <;> simp [eligible128]

/-! ## Masks -/

/-- C17: for the families with a mask operand, at native width under every
capability set: the 512-bit overload, compiled with the 512-bit instructions,
is the direct mask instruction; the 256-bit overload takes the conversion path;
the 128-bit overload takes the conversion path whenever a hardware data-vector
backend exists and the scalar mask fallback only when none exists (and no
direct instruction exists for that shape). -/
theorem C17_mask_resolution (c : Caps) (o : Operands)
    (hm : o.is_mask_mask = true ∨ o.is_data_mask = true) :
    (has512 c o = true → overload c o (4 * o.lanes128) = Overload.fixed (some Backend.avx512)) ∧
    (has256 c o = true → overload c o (2 * o.lanes128) = Overload.fixed (some Backend.composed)) ∧
    (data_backend_exists c o = true →
      overload c o o.lanes128 = Overload.fixed (some Backend.composed)) ∧
    (overload c o o.lanes128 = Overload.fixed (some Backend.scalar) →
      data_backend_exists c o = false) ∧
    (overload c o o.lanes128 = Overload.fixed (some Backend.scalar) ∨
      overload c o o.lanes128 = Overload.fixed (some Backend.composed)) := by
  cases o <;> simp [Operands.is_mask_mask, Operands.is_data_mask] at hm <;>
    refine ⟨?_, ?_, ?_, ?_, ?_⟩ <;>
    simp only [overload, has256, has512, body256, body512, Operands.lanes128, Operands.kind,
      Operands.is_mask_mask, Operands.is_data_mask, select128, data_backend_exists,
      resolve128, resolve128_fuel, select_u8x16, select_f32x4, select_f64x2, callee128,
      Option.bind] <;>
    split_ifs <;> simp_all

theorem C17_witness :
    Operands.mask32.is_mask_mask = true ∧
    overload Example.caps_avx512 Operands.mask32 16 = Overload.fixed (some Backend.avx512) ∧
    overload Example.caps_avx512 Operands.mask32 8 = Overload.fixed (some Backend.composed) ∧
    overload Example.caps_avx512 Operands.mask32 4 = Overload.fixed (some Backend.composed) ∧
    overload Example.caps_null Operands.mask32 4 = Overload.fixed (some Backend.scalar) :=
  have h := C17_mask_resolution Example.caps_avx512 Operands.mask32 (Or.inl rfl)
  ⟨rfl, h.1 rfl, h.2.1 rfl, h.2.2.1 (by decide), by decide⟩

theorem mask_to_data_is_vec (bits n : Nat) (m : List Bool) (h : m.length = n) :
    is_vec bits n (mask_to_data bits m) := by
  refine ⟨by simp [mask_to_data, h], ?_⟩
  intro x hx
  simp only [mask_to_data, List.mem_map] at hx
  obtain ⟨t, _, rfl⟩ := hx
  have hp : 0 < 2 ^ bits := Nat.two_pow_pos bits
  split
  · exact Nat.sub_lt hp Nat.one_pos
  · exact hp

theorem data_to_mask_andnot (a b : List Bool) :
    data_to_mask (andnot_lanes 8 (mask_to_data 8 a) (mask_to_data 8 b))
      = List.zipWith (fun x y => x && !y) a b := by
  induction a generalizing b with
  | nil => simp [mask_to_data, andnot_lanes, data_to_mask]
  | cons x xs ih =>
    cases b with
    | nil => simp [mask_to_data, andnot_lanes, data_to_mask]
    | cons y ys =>
      have := ih ys
      simp only [mask_to_data, andnot_lanes, data_to_mask, List.map_cons, List.zipWith_cons_cons]
        at this ⊢
      rw [this]
      congr 1
      cases x <;> cases y <;> decide

/-- C18: converting a mask to its data vector and back yields the mask, for
every lane pattern, in the full-width representation (any lane width of at
least one bit) and in the packed-bit representation; and the conversion path of
the mask-mask and-not of `mask_int8<16>` yields `a[i] AND (NOT b[i])` on the
truth values. -/
theorem C18_mask_round_trip (bits : Nat) (hbits : 0 < bits) (m : List Bool) :
    data_to_mask (mask_to_data bits m) = m ∧
    unpack_mask m.length (pack_mask m) = m ∧
    (∀ (c : Caps) (a b : List Bool), c.SIMDPP_USE_NULL = false → select_u8x16 c ≠ none →
      a.length = 16 → b.length = 16 →
      i_bit_andnot_mask8x16 c a b = some (List.zipWith (fun x y => x && !y) a b)) := by
  refine ⟨?_, ?_, ?_⟩
  · have h1 : 1 < 2 ^ bits := Nat.one_lt_two_pow (by omega)
    induction m with
    | nil => rfl
    | cons t ts ih =>
      simp only [mask_to_data, data_to_mask, List.map_cons] at ih ⊢
      rw [ih]
      congr 1
      cases t with
      | false => simp
      | true => simp; omega
  · unfold unpack_mask pack_mask
    have hl : m.length = (m.map (fun t => if t then 1 else 0)).length := by simp
    rw [hl, unpack_pack 1 _ (by
      intro x hx
      simp only [List.mem_map] at hx
      obtain ⟨t, _, rfl⟩ := hx
      cases t <;> simp)]
    rw [List.map_map]
    conv_rhs => rw [← List.map_id m]
    apply List.map_congr_left
    intro t _
    cases t <;> simp
  · intro c a b hnull hs ha hb
    unfold i_bit_andnot_mask8x16
    simp only [hnull, Bool.false_eq_true, if_false]
    rw [i_bit_andnot_u8x16_eq c _ _ (mask_to_data_is_vec 8 16 a ha)
      (mask_to_data_is_vec 8 16 b hb) hs]
    exact congrArg some (data_to_mask_andnot a b)

theorem C18_witness :
    0 < 8 ∧ data_to_mask (mask_to_data 8 [true, false, true, true]) = [true, false, true, true] :=
  ⟨by decide, (C18_mask_round_trip 8 (by decide) [true, false, true, true]).1⟩

/-! ## The probe of the supported instruction sets -/

/-- For a compiler that passes the version test of the source, on x86 every
feature the probe reports is in the returned set, and off x86 the set is
empty. -/
theorem get_arch_reports_probe (gnuc gnuc_minor : Nat) (probe : CpuFeature → Bool)
    (hv : gnuc ≥ 4 ∧ gnuc_minor ≥ 8) :
    (∀ f, probe f = true →
      (get_arch_gcc_builtin_cpu_supports gnuc gnuc_minor true probe).has f = true) ∧
    get_arch_gcc_builtin_cpu_supports gnuc gnuc_minor false probe = Arch.none := by
  constructor
  · intro f hf
    simp only [get_arch_gcc_builtin_cpu_supports, hv, and_self, if_true]
    cases f <;> split_ifs <;> simp_all [Arch.has, Arch.or, Arch.none, Arch.X86_SSE2,
      Arch.X86_SSE3, Arch.X86_SSSE3, Arch.X86_SSE4_1, Arch.X86_AVX, Arch.X86_AVX2]
  · simp [get_arch_gcc_builtin_cpu_supports]

/-- C20 fails on the code: GCC 5.1 is later than 4.8, the probe reports every
feature, and the returned set is empty, because the version test requires
`__GNUC_MINOR__ >= 8` for every major version. -/
theorem C20_failing_input :
    get_arch_gcc_builtin_cpu_supports 5 1 true (fun _ => true) = Arch.none ∧
    (get_arch_gcc_builtin_cpu_supports 5 1 true (fun _ => true)).has CpuFeature.sse2 = false ∧
    (get_arch_gcc_builtin_cpu_supports 4 8 true (fun _ => true)).has CpuFeature.sse2 = true := by
  decide

/-! ## The returned flag set is a prefix of the chain -/

/-- C27: for every compiler version, target and probe outcome the returned set
is the empty set or one of the six prefixes of the chain SSE2, SSE3, SSSE3,
SSE4.1, AVX, AVX2; with a flag every earlier flag of the chain is present; and
the set is the prefix up to the highest feature the probe reports when the
version test passes on x86, the empty set otherwise. -/
theorem C27_prefix_of_chain (gnuc gnuc_minor : Nat) (x86 : Bool) (probe : CpuFeature → Bool) :
    (∃ n, n ≤ 6 ∧ get_arch_gcc_builtin_cpu_supports gnuc gnuc_minor x86 probe = Arch.chain n) ∧
    (∀ f g : CpuFeature, g.rank ≤ f.rank →
      (get_arch_gcc_builtin_cpu_supports gnuc gnuc_minor x86 probe).has f = true →
      (get_arch_gcc_builtin_cpu_supports gnuc gnuc_minor x86 probe).has g = true) ∧
    get_arch_gcc_builtin_cpu_supports gnuc gnuc_minor x86 probe =
      (if gnuc ≥ 4 ∧ gnuc_minor ≥ 8 ∧ x86 = true then Arch.chain (highest_reported probe)
        else Arch.chain 0) := by
  have key : get_arch_gcc_builtin_cpu_supports gnuc gnuc_minor x86 probe =
      (if gnuc ≥ 4 ∧ gnuc_minor ≥ 8 ∧ x86 = true then Arch.chain (highest_reported probe)
        else Arch.chain 0) := by
    unfold get_arch_gcc_builtin_cpu_supports highest_reported
    by_cases hv : gnuc ≥ 4 ∧ gnuc_minor ≥ 8
    · cases x86
      · simp [hv]; rfl
      · simp only [hv, and_self, if_true, true_and]
        split_ifs <;> rfl
    · have : ¬ (gnuc ≥ 4 ∧ gnuc_minor ≥ 8 ∧ x86 = true) := fun h => hv ⟨h.1, h.2.1⟩
      simp only [hv, this, if_false]
      rfl
  have hn : highest_reported probe ≤ 6 := by
    unfold highest_reported
    split_ifs <;> omega
  refine ⟨?_, ?_, key⟩
  · rw [key]
    split_ifs
    · exact ⟨_, hn, rfl⟩
    · exact ⟨0, by omega, rfl⟩
  · intro f g hfg
    rw [key]
    split_ifs <;>
      cases f <;> cases g <;>
      simp [CpuFeature.rank] at hfg <;>
      simp [Arch.chain, Arch.has] <;> omega

/-! ## Silence and success -/

namespace TestEqualImpl

open TestCase

theorem not_equal_ne_nil (t : TestEqualImpl) (ia ib : Result) (prec : Nat) :
    t.not_equal ia ib prec ≠ [] := by
  simp [not_equal, fmt_separator]

/-- The loop keeps the flag true exactly as long as nothing has been written. -/
theorem run_loop_true_iff_silent (t : TestEqualImpl) (as bs : List Result) (i : Nat)
    (ok : Bool) (err : List Out) (ok' : Bool) (out : List Out)
    (h : run_loop t as bs i ok err = some (ok', out)) (hinv : ok = true ↔ err = []) :
    ok' = true ↔ out = [] := by
  induction as generalizing bs i ok err with
  | nil =>
    simp only [run_loop, Option.some.injEq, Prod.mk.injEq] at h
    rw [← h.1, ← h.2]; exact hinv
  | cons ia as ih =>
    cases bs with
    | nil =>
      simp only [run_loop, Option.some.injEq, Prod.mk.injEq] at h
      rw [← h.1, ← h.2]; exact hinv
    | cons ib bs =>
      by_cases hl : ia.line = ib.line
      · by_cases ht : ia.type = ib.type
        · rw [run_loop_cons t ia ib as bs i ok err hl ht] at h
          cases hc : cmpeq_result ia ib (pair_prec ia ib) with
          | none => simp [hc] at h
          | some v =>
            cases v with
            | true =>
              simp only [hc] at h
              exact ih bs (i + 1) ok err h hinv
            | false =>
              simp only [hc] at h
              refine ih bs (i + 1) false _ h ?_
              simp [not_equal_ne_nil]
        · simp only [run_loop, hl, ht, ne_eq, not_true_eq_false, not_false_eq_true, if_true,
            if_false, Option.some.injEq, Prod.mk.injEq] at h
          rw [← h.1, ← h.2]
          simp [fatal_type, fmt_separator]
      · simp only [run_loop, hl, ne_eq, not_false_eq_true, if_true, Option.some.injEq,
          Prod.mk.injEq] at h
        rw [← h.1, ← h.2]
        simp [fatal_line, fmt_separator]

/-- With recognised tags on the first side the loop returns. -/
theorem run_loop_returns (t : TestEqualImpl) (as bs : List Result) (i : Nat) (ok : Bool)
    (err : List Out) (hr : ∀ r ∈ as, (size_for_type r.type).isSome = true) :
    ∃ ok' out, run_loop t as bs i ok err = some (ok', out) := by
  induction as generalizing bs i ok err with
  | nil => exact ⟨ok, err, by simp [run_loop]⟩
  | cons ia as ih =>
    cases bs with
    | nil => exact ⟨ok, err, by simp [run_loop]⟩
    | cons ib bs =>
      have hr1 : ∀ r ∈ as, (size_for_type r.type).isSome = true :=
        fun r hr0 => hr r (by simp [hr0])
      by_cases hl : ia.line = ib.line
      · by_cases ht : ia.type = ib.type
        · rw [run_loop_cons t ia ib as bs i ok err hl ht]
          obtain ⟨v, hv⟩ := cmpeq_result_some ia ib (pair_prec ia ib) (hr ia (by simp))
          rw [hv]
          cases v with
          | true => exact ih bs (i + 1) ok err hr1
          | false => exact ih bs (i + 1) false _ hr1
        · exact ⟨false, err ++ t.fatal_type i ia ib, by simp [run_loop, hl, ht]⟩
      · exact ⟨false, err ++ t.fatal_line i ia ib, by simp [run_loop, hl]⟩

theorem run_true_iff_silent (t : TestEqualImpl) (ok : Bool) (out : List Out)
    (h : t.run = some (ok, out)) : ok = true ↔ out = [] := by
  unfold run at h
  split_ifs at h with h1 h2
  · simp only [Option.some.injEq, Prod.mk.injEq] at h
    rw [← h.1, ← h.2]
    simp [fatal_names, fmt_separator]
  · simp only [Option.some.injEq, Prod.mk.injEq] at h
    rw [← h.1, ← h.2]
    simp [fatal_sizes, fmt_separator]
  · exact run_loop_true_iff_silent t _ _ 0 true [] ok out h (by simp)

theorem run_returns (t : TestEqualImpl)
    (hr : ∀ r ∈ t.a.results_, (size_for_type r.type).isSome = true) :
    ∃ ok out, t.run = some (ok, out) := by
  unfold run
  split_ifs
  · exact ⟨_, _, rfl⟩
  · exact ⟨_, _, rfl⟩
  · exact run_loop_returns t _ _ 0 true [] hr

/-- A sequence of recognised snapshots compared with itself passes silently. -/
theorem run_loop_self (t : TestEqualImpl) (l : List Result) (i : Nat) (ok : Bool)
    (err : List Out) (hr : ∀ r ∈ l, (size_for_type r.type).isSome = true) :
    run_loop t l l i ok err = some (ok, err) := by
  induction l generalizing i with
  | nil => simp [run_loop]
  | cons r l ih =>
    rw [run_loop_cons t r r l l i ok err rfl rfl]
    have hv : cmpeq_result r r (pair_prec r r) = some true := by
      unfold cmpeq_result
      cases hs : size_for_type r.type with
      | none =>
        have := hr r (by simp)
        simp [hs] at this
      | some n => simp [memcmp_eq]
    rw [hv]
    exact ih (i + 1) (fun x hx => hr x (by simp [hx]))

end TestEqualImpl

theorem TestCase.push_recognised (t t' : TestCase) (type : TestCase.TypeTag) (data : List Nat)
    (line : Nat) (h : TestCase.push t type data line = some t')
    (hr : ∀ r ∈ t.results_, (TestCase.size_for_type r.type).isSome = true) :
    ∀ r ∈ t'.results_, (TestCase.size_for_type r.type).isSome = true := by
  unfold TestCase.push at h
  cases hs : TestCase.size_for_type type with
  | none => simp [hs] at h
  | some n =>
    simp only [hs, Option.some.injEq] at h
    subst h
    intro r hmem
    simp only [List.mem_append, List.mem_singleton] at hmem
    rcases hmem with hmem | hmem
    · exact hr r hmem
    · subst hmem
      simp [TestCase.Result.create, hs]

theorem TestCase.captures_recognised (t a : TestCase) (cs : List TestCase.Capture)
    (h : TestCase.captures t cs = some a)
    (hr : ∀ r ∈ t.results_, (TestCase.size_for_type r.type).isSome = true) :
    ∀ r ∈ a.results_, (TestCase.size_for_type r.type).isSome = true := by
  induction cs generalizing t with
  | nil =>
    simp only [TestCase.captures, Option.some.injEq] at h
    subst h; exact hr
  | cons c cs ih =>
    simp only [TestCase.captures] at h
    cases hp : TestCase.push { t with curr_precision_ulp_ := c.prec_ulp } c.type c.data c.line with
    | none => simp [hp] at h
    | some t' =>
      simp only [hp] at h
      exact ih t' h (TestCase.push_recognised _ t' _ _ _ hp hr)

/-- C22: whenever `test_equal` returns, it returns true if and only if it has
written nothing: a false result comes with at least one diagnostic, a true
result with none; and it does return for every pair whose first test case
holds recognised tags only. -/
theorem C22_true_iff_silent (a b : TestCase) (a_arch b_arch : String) :
    (∀ ok out, test_equal a a_arch b b_arch = some (ok, out) → (ok = true ↔ out = [])) ∧
    ((∀ r ∈ a.results_, (TestCase.size_for_type r.type).isSome = true) →
      ∃ ok out, test_equal a a_arch b b_arch = some (ok, out) ∧ (ok = true ↔ out = [])) := by
  refine ⟨fun ok out h => TestEqualImpl.run_true_iff_silent _ ok out h, ?_⟩
  intro hr
  obtain ⟨ok, out, h⟩ := TestEqualImpl.run_returns ⟨a, a_arch, b, b_arch⟩ hr
  exact ⟨ok, out, h, TestEqualImpl.run_true_iff_silent _ ok out h⟩

theorem C22_witness :
    ∃ ok out, test_equal (Example.case_of [Example.u8_ff]) "A"
        (Example.case_of [Example.u8_0f]) "B" = some (ok, out) ∧ ok = false ∧ out ≠ [] := by
  obtain ⟨ok, out, h, hi⟩ :=
    (C22_true_iff_silent (Example.case_of [Example.u8_ff]) (Example.case_of [Example.u8_0f])
      "A" "B").2 (by decide)
  have hok : ok = false := by
    have h2 := Example.run_ff_0f "A" "B"
    rw [h] at h2
    exact (Prod.mk.inj (Option.some.inj h2)).1
  refine ⟨ok, out, h, hok, ?_⟩
  intro hout
  rw [hi.2 hout] at hok
  exact absurd hok (by decide)

/-- C25: a test case built by captures of recognised tags from an empty test
case, with any payloads (NaN patterns included) and any tolerances, compared
with itself gives true, and nothing is written. -/
theorem C25_reflexive (name file : String) (seq0 prec0 : Nat) (cs : List TestCase.Capture)
    (a : TestCase) (a_arch b_arch : String)
    (h : TestCase.captures ⟨name, file, [], seq0, prec0⟩ cs = some a) :
    test_equal a a_arch a b_arch = some (true, []) := by
  have hr := TestCase.captures_recognised _ a cs h (by simp)
  simp only [test_equal, TestEqualImpl.run, ne_eq, not_true_eq_false, if_false]
  exact TestEqualImpl.run_loop_self _ a.results_ 0 true [] hr

theorem C25_witness :
    TestCase.captures ⟨"t", "f.cc", [], 0, 0⟩
        [⟨1, TestCase.TypeTag.TYPE_FLOAT32x4,
          [0, 0, 0xc0, 0x7f, 0, 0, 0x80, 0x3f, 0, 0, 0, 0, 0, 0, 0, 0], 10⟩]
      = some ⟨"t", "f.cc", [Example.f32_a], 1, 1⟩ ∧
    test_equal ⟨"t", "f.cc", [Example.f32_a], 1, 1⟩ "A" ⟨"t", "f.cc", [Example.f32_a], 1, 1⟩ "B"
      = some (true, []) :=
  ⟨by decide,
    C25_reflexive "t" "f.cc" 0 0
      [⟨1, TestCase.TypeTag.TYPE_FLOAT32x4,
        [0, 0, 0xc0, 0x7f, 0, 0, 0x80, 0x3f, 0, 0, 0, 0, 0, 0, 0, 0], 10⟩]
      ⟨"t", "f.cc", [Example.f32_a], 1, 1⟩ "A" "B" (by decide)⟩

/-! ## Hexadecimal dumps of signed lanes -/

/-- C21 fails on the code: the first lane of an `int8x16` snapshot of bytes
0xFF is written as the item `hex 2 (2^64 - 1)`, whose text is sixteen digits
`f` rather than the two digits `ff`; the same byte under the `uint8x16` tag is
written as `ff`. -/
theorem C21_failing_input :
    (TestCase.fmt_vector Example.s8_ff "A : ")[2]? = some (Out.hex 2 18446744073709551615) ∧
    Out.hex_text 2 18446744073709551615 = "ffffffffffffffff".toList ∧
    (Out.hex_text 2 18446744073709551615).length = 16 ∧
    (TestCase.fmt_vector Example.u8_ff "A : ")[2]? = some (Out.hex 2 255) ∧
    Out.hex_text 2 255 = "ff".toList := by
  refine ⟨by decide, ?_, ?_, by decide, ?_⟩
  · rfl
  · rfl
  · rfl

/-! ## A data vector and a mask -/

theorem andnot_lanes_mask_to_data (bits : Nat) (a : List Nat) (m : List Bool)
    (ha : ∀ x ∈ a, x < 2 ^ bits) :
    andnot_lanes bits a (mask_to_data bits m) = clear_where a m := by
  induction a generalizing m with
  | nil => simp [andnot_lanes, clear_where]
  | cons x xs ih =>
    cases m with
    | nil => simp [andnot_lanes, clear_where, mask_to_data]
    | cons t ts =>
      have hx : x < 2 ^ bits := ha x (by simp)
      have := ih ts (fun y hy => ha y (by simp [hy]))
      simp only [andnot_lanes, clear_where, mask_to_data, List.map_cons,
        List.zipWith_cons_cons] at this ⊢
      rw [this]
      congr 1
      cases t
      · simp [lane_not, Nat.mod_eq_of_lt hx]
      · simp [lane_not]

theorem pack_mask_cons (t : Bool) (ts : List Bool) :
    pack_mask (t :: ts) = (if t then 1 else 0) + 2 * pack_mask ts := by
  cases t <;> simp [pack_mask, pack]

theorem maskz_mov_from_succ (k i : Nat) (a : List Nat) :
    maskz_mov_from k (i + 1) a = maskz_mov_from (k / 2) i a := by
  induction a generalizing i with
  | nil => rfl
  | cons x xs ih =>
    simp only [maskz_mov_from, ih, Nat.testBit_succ]

/-- A zero-masked move under the complement of the packed mask clears the
lanes whose mask is true. -/
theorem maskz_mov_lane_not (n : Nat) (a : List Nat) (m : List Bool) (hn : m.length ≤ n)
    (hl : a.length = m.length) :
    maskz_mov_from (lane_not n (pack_mask m)) 0 a = clear_where a m := by
  induction m generalizing a n with
  | nil =>
    cases a with
    | nil => rfl
    | cons x xs => simp at hl
  | cons t ts ih =>
    cases a with
    | nil => simp at hl
    | cons x xs =>
      obtain ⟨n', rfl⟩ : ∃ n', n = 1 + n' := ⟨n - 1, by simp at hn; omega⟩
      have hdiv : lane_not (1 + n') (pack_mask (t :: ts)) / 2 = lane_not n' (pack_mask ts) := by
        have h := lane_not_div 1 n' (pack_mask (t :: ts))
        simp only [pow_one] at h
        have hp : pack_mask (t :: ts) / 2 = pack_mask ts := by
          rw [pack_mask_cons]
          cases t with
          | false => simp
          | true => simp; omega
        rw [h, hp]
      have hbit : (lane_not (1 + n') (pack_mask (t :: ts))).testBit 0 = !t := by
        rw [testBit_lane_not, pack_mask_cons]
        cases t <;> simp [Nat.testBit_zero]
      simp only [maskz_mov_from, clear_where, List.zipWith_cons_cons, hbit]
      rw [maskz_mov_from_succ, hdiv, ih n' xs (by simp at hn; omega) (by simpa using hl)]
      cases t <;> simp [clear_where]

theorem i_bit_andnot_u16x8_eq (c : Caps) (a b : List Nat) (ha : is_vec 16 8 a)
    (hb : is_vec 16 8 b) (hs : select_u8x16 c ≠ none) :
    i_bit_andnot_u16x8 c a b = some (andnot_lanes 16 a b) := by
  unfold i_bit_andnot_u16x8
  rw [i_bit_andnot_u8x16_eq c (convert 16 8 16 a) (convert 16 8 16 b)
    (is_vec_unpack 8 16 _) (is_vec_unpack 8 16 _) hs]
  exact congrArg some (convert_andnot 16 8 8 16 rfl a b ha hb)

theorem i_bit_andnot_u32x4_eq (c : Caps) (a b : List Nat) (ha : is_vec 32 4 a)
    (hb : is_vec 32 4 b) (hs : select_u8x16 c ≠ none) :
    i_bit_andnot_u32x4 c a b = some (andnot_lanes 32 a b) := by
  unfold i_bit_andnot_u32x4
  rw [i_bit_andnot_u8x16_eq c (convert 32 8 16 a) (convert 32 8 16 b)
    (is_vec_unpack 8 16 _) (is_vec_unpack 8 16 _) hs]
  exact congrArg some (convert_andnot 32 4 8 16 rfl a b ha hb)

theorem i_bit_andnot_u64x2_eq (c : Caps) (a b : List Nat) (ha : is_vec 64 2 a)
    (hb : is_vec 64 2 b) (hs : select_u8x16 c ≠ none) :
    i_bit_andnot_u64x2 c a b = some (andnot_lanes 64 a b) := by
  unfold i_bit_andnot_u64x2
  rw [i_bit_andnot_u8x16_eq c (convert 64 8 16 a) (convert 64 8 16 b)
    (is_vec_unpack 8 16 _) (is_vec_unpack 8 16 _) hs]
  exact congrArg some (convert_andnot 64 2 8 16 rfl a b ha hb)

theorem i_bit_andnot_u8x32_eq (a b : List Nat) (ha : is_vec 8 32 a) (hb : is_vec 8 32 b) :
    i_bit_andnot_u8x32 a b = andnot_lanes 8 a b :=
  unpack_andnot_swapped 8 32 a b ha hb

theorem i_bit_andnot_u16x16_eq (a b : List Nat) (ha : is_vec 16 16 a) (hb : is_vec 16 16 b) :
    i_bit_andnot_u16x16 a b = andnot_lanes 16 a b :=
  unpack_andnot_swapped 16 16 a b ha hb

theorem i_bit_andnot_u32x8_eq (a b : List Nat) (ha : is_vec 32 8 a) (hb : is_vec 32 8 b) :
    i_bit_andnot_u32x8 a b = andnot_lanes 32 a b :=
  unpack_andnot_swapped 32 8 a b ha hb

theorem i_bit_andnot_u32x16_eq (a b : List Nat) (ha : is_vec 32 16 a) (hb : is_vec 32 16 b) :
    i_bit_andnot_u32x16 a b = andnot_lanes 32 a b :=
  unpack_andnot_swapped 32 16 a b ha hb

theorem i_bit_andnot_u64x4_eq (a b : List Nat) (ha : is_vec 64 4 a) (hb : is_vec 64 4 b) :
    i_bit_andnot_u64x4 a b = andnot_lanes 64 a b :=
  unpack_andnot_swapped 64 4 a b ha hb

theorem i_bit_andnot_u64x8_eq (a b : List Nat) (ha : is_vec 64 8 a) (hb : is_vec 64 8 b) :
    i_bit_andnot_u64x8 a b = andnot_lanes 64 a b :=
  unpack_andnot_swapped 64 8 a b ha hb

theorem i_bit_andnot_f32x8_eq (a b : List Nat) (ha : is_vec 32 8 a) (hb : is_vec 32 8 b) :
    i_bit_andnot_f32x8 a b = andnot_lanes 32 a b :=
  unpack_andnot_swapped 32 8 a b ha hb

theorem i_bit_andnot_f64x4_eq (a b : List Nat) (ha : is_vec 64 4 a) (hb : is_vec 64 4 b) :
    i_bit_andnot_f64x4 a b = andnot_lanes 64 a b :=
  unpack_andnot_swapped 64 4 a b ha hb

/-- C23: for every capability set that keeps a body of the native data
overloads, and for every native data/mask operand pair of the kinds `uint8`,
`uint16`, `uint32`, `uint64`, `float32` and `float64`, lane `i` of
`i_bit_andnot(a, m)` is zero where mask lane `i` is true and `a[i]` where it is
false: on the 128-bit overloads (scalar path or conversion of the mask to a
data vector), on the 256-bit overloads (conversion) and on the 512-bit
overloads (zero-masked move under the inverted packed mask). -/
theorem C23_data_mask_clears_lanes (c : Caps) (hs8 : select_u8x16 c ≠ none)
    (hs32 : select_f32x4 c ≠ none) (hs64 : select_f64x2 c ≠ none) :
    (∀ (a : List Nat) (m : List Bool), is_vec 8 16 a → m.length = 16 →
      i_bit_andnot_u8x16_mask c a m = some (clear_where a m)) ∧
    (∀ (a : List Nat) (m : List Bool), is_vec 16 8 a → m.length = 8 →
      i_bit_andnot_u16x8_mask c a m = some (clear_where a m)) ∧
    (∀ (a : List Nat) (m : List Bool), is_vec 32 4 a → m.length = 4 →
      i_bit_andnot_u32x4_mask c a m = some (clear_where a m)) ∧
    (∀ (a : List Nat) (m : List Bool), is_vec 64 2 a → m.length = 2 →
      i_bit_andnot_u64x2_mask c a m = some (clear_where a m)) ∧
    (∀ (a : List Nat) (m : List Bool), is_vec 32 4 a → m.length = 4 →
      i_bit_andnot_f32x4_mask c a m = some (clear_where a m)) ∧
    (∀ (a : List Nat) (m : List Bool), is_vec 64 2 a → m.length = 2 →
      i_bit_andnot_f64x2_mask c a m = some (clear_where a m)) ∧
    (∀ (a : List Nat) (m : List Bool), is_vec 8 32 a → m.length = 32 →
      i_bit_andnot_u8x32_mask a m = clear_where a m) ∧
    (∀ (a : List Nat) (m : List Bool), is_vec 16 16 a → m.length = 16 →
      i_bit_andnot_u16x16_mask a m = clear_where a m) ∧
    (∀ (a : List Nat) (m : List Bool), is_vec 32 8 a → m.length = 8 →
      i_bit_andnot_u32x8_mask a m = clear_where a m) ∧
    (∀ (a : List Nat) (m : List Bool), is_vec 64 4 a → m.length = 4 →
      i_bit_andnot_u64x4_mask a m = clear_where a m) ∧
    (∀ (a : List Nat) (m : List Bool), is_vec 32 8 a → m.length = 8 →
      i_bit_andnot_f32x8_mask a m = clear_where a m) ∧
    (∀ (a : List Nat) (m : List Bool), is_vec 64 4 a → m.length = 4 →
      i_bit_andnot_f64x4_mask a m = clear_where a m) ∧
    (∀ (a : List Nat) (m : List Bool), is_vec 32 16 a → m.length = 16 →
      i_bit_andnot_u32x16_mask a m = clear_where a m) ∧
    (∀ (a : List Nat) (m : List Bool), is_vec 64 8 a → m.length = 8 →
      i_bit_andnot_u64x8_mask a m = clear_where a m) ∧
    (∀ (a : List Nat) (m : List Bool), is_vec 32 16 a → m.length = 16 →
      i_bit_andnot_f32x16_mask a m = clear_where a m) ∧
    (∀ (a : List Nat) (m : List Bool), is_vec 64 8 a → m.length = 8 →
      i_bit_andnot_f64x8_mask a m = clear_where a m) := by
  refine ⟨?_, ?_, ?_, ?_, ?_, ?_, ?_, ?_, ?_, ?_, ?_, ?_, ?_, ?_, ?_, ?_⟩
  · intro a m ha hm
    unfold i_bit_andnot_u8x16_mask
    split
    · rfl
    · rw [i_bit_andnot_u8x16_eq c a _ ha (mask_to_data_is_vec 8 16 m hm) hs8,
        andnot_lanes_mask_to_data 8 a m ha.2]
  · intro a m ha hm
    unfold i_bit_andnot_u16x8_mask
    split
    · rfl
    · rw [i_bit_andnot_u16x8_eq c a _ ha (mask_to_data_is_vec 16 8 m hm) hs8,
        andnot_lanes_mask_to_data 16 a m ha.2]
  · intro a m ha hm
    unfold i_bit_andnot_u32x4_mask
    split
    · rfl
    · rw [i_bit_andnot_u32x4_eq c a _ ha (mask_to_data_is_vec 32 4 m hm) hs8,
        andnot_lanes_mask_to_data 32 a m ha.2]
  · intro a m ha hm
    unfold i_bit_andnot_u64x2_mask
    split
    · rfl
    · rw [i_bit_andnot_u64x2_eq c a _ ha (mask_to_data_is_vec 64 2 m hm) hs8,
        andnot_lanes_mask_to_data 64 a m ha.2]
  · intro a m ha hm
    unfold i_bit_andnot_f32x4_mask
    split
    · rfl
    · rw [i_bit_andnot_f32x4_eq c a _ ha (mask_to_data_is_vec 32 4 m hm) hs32,
        andnot_lanes_mask_to_data 32 a m ha.2]
  · intro a m ha hm
    unfold i_bit_andnot_f64x2_mask
    split
    · rfl
    · rw [i_bit_andnot_f64x2_eq c a _ ha (mask_to_data_is_vec 64 2 m hm) hs64,
        andnot_lanes_mask_to_data 64 a m ha.2]
  · intro a m ha hm
    unfold i_bit_andnot_u8x32_mask
    rw [i_bit_andnot_u8x32_eq a _ ha (mask_to_data_is_vec 8 32 m hm),
      andnot_lanes_mask_to_data 8 a m ha.2]
  · intro a m ha hm
    unfold i_bit_andnot_u16x16_mask
    rw [i_bit_andnot_u16x16_eq a _ ha (mask_to_data_is_vec 16 16 m hm),
      andnot_lanes_mask_to_data 16 a m ha.2]
  · intro a m ha hm
    unfold i_bit_andnot_u32x8_mask
    rw [i_bit_andnot_u32x8_eq a _ ha (mask_to_data_is_vec 32 8 m hm),
      andnot_lanes_mask_to_data 32 a m ha.2]
  · intro a m ha hm
    unfold i_bit_andnot_u64x4_mask
    rw [i_bit_andnot_u64x4_eq a _ ha (mask_to_data_is_vec 64 4 m hm),
      andnot_lanes_mask_to_data 64 a m ha.2]
  · intro a m ha hm
    unfold i_bit_andnot_f32x8_mask
    rw [i_bit_andnot_f32x8_eq a _ ha (mask_to_data_is_vec 32 8 m hm),
      andnot_lanes_mask_to_data 32 a m ha.2]
  · intro a m ha hm
    unfold i_bit_andnot_f64x4_mask
    rw [i_bit_andnot_f64x4_eq a _ ha (mask_to_data_is_vec 64 4 m hm),
      andnot_lanes_mask_to_data 64 a m ha.2]
  · intro a m ha hm
    exact maskz_mov_lane_not 16 a m (by omega) (by rw [ha.1, hm])
  · intro a m ha hm
    exact maskz_mov_lane_not 16 a m (by omega) (by rw [ha.1, hm])
  · intro a m ha hm
    exact maskz_mov_lane_not 16 a m (by omega) (by rw [ha.1, hm])
  · intro a m ha hm
    exact maskz_mov_lane_not 16 a m (by omega) (by rw [ha.1, hm])

theorem C23_witness :
    select_u8x16 Example.caps_avx512 ≠ none ∧ select_f32x4 Example.caps_avx512 ≠ none ∧
    select_f64x2 Example.caps_avx512 ≠ none ∧
    i_bit_andnot_u32x4_mask Example.caps_avx512 [0xFFFFFFFF, 7, 0, 0x12345678]
        [true, false, false, true]
      = some [0, 7, 0, 0] ∧
    i_bit_andnot_u64x8_mask [1, 2, 3, 4, 5, 6, 7, 8]
        [true, false, true, false, false, false, true, true]
      = [0, 2, 0, 4, 5, 6, 0, 0] :=
  have h := C23_data_mask_clears_lanes Example.caps_avx512 (by decide) (by decide) (by decide)
  ⟨by decide, by decide, by decide,
    (h.2.2.1 [0xFFFFFFFF, 7, 0, 0x12345678] [true, false, false, true] (by decide) rfl).trans
      (by decide),
    (h.2.2.2.2.2.2.2.2.2.2.2.2.2.1 [1, 2, 3, 4, 5, 6, 7, 8]
      [true, false, true, false, false, false, true, true] (by decide) rfl).trans (by decide)⟩

/-! ## A wide instruction against the decomposition -/

theorem concat_segments_map_some {γ : Type} (l : List Nat) (g : Nat → List γ) :
    concat_segments (l.map (fun j => some (g j))) = some (l.flatMap g) := by
  induction l with
  | nil => rfl
  | cons j js ih => simp [concat_segments, ih]

theorem flatMap_vec_range' {α : Type} (w : Nat) (l : List α) (k s : Nat) :
    (List.range' s k).flatMap (vec w l) = (l.drop (w * s)).take (w * k) := by
  induction k generalizing s with
  | zero => simp
  | succ k ih =>
    have hk : w * (k + 1) = w + w * k := by rw [Nat.mul_succ, Nat.add_comm]
    rw [List.range'_succ, List.flatMap_cons, ih (s + 1), hk, List.take_add, List.drop_drop]
    simp [vec, Nat.mul_succ, Nat.add_comm]

theorem flatMap_vec {α : Type} (w k : Nat) (l : List α) (h : l.length = k * w) :
    (List.range k).flatMap (vec w l) = l := by
  rw [List.range_eq_range', flatMap_vec_range']
  simp [h, Nat.mul_comm]

theorem vec_andnot_lanes (bits w : Nat) (a b : List Nat) (j : Nat) :
    vec w (andnot_lanes bits a b) j = andnot_lanes bits (vec w a j) (vec w b j) := by
  simp [vec, andnot_lanes, List.take_zipWith, List.drop_zipWith]

theorem is_vec_vec (bits w k : Nat) (a : List Nat) (j : Nat) (ha : is_vec bits (k * w) a)
    (hj : j < k) : is_vec bits w (vec w a j) := by
  obtain ⟨hl, hx⟩ := ha
  constructor
  · have h1 : w * (j + 1) ≤ k * w := by
      rw [Nat.mul_comm k w]
      exact Nat.mul_le_mul_left w hj
    rw [Nat.mul_succ] at h1
    simp only [vec, List.length_take, List.length_drop, hl]
    omega
  · intro x hmem
    exact hx x (List.mem_of_mem_drop (List.mem_of_mem_take hmem))

/-- The decomposition with a native operation that computes the lane-wise
and-not computes the lane-wise and-not of the whole vectors. -/
theorem decomposition_andnot (bits w k : Nat) (op : List Nat → List Nat → Option (List Nat))
    (hop : ∀ x y, is_vec bits w x → is_vec bits w y → op x y = some (andnot_lanes bits x y))
    (a b : List Nat) (ha : is_vec bits (k * w) a) (hb : is_vec bits (k * w) b) (hw : 0 < w) :
    SIMDPP_VEC_ARRAY_IMPL2 w op a b = some (andnot_lanes bits a b) := by
  rw [SIMDPP_VEC_ARRAY_IMPL2_eq w k op a b hw ha.1]
  have hmap : (List.range k).map (fun j => op (vec w a j) (vec w b j)) =
      (List.range k).map (fun j => some (vec w (andnot_lanes bits a b) j)) := by
    apply List.map_congr_left
    intro j hj
    rw [hop _ _ (is_vec_vec bits w k a j ha (List.mem_range.1 hj))
      (is_vec_vec bits w k b j hb (List.mem_range.1 hj)), vec_andnot_lanes]
  rw [hmap, concat_segments_map_some, flatMap_vec w k _ (by
    simp [andnot_lanes, ha.1, hb.1])]

/-- C24: for all 256-bit operands the 256-bit and-not overload returns the
lanes of the generic decomposition into two 128-bit segments, and the 512-bit
overload those of the decomposition into four 128-bit segments (and into two
256-bit segments), under every capability set that keeps a body of the 128-bit
overload. -/
theorem C24_wide_equals_decomposition (c : Caps) (hs : select_u8x16 c ≠ none) :
    (∀ a b : List Nat, is_vec 8 32 a → is_vec 8 32 b →
      some (i_bit_andnot_u8x32 a b)
        = SIMDPP_VEC_ARRAY_IMPL2 16 (fun x y => i_bit_andnot_u8x16 c x y) a b) ∧
    (∀ a b : List Nat, is_vec 32 8 a → is_vec 32 8 b →
      some (i_bit_andnot_u32x8 a b)
        = SIMDPP_VEC_ARRAY_IMPL2 4 (fun x y => i_bit_andnot_u32x4 c x y) a b) ∧
    (∀ a b : List Nat, is_vec 32 16 a → is_vec 32 16 b →
      some (i_bit_andnot_u32x16 a b)
        = SIMDPP_VEC_ARRAY_IMPL2 4 (fun x y => i_bit_andnot_u32x4 c x y) a b ∧
      some (i_bit_andnot_u32x16 a b)
        = SIMDPP_VEC_ARRAY_IMPL2 8 (fun x y => some (i_bit_andnot_u32x8 x y)) a b) := by
  refine ⟨?_, ?_, ?_⟩
  · intro a b ha hb
    rw [decomposition_andnot 8 16 2 _ (fun x y hx hy => i_bit_andnot_u8x16_eq c x y hx hy hs)
      a b ha hb (by decide), i_bit_andnot_u8x32_eq a b ha hb]
  · intro a b ha hb
    rw [decomposition_andnot 32 4 2 _ (fun x y hx hy => i_bit_andnot_u32x4_eq c x y hx hy hs)
      a b ha hb (by decide), i_bit_andnot_u32x8_eq a b ha hb]
  · intro a b ha hb
    constructor
    · rw [decomposition_andnot 32 4 4 _ (fun x y hx hy => i_bit_andnot_u32x4_eq c x y hx hy hs)
        a b ha hb (by decide), i_bit_andnot_u32x16_eq a b ha hb]
    · rw [decomposition_andnot 32 8 2 _
        (fun x y hx hy => congrArg some (i_bit_andnot_u32x8_eq x y hx hy))
        a b ha hb (by decide), i_bit_andnot_u32x16_eq a b ha hb]

theorem C24_witness :
    select_u8x16 Example.caps_avx2 ≠ none ∧
    some (i_bit_andnot_u32x8 [1, 2, 3, 4, 5, 6, 7, 0xFFFFFFFF] [1, 0, 1, 0, 4, 2, 0, 0xF0F0F0F0])
      = SIMDPP_VEC_ARRAY_IMPL2 4 (fun x y => i_bit_andnot_u32x4 Example.caps_avx2 x y)
          [1, 2, 3, 4, 5, 6, 7, 0xFFFFFFFF] [1, 0, 1, 0, 4, 2, 0, 0xF0F0F0F0] :=
  ⟨by decide,
    (C24_wide_equals_decomposition Example.caps_avx2 (by decide)).2.1 _ _ (by decide)
      (by decide)⟩

/-! ## The walk is symmetric -/

/-- One step of `nextafter` between two distinct non-NaN values moves the key
by one toward the target and stays a non-NaN pattern. -/
theorem binary64_nextafter_step (x y : Nat) (hx : x < 2 ^ 64)
    (nx : binary64.isnan x = false) (ny : binary64.isnan y = false)
    (hk : binary64.key x ≠ binary64.key y) :
    binary64.nextafter x y < 2 ^ 64 ∧ binary64.isnan (binary64.nextafter x y) = false ∧
    binary64.key (binary64.nextafter x y) =
      (if binary64.key x < binary64.key y then binary64.key x + 1 else binary64.key x - 1) := by
  simp only [FloatFormat.isnan, FloatFormat.inf, FloatFormat.mag, binary64,
    decide_eq_false_iff_not, not_lt] at nx ny
  simp only [FloatFormat.key, FloatFormat.sign, FloatFormat.mag, binary64] at hk
  simp only [FloatFormat.nextafter, FloatFormat.isnan, FloatFormat.inf, FloatFormat.mag,
    FloatFormat.key, FloatFormat.sign, binary64, decide_eq_false_iff_not, not_lt]
  norm_num at nx ny hx hk ⊢
  simp only [decide_eq_not_decide]
  split_ifs at hk ⊢ <;> omega

/-- For non-NaN `double` patterns the walk of `T` steps reaches the target
exactly when the keys are at most `T` apart. -/
theorem cmpeq_arrays_walk_reaches (T x y : Nat) (hx : x < 2 ^ 64) (hy : y < 2 ^ 64)
    (nx : binary64.isnan x = false) (ny : binary64.isnan y = false) :
    binary64.ne (cmpeq_arrays_walk binary64 T x y) y = false ↔
      (binary64.key x - binary64.key y).natAbs ≤ T := by
  induction T generalizing x with
  | zero =>
    simp only [cmpeq_arrays_walk, FloatFormat.ne, nx, ny, Bool.false_or,
      decide_eq_false_iff_not, not_not]
    omega
  | succ T ih =>
    simp only [cmpeq_arrays_walk, cmpeq_arrays_nextafter_other binary64 (by decide)]
    by_cases hk : binary64.key x = binary64.key y
    · have hn : binary64.nextafter x y = y := by simp [FloatFormat.nextafter, nx, ny, hk]
      rw [hn, ih y hy ny]
      omega
    · obtain ⟨h1, h2, h3⟩ := binary64_nextafter_step x y hx nx ny hk
      rw [ih _ h1 h2, h3]
      split_ifs <;> omega

theorem cmpeq_arrays_walk_double_isnan (T x y : Nat) (h : binary64.isnan x = true) :
    binary64.isnan (cmpeq_arrays_walk binary64 T x y) = true := by
  induction T generalizing x with
  | zero => exact h
  | succ T ih =>
    simp only [cmpeq_arrays_walk, cmpeq_arrays_nextafter_other binary64 (by decide)]
    exact ih _ (binary64.isnan_nextafter x y h)

/-- The walk from `x` toward `y` over `double` lanes reaches `y` exactly when
the walk from `y` toward `x` reaches `x`. -/
theorem cmpeq_arrays_walk_double_symm (T x y : Nat) (hx : x < 2 ^ 64) (hy : y < 2 ^ 64) :
    binary64.ne (cmpeq_arrays_walk binary64 T x y) y
      = binary64.ne (cmpeq_arrays_walk binary64 T y x) x := by
  cases nx : binary64.isnan x with
  | true =>
    have h1 := cmpeq_arrays_walk_double_isnan T x y nx
    simp [FloatFormat.ne, nx, h1]
  | false =>
    cases ny : binary64.isnan y with
    | true =>
      have h1 := cmpeq_arrays_walk_double_isnan T y x ny
      simp [FloatFormat.ne, ny, h1]
    | false =>
      have ha := cmpeq_arrays_walk_reaches T x y hx hy nx ny
      have hb := cmpeq_arrays_walk_reaches T y x hy hx ny nx
      have hab : (binary64.key x - binary64.key y).natAbs
          = (binary64.key y - binary64.key x).natAbs := by omega
      rw [hab] at ha
      cases h1 : binary64.ne (cmpeq_arrays_walk binary64 T x y) y <;>
        cases h2 : binary64.ne (cmpeq_arrays_walk binary64 T y x) x <;>
        first
        | rfl
        | (rw [h1] at ha; rw [h2] at hb; simp at ha hb; omega)

/-- The walk from `x` toward `y` over `float` lanes reaches `y` exactly when
the walk from `y` toward `x` reaches `x`. -/
theorem cmpeq_arrays_walk_float_symm (T x y : Nat) (hx : x < 2 ^ 32) (hy : y < 2 ^ 32) :
    binary32.ne (cmpeq_arrays_walk binary32 T x y) y
      = binary32.ne (cmpeq_arrays_walk binary32 T y x) x := by
  rw [cmpeq_arrays_walk_float T x y hy, cmpeq_arrays_walk_float T y x hx, binary32_ne_comm]

theorem cmpeq_arrays_symm (f : FloatFormat)
    (hw : ∀ T x y, x < 2 ^ f.width → y < 2 ^ f.width →
      f.ne (cmpeq_arrays_walk f T x y) y = f.ne (cmpeq_arrays_walk f T y x) x)
    (n : Nat) (a b : Nat → Nat) (T : Nat) (ha : ∀ i, a i < 2 ^ f.width)
    (hb : ∀ i, b i < 2 ^ f.width) :
    cmpeq_arrays f n a b T = cmpeq_arrays f n b a T := by
  rw [Bool.eq_iff_iff, cmpeq_arrays_iff, cmpeq_arrays_iff]
  constructor
  · intro h k hk
    rw [← hw T (a k) (b k) (ha k) (hb k)]
    exact h k hk
  · intro h k hk
    rw [hw T (a k) (b k) (ha k) (hb k)]
    exact h k hk

namespace TestCase

theorem memcmp_eq_symm (a b : Result) (n : Nat) : memcmp_eq a b n = memcmp_eq b a n := by
  rw [Bool.eq_iff_iff, memcmp_eq_iff, memcmp_eq_iff]
  exact ⟨fun h i hi => (h i hi).symm, fun h i hi => (h i hi).symm⟩

theorem lane4_lt (r : Result) (i : Nat) : r.lane 4 i < 2 ^ binary32.width := by
  have := lane_lt r 4 i
  norm_num [binary32] at this ⊢
  exact this

theorem lane8_lt (r : Result) (i : Nat) : r.lane 8 i < 2 ^ binary64.width := by
  have := lane_lt r 8 i
  norm_num [binary64] at this ⊢
  exact this

/-- The value comparison of two snapshots with the same tag does not depend
on their order. -/
theorem cmpeq_result_symm (ia ib : Result) (prec : Nat) (ht : ia.type = ib.type) :
    cmpeq_result ia ib prec = cmpeq_result ib ia prec := by
  unfold cmpeq_result
  rw [← ht]
  cases hs : size_for_type ia.type with
  | none => rfl
  | some n =>
    simp only []
    rw [memcmp_eq_symm ia ib n]
    split
    · rfl
    · split
      · rfl
      · split
        · exact congrArg some (cmpeq_arrays_symm binary32 cmpeq_arrays_walk_float_symm
            4 _ _ prec (lane4_lt ia) (lane4_lt ib))
        · exact congrArg some (cmpeq_arrays_symm binary64 cmpeq_arrays_walk_double_symm
            2 _ _ prec (lane8_lt ia) (lane8_lt ib))
        · exact congrArg some (cmpeq_arrays_symm binary32 cmpeq_arrays_walk_float_symm
            8 _ _ prec (lane4_lt ia) (lane4_lt ib))
        · exact congrArg some (cmpeq_arrays_symm binary64 cmpeq_arrays_walk_double_symm
            4 _ _ prec (lane8_lt ia) (lane8_lt ib))
        · rfl

theorem pair_prec_symm (ia ib : Result) : pair_prec ia ib = pair_prec ib ia := by
  simp [pair_prec, Nat.max_comm]

end TestCase

namespace TestEqualImpl

open TestCase

/-- The flag the loop returns does not depend on the order of the two sides
nor on the text written so far. -/
theorem run_loop_symm (t t' : TestEqualImpl) (as bs : List Result) (i : Nat) (ok : Bool)
    (e e' : List Out) :
    (run_loop t as bs i ok e).map Prod.fst = (run_loop t' bs as i ok e').map Prod.fst := by
  induction as generalizing bs i ok e e' with
  | nil => cases bs <;> simp [run_loop]
  | cons ia as ih =>
    cases bs with
    | nil => simp [run_loop]
    | cons ib bs =>
      by_cases hl : ia.line = ib.line
      · by_cases ht : ia.type = ib.type
        · rw [run_loop_cons t ia ib as bs i ok e hl ht,
            run_loop_cons t' ib ia bs as i ok e' hl.symm ht.symm,
            pair_prec_symm ib ia, ← cmpeq_result_symm ia ib (pair_prec ia ib) ht]
          cases hc : cmpeq_result ia ib (pair_prec ia ib) with
          | none => rfl
          | some v =>
            cases v with
            | true => exact ih bs (i + 1) ok e e'
            | false => exact ih bs (i + 1) false _ _
        · have ht' : ¬ ib.type = ia.type := fun h => ht h.symm
          simp [run_loop, hl, ht, ht']
      · have hl' : ¬ ib.line = ia.line := fun h => hl h.symm
        simp [run_loop, hl, hl']

theorem run_symm (t t' : TestEqualImpl) (ha : t'.a = t.b) (hb : t'.b = t.a) :
    t.run.map Prod.fst = t'.run.map Prod.fst := by
  unfold run
  rw [ha, hb]
  by_cases hn : t.a.name_ = t.b.name_
  · by_cases hs : t.a.results_.length = t.b.results_.length
    · simp only [hn, hs, ne_eq, not_true_eq_false, if_false]
      exact run_loop_symm t t' _ _ 0 true [] []
    · have hs' : ¬ t.b.results_.length = t.a.results_.length := fun h => hs h.symm
      simp [hn, hs, hs']
  · have hn' : ¬ t.b.name_ = t.a.name_ := fun h => hn h.symm
    simp [hn, hn']

end TestEqualImpl

/-- C26: `test_equal(a, arch_a, b, arch_b)` and `test_equal(b, arch_b, a,
arch_a)` return the same boolean (or both abort); and for two `float` or
`double` lanes the walk of `T` steps from the first toward the second reaches
it exactly when the walk from the second toward the first does. -/
theorem C26_symmetric (a b : TestCase) (a_arch b_arch : String) :
    (test_equal a a_arch b b_arch).map Prod.fst = (test_equal b b_arch a a_arch).map Prod.fst ∧
    (∀ T x y : Nat, x < 2 ^ 32 → y < 2 ^ 32 →
      binary32.ne (cmpeq_arrays_walk binary32 T x y) y
        = binary32.ne (cmpeq_arrays_walk binary32 T y x) x) ∧
    (∀ T x y : Nat, x < 2 ^ 64 → y < 2 ^ 64 →
      binary64.ne (cmpeq_arrays_walk binary64 T x y) y
        = binary64.ne (cmpeq_arrays_walk binary64 T y x) x) := by
  exact ⟨TestEqualImpl.run_symm ⟨a, a_arch, b, b_arch⟩ ⟨b, b_arch, a, a_arch⟩ rfl rfl,
    fun T x y hx hy => cmpeq_arrays_walk_float_symm T x y hx hy,
    fun T x y hx hy => cmpeq_arrays_walk_double_symm T x y hx hy⟩
